import Mathlib

/-!
# Tube-Segmentation-Framework: loading, cropping, buffer planning, filtering and retry

A shallow embedding of `src/tube-segmentation.cpp` and `src/parameters.cpp`:

* the header parsing, type dispatch and intensity limits of `readDatasetAndTransfer`,
* its cropping stage (bounding-box, fixed-margin and fallback policies),
* the planning of the linear vector-field buffers and the order of the stages in
  `runCircleFittingMethod`,
* the retry wrapper `run`, and
* the parameter store with `setParameter` and the getters.

Conventions.  A C++ `int` is a Lean `Int`; volume dimensions are assumed to lie in the
`int` range, so plain `int` arithmetic does not wrap.  Conversions through `size_t` and
`unsigned int` are written out with an explicit modulus.  The C++ operator `%` on `int`
is `Int.tmod` and `/` is `Int.tdiv`.  Single-precision values that the code converts
back to integers are modelled exactly: a non-negative `float` is the rational
`m / 2 ^ k` for natural numbers `m`, `k`, and every rounding is IEEE-754
round-to-nearest-even to 24 significant bits.  A finite `float` or `double` (a
parameter, a sample, an intensity limit) is the rational number it denotes; the reading
of decimal text by `atof`, the conversion of a `double` to `float` and the
single-precision operations of `NumericParameter::validate` round as IEEE-754 prescribes
(`roundBinary`); infinities and NaN appear only where a definition says so.
Device calls (kernel launches, image allocation and copies) are not modelled beyond the
regions and sizes handed to them.
-/

namespace TSF

/-! ## Single-precision rounding -/

/-- Search for the least `s` (starting at `s`, at most `fuel` steps) with `n < 2 ^ (24 + s)`. -/
def sigShiftFrom (n : Nat) : Nat → Nat → Nat
  | 0, s => s
  | fuel + 1, s => if n < 2 ^ (24 + s) then s else sigShiftFrom n fuel (s + 1)

/-- Number of low bits that do not fit into a 24-bit significand: the least `s` with
`n < 2 ^ (24 + s)`. -/
def sigShift (n : Nat) : Nat := sigShiftFrom n n 0

/-- Quotient `n / d` rounded to the nearest integer, ties to even. -/
def rneDiv (n d : Nat) : Nat :=
  if 2 * (n % d) < d then n / d
  else if d < 2 * (n % d) then n / d + 1
  else if (n / d) % 2 = 0 then n / d else n / d + 1

/-- The natural number `n` rounded to 24 significant bits (round-to-nearest-even): the
value of `(float)n`, and of any float operation whose exact result is `n / 2 ^ k`. -/
def roundToFloat24 (n : Nat) : Nat :=
  rneDiv n (2 ^ sigShift n) * 2 ^ sigShift n

/-- The value of `round(size * percentToRemove)` with `percentToRemove = 0.15f`:
`0.15f` is `10066330 / 2 ^ 26`; `size` is converted to `float`, the product is rounded to
`float`, and `round` rounds half away from zero.  (A negative `size` has no defined
conversion to `size_t`; it is read as 0 here.) -/
def marginOffset (size : Int) : Nat :=
  (roundToFloat24 (roundToFloat24 size.toNat * 10066330) + 2 ^ 25) / 2 ^ 26

/-- Conversion of an integer value to a 32-bit `int` (two's complement). -/
def toInt32 (v : Int) : Int := (v + 2 ^ 31) % 2 ^ 32 - 2 ^ 31

/-- The statement `size->x = size->x - offset[0]*2`: the subtraction is carried out in
`size_t` (64 bits) and the result is stored into an `int`. -/
def subtractMargin (size : Int) (offset : Nat) : Int :=
  toInt32 ((size % 2 ^ 64 - 2 * (offset : Int)) % 2 ^ 64)

/-! ## Rounding to `double` and `float` -/

/-- Search for the least `k` (from `k`, at most `fuel` steps) with `n < 2 ^ k`. -/
def bitLengthFrom (n : Nat) : Nat → Nat → Nat
  | 0, k => k
  | fuel + 1, k => if n < 2 ^ k then k else bitLengthFrom n fuel (k + 1)

/-- The number of binary digits of `n`: the least `k` with `n < 2 ^ k`. -/
def bitLength (n : Nat) : Nat := bitLengthFrom n n 0

/-- The binary exponent of the positive rational `n / d`: the integer `e` with
`2 ^ e ≤ n / d < 2 ^ (e + 1)`. -/
def binaryExponent (n d : Nat) : Int :=
  if (if 0 ≤ (bitLength n : Int) - (bitLength d : Int)
      then d * 2 ^ ((bitLength n : Int) - (bitLength d : Int)).toNat ≤ n
      else d ≤ n * 2 ^ ((bitLength d : Int) - (bitLength n : Int)).toNat)
  then (bitLength n : Int) - (bitLength d : Int)
  else (bitLength n : Int) - (bitLength d : Int) - 1

/-- The magnitude `n / d` rounded to a multiple of `2 ^ k`, to nearest, ties to even. -/
def roundToQuantum (n d : Nat) (k : Int) : ℚ :=
  if 0 ≤ k then (rneDiv n (d * 2 ^ k.toNat) : ℚ) * 2 ^ k.toNat
  else (rneDiv (n * 2 ^ (-k).toNat) d : ℚ) / 2 ^ (-k).toNat

/-- The rational `q` rounded to the nearest value of the binary floating-point format
with `p` significant bits and least normal exponent `emin` (IEEE-754 round-to-nearest,
ties to even), subnormal values included. The exponent is not bounded above: a result of
magnitude `2 ^ (emax + 1)` or more stands for an overflow to infinity. -/
def roundBinary (p : Nat) (emin : Int) (q : ℚ) : ℚ :=
  if q.num = 0 then 0
  else if q.num < 0 then
    - roundToQuantum q.num.natAbs q.den
        (max (binaryExponent q.num.natAbs q.den) emin - ((p : Int) - 1))
  else
    roundToQuantum q.num.natAbs q.den
      (max (binaryExponent q.num.natAbs q.den) emin - ((p : Int) - 1))

/-- The value of a real number as a `double` (53 significant bits, least normal exponent
-1022), when it is finite. -/
def toDouble (q : ℚ) : ℚ := roundBinary 53 (-1022) q

/-- The value of a real number, or of a `double`, as a `float` (24 significant bits,
least normal exponent -126), when it is finite. -/
def toFloat (q : ℚ) : ℚ := roundBinary 24 (-126) q

/-- Whether a rounded value lies in the finite range of `float`; otherwise the `float` is
infinite. -/
def isFiniteFloat (q : ℚ) : Bool := decide (|q| < 2 ^ 128)

/-- The result of a single-precision operation: a finite number, an infinity (of either
sign) or NaN. -/
inductive FloatValue
  | finite (q : ℚ)
  | infinite
  | nan
deriving DecidableEq, Repr

/-- The single-precision difference `a - b` of two finite `float`s. -/
def floatSub (a b : ℚ) : FloatValue :=
  if isFiniteFloat (toFloat (a - b)) then .finite (toFloat (a - b)) else .infinite

/-- The single-precision quotient `a / b` for a finite divisor `b`: a finite non-zero
number divided by zero is infinite, zero divided by zero is NaN. -/
def floatDiv (a : FloatValue) (b : ℚ) : FloatValue :=
  match a with
  | .finite x =>
    if b = 0 then (if x = 0 then .nan else .infinite)
    else if isFiniteFloat (toFloat (x / b)) then .finite (toFloat (x / b)) else .infinite
  | .infinite => .infinite
  | .nan => .nan

/-- The test `floor(x) == x`: true for whole numbers and for infinities (which `floor`
returns unchanged), false for NaN. -/
def floorIsSelf : FloatValue → Bool
  | .finite q => decide (((⌊q⌋ : Int) : ℚ) = q)
  | .infinite => true
  | .nan => false

/-! ## Data model of the cropping stage -/

/-- The triple `SIPL::int3`. -/
structure Int3 where
  x : Int
  y : Int
  z : Int
deriving DecidableEq, Repr

/-- What a device image holds, described relative to the volume that was loaded: voxel
`p` of the image is voxel `p + origin` of the loaded volume, for `p` inside `extent`. -/
structure Dataset where
  origin : Int3
  extent : Int3
deriving DecidableEq, Repr

/-- The effect of `enqueueCopyImage(dataset, imageHUvolume, srcOffset, origo, region)`
followed by `dataset = imageHUvolume`. -/
def copyImage (dataset : Dataset) (srcOffset region : Int3) : Dataset :=
  { origin := ⟨dataset.origin.x + srcOffset.x, dataset.origin.y + srcOffset.y,
               dataset.origin.z + srcOffset.z⟩,
    extent := region }

/-- The state the cropping stage works on: `*size`, the shift vector stored in the
output object, and the device image `dataset`. -/
structure CropState where
  size : Int3
  shiftVector : Int3
  dataset : Dataset
deriving DecidableEq, Repr

/-- The configuration options read by the cropping stage. -/
structure CropParams where
  cropping : String
  parameters : String
  croppingStartZ : String
  minScanLinesLung : Int
  minScanLinesThreshold : Int

/-- The per-slice occupancy counts written by the crop kernel (`short` arrays of
`size->x`, `size->y` and `size->z` entries). -/
structure ScanLines where
  x : List Int
  y : List Int
  z : List Int

/-- The box `x1,x2,y1,y2,z1,z2`. -/
structure Box where
  x1 : Int
  x2 : Int
  y1 : Int
  y2 : Int
  z1 : Int
  z2 : Int
deriving DecidableEq, Repr

/-- How the cropping stage ends. `raised st` is the `SIPLException` of the zero-size
check, with the state at the moment of the throw. -/
inductive CropOutcome
  | raised (st : CropState)
  | completed (st : CropState)
  | outOfFuel
deriving DecidableEq, Repr

/-! ## The scans -/

/-- The loop `for(sliceNr = n - k; sliceNr < n; sliceNr++) if(inside(scan[sliceNr]))
{ found = sliceNr; break; }`, with `k` the number of slices still to visit. -/
def scanUp (inside : Int → Bool) (scan : List Int) (n : Nat) : Nat → Option Nat
  | 0 => none
  | k + 1 =>
    if inside (scan.getD (n - (k + 1)) 0) then some (n - (k + 1))
    else scanUp inside scan n k

/-- The loop `for(sliceNr = start; sliceNr > 0; sliceNr--) if(inside(scan[sliceNr]))
{ found = sliceNr; break; }`. -/
def scanDown (inside : Int → Bool) (scan : List Int) : Nat → Option Nat
  | 0 => none
  | i + 1 =>
    if inside (scan.getD (i + 1) 0) then some (i + 1)
    else scanDown inside scan i

/-- The six scans of the bounding-box policy (`readDatasetAndTransfer`, lines 1614-1687)
and the optional swap of `z1`, `z2`. -/
def discoverBox (size : Int3) (scans : ScanLines) (minScanLines : Int)
    (croppingStartZ : String) : Box :=
  let startSlice : Int := if croppingStartZ = "middle" then Int.tdiv size.z 2 else 0
  let a : Int := if croppingStartZ = "middle" then -1 else 1
  let insideXY : Int → Bool := fun v => decide (v > minScanLines)
  let insideZ : Int → Bool := fun v => decide (a * v > a * minScanLines)
  let x1 : Int := ((scanUp insideXY scans.x size.x.toNat size.x.toNat).map Int.ofNat).getD 0
  let x2 : Int := ((scanDown insideXY scans.x (size.x - 1).toNat).map Int.ofNat).getD size.x
  let y1 : Int := ((scanUp insideXY scans.y size.y.toNat size.y.toNat).map Int.ofNat).getD 0
  let y2 : Int := ((scanDown insideXY scans.y (size.y - 1).toNat).map Int.ofNat).getD size.y
  let z2 : Int :=
    ((scanUp insideZ scans.z size.z.toNat (size.z - startSlice).toNat).map Int.ofNat).getD size.z
  let z1 : Int :=
    ((scanDown insideZ scans.z (size.z - startSlice - 1).toNat).map Int.ofNat).getD 0
  if croppingStartZ = "end" then ⟨x1, x2, y1, y2, z2, z1⟩ else ⟨x1, x2, y1, y2, z1, z2⟩

/-! ## Alignment to a multiple of 4 -/

/-- The growth loop `while(SIZE % 4 != 0 && SIZE < n) { if(lower && x1 > 0) x1--;
else if(x2 < n) x2++; lower = !lower; SIZE = x2-x1; }`. The result is `x1`, `x2`, `lower`
at loop exit, or `none` when the fuel does not suffice. -/
def growAxis (n : Int) : Nat → Int → Int → Bool → Option (Int × Int × Bool)
  | 0, x1, x2, lower =>
    if (x2 - x1).tmod 4 ≠ 0 ∧ x2 - x1 < n then none else some (x1, x2, lower)
  | fuel + 1, x1, x2, lower =>
    if (x2 - x1).tmod 4 ≠ 0 ∧ x2 - x1 < n then
      if lower = true ∧ x1 > 0 then growAxis n fuel (x1 - 1) x2 (!lower)
      else if x2 < n then growAxis n fuel x1 (x2 + 1) (!lower)
      else growAxis n fuel x1 x2 (!lower)
    else some (x1, x2, lower)

/-- The loop `while(SIZE % 4 != 0) SIZE--;`, or `none` when the fuel does not suffice. -/
def shrinkToMultipleOf4 : Nat → Int → Option Int
  | 0, s => if s.tmod 4 ≠ 0 then none else some s
  | fuel + 1, s => if s.tmod 4 ≠ 0 then shrinkToMultipleOf4 fuel (s - 1) else some s

/-- Alignment of one axis of the bounding box: growth loop, then the shrink fallback.
Returns the final `x1`, `x2`, `SIZE` and `lower`. -/
def alignAxis (n x1 x2 : Int) (lower : Bool) : Option (Int × Int × Int × Bool) :=
  match growAxis n 8 x1 x2 lower with
  | none => none
  | some (a, b, l) =>
    match shrinkToMultipleOf4 4 (b - a) with
    | none => none
    | some s => some (a, b, s, l)

/-! ## The three cropping policies -/

/-- The local `minScanLines` of the bounding-box branch. -/
def minScanLinesOf (p : CropParams) : Int :=
  if p.cropping = "lung" then p.minScanLinesLung else p.minScanLinesThreshold

/-- The local `cropping_start_z` of the bounding-box branch. -/
def startZOf (p : CropParams) : String :=
  if p.cropping = "lung" then "middle" else p.croppingStartZ

/-- The box found by the scans (after the optional swap), before alignment. -/
def boxOf (p : CropParams) (scans : ScanLines) (st : CropState) : Box :=
  discoverBox st.size scans (minScanLinesOf p) (startZOf p)

/-- The branch `cropping == "lung" || cropping == "threshold"` of
`readDatasetAndTransfer` (lines 1562-1775): scans, zero-size check, alignment of the three
axes with the shared flag `lower`, and the copy of the region found. -/
def cropBoundingBox (p : CropParams) (scans : ScanLines) (st : CropState) : CropOutcome :=
  let b := boxOf p scans st
  if b.x2 - b.x1 = 0 ∨ b.y2 - b.y1 = 0 ∨ b.z2 - b.z1 = 0 then .raised st
  else
    match alignAxis st.size.x b.x1 b.x2 false with
    | none => .outOfFuel
    | some (x1, _, sx, l1) =>
      match alignAxis st.size.y b.y1 b.y2 l1 with
      | none => .outOfFuel
      | some (y1, _, sy, l2) =>
        match alignAxis st.size.z b.z1 b.z2 l2 with
        | none => .outOfFuel
        | some (z1, _, sz, _) =>
          .completed
            { size := ⟨sx, sy, sz⟩,
              shiftVector := ⟨x1, y1, z1⟩,
              dataset := copyImage st.dataset ⟨x1, y1, z1⟩ ⟨sx, sy, sz⟩ }

/-- The branch for the preset `AAA-Vessels-CT` of `readDatasetAndTransfer` (lines
1776-1801). `int3Default` is the value of a default-constructed `SIPL::int3` (the local
`shiftVector` is never assigned here). -/
def cropFixedMargin (int3Default : Int3) (st : CropState) : CropOutcome :=
  let ox := marginOffset st.size.x
  let oy := marginOffset st.size.y
  match shrinkToMultipleOf4 4 (subtractMargin st.size.x ox),
        shrinkToMultipleOf4 4 (subtractMargin st.size.y oy),
        shrinkToMultipleOf4 4 st.size.z with
  | some sx, some sy, some sz =>
    .completed
      { size := ⟨sx, sy, sz⟩,
        shiftVector := int3Default,
        dataset := copyImage st.dataset ⟨ox, oy, 0⟩ ⟨sx, sy, sz⟩ }
  | _, _, _ => .outOfFuel

/-- The final `else` branch of `readDatasetAndTransfer` (lines 1802-1831): trim to
multiples of 4 when some dimension is not one. -/
def cropFallback (int3Default : Int3) (st : CropState) : CropOutcome :=
  if st.size.x.tmod 4 ≠ 0 ∨ st.size.y.tmod 4 ≠ 0 ∨ st.size.z.tmod 4 ≠ 0 then
    match shrinkToMultipleOf4 4 st.size.x, shrinkToMultipleOf4 4 st.size.y,
          shrinkToMultipleOf4 4 st.size.z with
    | some sx, some sy, some sz =>
      .completed
        { size := ⟨sx, sy, sz⟩,
          shiftVector := int3Default,
          dataset := copyImage st.dataset ⟨0, 0, 0⟩ ⟨sx, sy, sz⟩ }
    | _, _, _ => .outOfFuel
  else .completed { st with shiftVector := int3Default }

/-- The cropping stage of `readDatasetAndTransfer` (lines 1559-1832), up to and including
`output->setShiftVector(shiftVector)`. -/
def cropStage (p : CropParams) (scans : ScanLines) (int3Default : Int3)
    (st : CropState) : CropOutcome :=
  if p.cropping = "lung" ∨ p.cropping = "threshold" then cropBoundingBox p scans st
  else if p.parameters = "AAA-Vessels-CT" then cropFixedMargin int3Default st
  else cropFallback int3Default st

/-- The state right after loading a volume of the given size: the image holds the whole
volume. -/
def loaded (size shift : Int3) : CropState :=
  { size := size, shiftVector := shift, dataset := ⟨⟨0, 0, 0⟩, size⟩ }

/-! ## Vector-field buffers on the staged path of `runCircleFittingMethod` -/

/-- The statement `unsigned int maxBufferSize =
ocl.device.getInfo<CL_DEVICE_MAX_MEM_ALLOC_SIZE>()`: the device reports its maximum
allocation size as a 64-bit `cl_ulong`, which is stored into 32 bits. -/
def maxBufferSizeOf (deviceMaxAlloc : Nat) : Nat := deviceMaxAlloc % 2 ^ 32

/-- The component width: `sizeof(short)` with 16-bit vectors, `sizeof(float)` otherwise. -/
def componentBytes (vectors16bit : Bool) : Nat := if vectors16bit then 2 else 4

/-- Conversion of an `int` to `size_t`. -/
def toSizeT (v : Int) : Nat := (v % 2 ^ 64).toNat

/-- The expression `4*sizeof(T)*totalSize`, evaluated in `size_t`. -/
def requiredBytes (w : Nat) (totalSize : Int) : Nat := (4 * w * toSizeT totalSize) % 2 ^ 64

/-- Search for the least `s` (from `s`, at most `fuel` steps) with `a < b * 2 ^ (24 + s)`. -/
def quotShiftDownFrom (a b : Nat) : Nat → Nat → Nat
  | 0, s => s
  | fuel + 1, s => if a < b * 2 ^ (24 + s) then s else quotShiftDownFrom a b fuel (s + 1)

/-- Search for the least `t` (from `t`, at most `fuel` steps) with `b * 2 ^ 23 ≤ a * 2 ^ t`. -/
def quotShiftUpFrom (a b : Nat) : Nat → Nat → Nat
  | 0, t => t
  | fuel + 1, t => if b * 2 ^ 23 ≤ a * 2 ^ t then t else quotShiftUpFrom a b fuel (t + 1)

/-- The value of `floor(a / b)` where `a`, `b` are `float`s holding natural numbers and
`/` is the single-precision division: the exact quotient is rounded to 24 significant bits
(round-to-nearest-even) and then rounded down to an integer. A quotient of at least
`2 ^ 24` is rounded at the unit `2 ^ s`; a smaller one at the unit `2 ^ -t`. (Division by
zero has no defined conversion to an integer; it is read as 0 here.) -/
def floorOfFloatDiv (a b : Nat) : Nat :=
  if a = 0 ∨ b = 0 then 0
  else if b * 2 ^ 24 ≤ a then
    rneDiv a (b * 2 ^ quotShiftDownFrom a b a 0) * 2 ^ quotShiftDownFrom a b a 0
  else
    rneDiv (a * 2 ^ quotShiftUpFrom a b (24 + b) 0) b / 2 ^ quotShiftUpFrom a b (24 + b) 0

/-- The statement `unsigned int limit = (float)maxBufferSize / (4*sizeof(T))`: the divisor
is 8 or 16, so the single-precision quotient is exact; the conversion to `unsigned int`
truncates. -/
def splitLimit (maxBufferSize w : Nat) : Nat := roundToFloat24 maxBufferSize / (4 * w)

/-- The expression `floor((float)limit/(size.x*size.y))` for a positive slice area. -/
def splitBoundary (limit : Nat) (x y : Int) : Nat :=
  floorOfFloatDiv (roundToFloat24 limit) (roundToFloat24 (x * y).toNat)

/-- The linear buffers created for the vector field: `usingTwoBuffers`, `maxZ` (the
kernel argument 5), the byte size of `vectorFieldBuffer`, and the byte size of
`vectorFieldBuffer2` when it is allocated. -/
structure VectorFieldBuffers where
  usingTwoBuffers : Bool
  maxZ : Int
  vectorFieldBuffer : Nat
  vectorFieldBuffer2 : Option Nat
deriving DecidableEq, Repr

/-- The buffer planning of `runCircleFittingMethod` on the staged path (`no3Dwrite`),
shared line for line by the small and the large pass. The voxel count
`size.x*size.y*size.z` is taken to fit an `int` (the overflow of the `int` product is
undefined behaviour).
`splitSize` is an `unsigned int`: the product `maxZ*size.x*size.y*4` is formed in `int`,
widened to `size_t` for the multiplication by `sizeof(T)` and truncated to 32 bits (a
wrap of the `int` product changes it by a multiple of `2 ^ 32`, which the truncation
removes again). -/
def planVectorFieldBuffers (deviceMaxAlloc : Nat) (vectors16bit : Bool) (size : Int3) :
    VectorFieldBuffers :=
  let totalSize : Int := size.x * size.y * size.z
  let maxBufferSize := maxBufferSizeOf deviceMaxAlloc
  let w := componentBytes vectors16bit
  if requiredBytes w totalSize < maxBufferSize then
    { usingTwoBuffers := false, maxZ := size.z,
      vectorFieldBuffer := requiredBytes w totalSize, vectorFieldBuffer2 := none }
  else
    let limit := splitLimit maxBufferSize w
    let maxZ : Int := (splitBoundary limit size.x size.y : Int)
    let splitSize : Nat := (toSizeT (maxZ * size.x * size.y * 4) * w) % 2 ^ 64 % 2 ^ 32
    { usingTwoBuffers := true, maxZ := maxZ,
      vectorFieldBuffer := splitSize,
      vectorFieldBuffer2 := some ((requiredBytes w totalSize + 2 ^ 64 - splitSize) % 2 ^ 64) }

/-- Lines 303-335: the buffers of the small pass. -/
def smallPassBuffers (deviceMaxAlloc : Nat) (vectors16bit : Bool) (size : Int3) :
    VectorFieldBuffers :=
  planVectorFieldBuffers deviceMaxAlloc vectors16bit size

/-- Lines 606-642: the buffers of the large pass. -/
def largePassBuffers (deviceMaxAlloc : Nat) (vectors16bit : Bool) (size : Int3) :
    VectorFieldBuffers :=
  planVectorFieldBuffers deviceMaxAlloc vectors16bit size

/-- One `enqueueCopyBufferToImage`: which buffer (1 or 2), the first target slice
(`offset[2]`) and the number of slices (`region[2]`, a `size_t`). -/
structure BufferCopy where
  source : Nat
  offsetZ : Nat
  regionZ : Nat
deriving DecidableEq, Repr

/-- The copies from the linear buffers into the vector-field image (both passes). -/
def copyBuffersToImage (deviceMaxAlloc : Nat) (vectors16bit : Bool) (size : Int3) :
    List BufferCopy :=
  if (planVectorFieldBuffers deviceMaxAlloc vectors16bit size).usingTwoBuffers then
    let limit := splitLimit (maxBufferSizeOf deviceMaxAlloc) (componentBytes vectors16bit)
    let region2 : Nat := splitBoundary limit size.x size.y
    [⟨1, 0, region2⟩, ⟨2, region2, (toSizeT size.z + 2 ^ 64 - region2) % 2 ^ 64⟩]
  else
    [⟨1, 0, toSizeT size.z⟩]

/-- What `alignAxis` is shown to return: the grown box `[a, b)`, the final `SIZE`
(`b - a` trimmed to a multiple of 4) and the flag `l`, together with the relation
between the grown box, the discovered box `x1, x2` and the axis extent `n`. -/
def AxisAligned (n x1 x2 : Int) (lower : Bool) (a b : Int) (l : Bool) : Prop :=
  alignAxis n x1 x2 lower = some (a, b, (b - a) - (b - a) % 4, l) ∧ a ≤ x1 ∧ x2 ≤ b ∧
    ((b - a) % 4 = 0 ∨ n ≤ b - a) ∧ (0 ≤ x1 → 0 ≤ a) ∧ (x2 ≤ n → b ≤ n) ∧
    (b - a) - (x2 - x1) ≤ (x1 - x2) % 4 ∧
    ((x2 - x1) % 4 = 0 ∨ n ≤ x2 - x1 → a = x1 ∧ b = x2)

/-- The zero-size check of the bounding-box branch. -/
def ZeroWidth (b : Box) : Prop := b.x2 - b.x1 = 0 ∨ b.y2 - b.y1 = 0 ∨ b.z2 - b.z1 = 0

/-- The number `0.15 * x` rounded to the nearest integer (halves up), in exact arithmetic. -/
def roundFifteenPercent (x : Int) : Int := round ((15 : ℚ) / 100 * (x : ℚ))

/-! ## The retry wrapper `run` -/

/-- The OpenCL error code `CL_INVALID_COMMAND_QUEUE` (value fixed by the OpenCL headers). -/
def CL_INVALID_COMMAND_QUEUE : Int := -36

/-- How one pass through the `try` block of `run` ends: it finishes and `output` is
returned, a `cl::Error` with the given code is thrown, or some other exception is thrown
(which the `catch(cl::Error)` clause does not catch). -/
inductive AttemptOutcome (α : Type)
  | success (output : α)
  | clError (err : Int)
  | otherException
deriving DecidableEq, Repr

/-- What `run` is observed to do, in order. -/
inductive RunEvent
  | attempt (k : Nat)
  | deleteAllMemoryObjects
  | deleteOutput
  | throwSIPLException
  | returnOutput
deriving DecidableEq, Repr

/-- How an invocation of `run` ends for its caller. -/
inductive RunResult (α : Type)
  | returned (output : α)
  | threwSIPLException
  | propagated
  | outOfFuel
deriving DecidableEq, Repr

/-- The observable behaviour of one top-level invocation of `run`: its result, the events
in order, the number of pipeline attempts made, and the value of the global `runCounter`
afterwards. -/
structure RunTrace (α : Type) where
  result : RunResult α
  events : List RunEvent
  attempts : Nat
  runCounter : Int
deriving DecidableEq, Repr

/-- The body of `run` (lines 54-165) with its recursive retry. `pipeline k` is the outcome
of the `k`-th pass through the `try` block, `runCounter` the global counter on entry. -/
def runAttempts {α : Type} (pipeline : Nat → AttemptOutcome α) :
    Nat → Int → Nat → List RunEvent → RunTrace α
  | 0, runCounter, k, events => ⟨.outOfFuel, events, k, runCounter⟩
  | fuel + 1, runCounter, k, events =>
    match pipeline k with
    | .success output =>
      ⟨.returned output,
        events ++ [.attempt k, .deleteAllMemoryObjects, .returnOutput], k + 1, runCounter⟩
    | .clError err =>
      if err = CL_INVALID_COMMAND_QUEUE ∧ runCounter < 2 then
        runAttempts pipeline fuel (runCounter + 1) (k + 1)
          (events ++ [.attempt k, .deleteAllMemoryObjects, .deleteOutput])
      else
        ⟨.threwSIPLException,
          events ++ [.attempt k, .deleteAllMemoryObjects, .deleteOutput, .throwSIPLException],
          k + 1, runCounter⟩
    | .otherException => ⟨.propagated, events ++ [.attempt k], k + 1, runCounter⟩

/-- One top-level invocation of `run`, entered with the global `runCounter` at the given
value. -/
def run {α : Type} (pipeline : Nat → AttemptOutcome α) (runCounter : Int) : RunTrace α :=
  runAttempts pipeline 3 runCounter 0 []

/-- The pipeline outcomes listed in order; every later attempt repeats `last`. -/
def outcomesOf {α : Type} (outcomes : List (AttemptOutcome α)) (last : AttemptOutcome α) :
    Nat → AttemptOutcome α :=
  fun k => outcomes.getD k last

/-! ## The two passes of `runCircleFittingMethod` -/

/-- The numeric operators that `runCircleFittingMethod` invokes, as functions of the
buffers they read: `V` is a scalar volume, `F` a vector field, `T` a tube-detectness
buffer and `R` a radius buffer. Copies between buffers, images and the host do not change
contents and are not listed. `combine` yields the new contents of `TDFlarge` and
`radiusLarge`. -/
structure Kernels (V F T R : Type) where
  blurVolumeWithGaussian : V → ℚ → V
  createVectorField : V → ℚ → Int → F
  runCircleFittingTDF : F → ℚ → ℚ → ℚ → T × R
  runSplineTDF : F → ℚ → ℚ → ℚ → T × R
  runFMGGVF : F → F
  runGVF : F → Bool → F
  combine : T → R → T → R → T × R

/-- The options read by `runCircleFittingMethod`. A `float` parameter is the rational
number it denotes. -/
structure FilterParams where
  radiusMin : ℚ
  radiusMax : ℚ
  radiusStep : ℚ
  fmax : ℚ
  smallBlur : ℚ
  largeBlur : ℚ
  mode : String
  write3D : Bool
  vectors16bit : Bool
  useFmgGvf : Bool
  useSplineTdf : Bool

/-- The stages of `runCircleFittingMethod`, as they are launched. -/
inductive FilterStep
  | smallBlur
  | smallVectorField
  | smallTDF
  | earlyExit
  | largeBlur
  | largeVectorField
  | fmgGVF
  | slowGVF
  | standardGVF
  | largeSplineTDF
  | largeCircleTDF
  | combine
deriving DecidableEq, Repr

/-- What `runCircleFittingMethod` leaves in its three output arguments, and the stages it
ran. -/
structure FilterResult (F T R : Type) where
  steps : List FilterStep
  vectorField : F
  TDF : T
  radiusImage : R
deriving DecidableEq, Repr

/-- The stages that belong to the large pass (and the merge that follows it). -/
def FilterStep.isLarge : FilterStep → Bool
  | .largeBlur => true
  | .largeVectorField => true
  | .fmgGVF => true
  | .slowGVF => true
  | .standardGVF => true
  | .largeSplineTDF => true
  | .largeCircleTDF => true
  | .combine => true
  | _ => false

/-- The flag `useSlowGVF` (lines 744-757); the voxel count is taken to fit an `int`. -/
def useSlowGVF (p : FilterParams) (deviceMaxAlloc : Nat) (size : Int3) : Bool :=
  !p.write3D &&
    decide (maxBufferSizeOf deviceMaxAlloc <
      requiredBytes (componentBytes p.vectors16bit) (size.x * size.y * size.z))

/-- The vector field of the large pass after gradient vector flow (lines 530-766): blur
with the large sigma when it is positive, `createVectorField`, then the selected GVF. -/
def largeVectorField {V F T R : Type} (ks : Kernels V F T R) (p : FilterParams)
    (deviceMaxAlloc : Nat) (size : Int3) (dataset : V) : F :=
  let vectorSign : Int := if p.mode = "black" then -1 else 1
  let blurredVolume := if p.largeBlur > 0 then ks.blurVolumeWithGaussian dataset p.largeBlur
    else dataset
  let initVectorField := ks.createVectorField blurredVolume p.fmax vectorSign
  if p.useFmgGvf then ks.runFMGGVF initVectorField
  else if useSlowGVF p deviceMaxAlloc size then ks.runGVF initVectorField true
  else ks.runGVF initVectorField false

/-- The buffers `TDFlarge` and `radiusLarge` as the large tube-detectness leaves them
(lines 778-791). -/
def largeDetectness {V F T R : Type} (ks : Kernels V F T R) (p : FilterParams)
    (deviceMaxAlloc : Nat) (size : Int3) (dataset : V) : T × R :=
  if p.useSplineTdf then
    ks.runSplineTDF (largeVectorField ks p deviceMaxAlloc size dataset)
      (max (3 / 2) p.radiusMin) p.radiusMax p.radiusStep
  else
    ks.runCircleFittingTDF (largeVectorField ks p deviceMaxAlloc size dataset)
      (max (5 / 2) p.radiusMin) p.radiusMax p.radiusStep

/-- The stages launched by the large pass, before the merge. -/
def largeSteps (p : FilterParams) (deviceMaxAlloc : Nat) (size : Int3) : List FilterStep :=
  (if p.largeBlur > 0 then [FilterStep.largeBlur] else []) ++
    [.largeVectorField,
     if p.useFmgGvf then .fmgGVF
     else if useSlowGVF p deviceMaxAlloc size then .slowGVF else .standardGVF,
     if p.useSplineTdf then .largeSplineTDF else .largeCircleTDF]

/-- The code after the small-pass block (lines 530-849): the large pass, then the merge
when the small pass left `TDFsmall` and `radiusSmall` (`radiusMin < 2.5f`), then the copy
of `TDFlarge` and `radiusLarge` into the output images. -/
def largePass {V F T R : Type} (ks : Kernels V F T R) (p : FilterParams)
    (deviceMaxAlloc : Nat) (size : Int3) (dataset : V) (small : Option (T × R))
    (stepsBefore : List FilterStep) : FilterResult F T R :=
  let large := largeDetectness ks p deviceMaxAlloc size dataset
  let steps := stepsBefore ++ largeSteps p deviceMaxAlloc size
  match small with
  | some (tdfSmall, radiusSmall) =>
    let merged := ks.combine tdfSmall radiusSmall large.1 large.2
    ⟨steps ++ [.combine], largeVectorField ks p deviceMaxAlloc size dataset, merged.1, merged.2⟩
  | none => ⟨steps, largeVectorField ks p deviceMaxAlloc size dataset, large.1, large.2⟩

/-- The vector field `vectorFieldSmall` of the small pass (lines 247-445): blur with the
small sigma when it is positive, then `createVectorField`. -/
def smallVectorField {V F T R : Type} (ks : Kernels V F T R) (p : FilterParams)
    (dataset : V) : F :=
  let vectorSign : Int := if p.mode = "black" then -1 else 1
  let blurredVolume := if p.smallBlur > 0 then ks.blurVolumeWithGaussian dataset p.smallBlur
    else dataset
  ks.createVectorField blurredVolume p.fmax vectorSign

/-- The buffers `TDFsmallBuffer` and `radiusSmallBuffer` (line 466):
`runCircleFittingTDF(..., radiusMin, 3.0f, 0.5f)`. -/
def smallDetectness {V F T R : Type} (ks : Kernels V F T R) (p : FilterParams)
    (dataset : V) : T × R :=
  ks.runCircleFittingTDF (smallVectorField ks p dataset) p.radiusMin 3 (1 / 2)

/-- The stages launched by the small pass. -/
def smallSteps (p : FilterParams) : List FilterStep :=
  (if p.smallBlur > 0 then [FilterStep.smallBlur] else []) ++ [.smallVectorField, .smallTDF]

/-- The function `runCircleFittingMethod` (lines 215-849). -/
def runCircleFittingMethod {V F T R : Type} (ks : Kernels V F T R) (p : FilterParams)
    (deviceMaxAlloc : Nat) (size : Int3) (dataset : V) : FilterResult F T R :=
  if p.radiusMin < 5 / 2 then
    if p.radiusMax < 5 / 2 then
      ⟨smallSteps p ++ [.earlyExit], smallVectorField ks p dataset,
        (smallDetectness ks p dataset).1, (smallDetectness ks p dataset).2⟩
    else
      largePass ks p deviceMaxAlloc size dataset (some (smallDetectness ks p dataset))
        (smallSteps p)
  else
    largePass ks p deviceMaxAlloc size dataset none []

/-- Stand-in operators on natural numbers that leave a recognisable mark on their input. -/
def markingKernels : Kernels Nat Nat Nat Nat where
  blurVolumeWithGaussian := fun v _ => v + 1
  createVectorField := fun v _ _ => v + 10
  runCircleFittingTDF := fun f _ _ _ => (f + 100, f + 200)
  runSplineTDF := fun f _ _ _ => (f + 300, f + 400)
  runFMGGVF := fun f => f + 1000
  runGVF := fun f slow => if slow then f + 2000 else f + 3000
  combine := fun a b c d => (a + c, b + d)

/-! ## The parameter store -/

/-- The class `BoolParameter`. -/
structure BoolParameter where
  value : Bool
deriving DecidableEq, Repr

/-- The class `NumericParameter`; its four members are finite `float`s, each the
rational number it denotes. -/
structure NumericParameter where
  value : ℚ
  min : ℚ
  max : ℚ
  step : ℚ
deriving DecidableEq, Repr

/-- The class `StringParameter`. -/
structure StringParameter where
  value : String
  possibilities : List String
deriving DecidableEq, Repr

/-- The struct `paramList`: three maps from parameter names to parameters. -/
structure ParamList where
  bools : String → Option BoolParameter
  numerics : String → Option NumericParameter
  strings : String → Option StringParameter

/-- The method `StringParameter::validate`. -/
def StringParameter.validate (v : StringParameter) (value : String) : Bool :=
  if v.possibilities.length > 0 then decide (value ∈ v.possibilities) else true

/-- The method `StringParameter::set`. -/
def StringParameter.set (v : StringParameter) (value : String) : StringParameter :=
  if v.validate value then { v with value := value } else v

/-- The function `getParamStr`; `none` stands for the exception thrown for an unknown
name. -/
def getParamStr (parameters : ParamList) (parameterName : String) : Option String :=
  (parameters.strings parameterName).map fun v => v.value

/-- The assignment `parameters.strings[name] = v`. -/
def ParamList.setString (parameters : ParamList) (name : String) (v : StringParameter) :
    ParamList :=
  { parameters with strings := fun n => if n = name then some v else parameters.strings n }

/-! ## Text helpers (`std::string`, `atoi`, `atof`) -/

/-- The call `s.substr(pos)`; `none` stands for `std::out_of_range` (`pos > s.size()`). -/
def substrFrom (s : List Char) (pos : Nat) : Option (List Char) :=
  if pos ≤ s.length then some (s.drop pos) else none

/-- The call `s.find(c)`; `none` stands for `npos`. -/
def findChar (c : Char) : List Char → Option Nat
  | [] => none
  | x :: xs => if x = c then some 0 else (findChar c xs).map fun i => i + 1

/-- The call `s.rfind(c)`; `none` stands for `npos`. -/
def rfindChar (c : Char) : List Char → Option Nat
  | [] => none
  | x :: xs =>
    match rfindChar c xs with
    | some i => some (i + 1)
    | none => if x = c then some 0 else none

/-- The statements `int pos = s.find(" "); if(pos > 0) s = s.substr(0,pos);`. -/
def trimAtSpace (s : List Char) : List Char :=
  match findChar ' ' s with
  | some (p + 1) => s.take (p + 1)
  | _ => s

/-- The expression `s.substr(0, s.find(" "))` (with `npos` the whole string). -/
def takeToSpace (s : List Char) : List Char :=
  match findChar ' ' s with
  | some p => s.take p
  | none => s

/-- The expression `s.substr(s.find(" ")+1)` (`npos + 1` wraps to 0). -/
def dropPastSpace (s : List Char) : List Char :=
  match findChar ' ' s with
  | some p => s.drop (p + 1)
  | none => s

/-- The C predicate `isspace` in the default locale. -/
def isSpace (c : Char) : Bool := c.toNat = 32 || (9 ≤ c.toNat && c.toNat ≤ 13)

/-- The C predicate `isdigit`. -/
def isDigit (c : Char) : Bool := 48 ≤ c.toNat && c.toNat ≤ 57

/-- The digits read by `atoi`, accumulated onto `acc`. -/
def atoiDigits : List Char → Int → Int
  | [], acc => acc
  | c :: cs, acc => if isDigit c then atoiDigits cs (acc * 10 + ((c.toNat - 48 : Nat) : Int)) else acc

/-- The C function `atoi`, which is `(int) strtol(s, NULL, 10)`: white space, an optional
sign and digits; the value is limited to the range of `long` (64 bits) and then truncated
to the 32 bits of an `int`. -/
def atoi (s : List Char) : Int :=
  toInt32 (max (-(2 ^ 63)) (min (2 ^ 63 - 1)
    (match s.dropWhile isSpace with
    | '-' :: r => - atoiDigits r 0
    | '+' :: r => atoiDigits r 0
    | r => atoiDigits r 0)))

/-- The digits after the decimal point read by `strtod`: the value so far and the text
that follows the digits. -/
def atofFraction : List Char → ℚ → ℚ → ℚ × List Char
  | [], acc, _ => (acc, [])
  | c :: cs, acc, scale =>
    if isDigit c then atofFraction cs (acc + ((c.toNat - 48 : Nat) : ℚ) * scale) (scale / 10)
    else (acc, c :: cs)

/-- The digits before the decimal point read by `strtod`, and the fraction after it: the
value of the mantissa and the text that follows it. -/
def atofDigits : List Char → ℚ → ℚ × List Char
  | [], acc => (acc, [])
  | c :: cs, acc =>
    if isDigit c then atofDigits cs (acc * 10 + ((c.toNat - 48 : Nat) : ℚ))
    else if c = '.' then atofFraction cs acc (1 / 10)
    else (acc, c :: cs)

/-- The digits of a decimal exponent, accumulated onto `acc`. -/
def atofExponentDigits : List Char → Nat → Nat
  | [], acc => acc
  | c :: cs, acc =>
    if isDigit c then atofExponentDigits cs (acc * 10 + (c.toNat - 48)) else acc

/-- The decimal exponent that follows the mantissa: `e` or `E`, an optional sign and at
least one digit. Anything else is not part of the number, and the exponent is 0. -/
def atofExponent (rest : List Char) : Int :=
  match rest with
  | c :: r =>
    if c = 'e' ∨ c = 'E' then
      match r with
      | '-' :: d :: ds =>
        if isDigit d then - ((atofExponentDigits (d :: ds) 0 : Nat) : Int) else 0
      | '+' :: d :: ds =>
        if isDigit d then ((atofExponentDigits (d :: ds) 0 : Nat) : Int) else 0
      | d :: ds => if isDigit d then ((atofExponentDigits (d :: ds) 0 : Nat) : Int) else 0
      | [] => 0
    else 0
  | [] => 0

/-- The mantissa `m` scaled by `10 ^ e`. -/
def atofScaled (m : ℚ) (e : Int) : ℚ :=
  if 0 ≤ e then m * 10 ^ e.toNat else m / 10 ^ (-e).toNat

/-- The exact value of the unsigned decimal number at the start of a text: mantissa times
power of ten; 0 when the text does not start with a number. -/
def atofMagnitude (r : List Char) : ℚ :=
  atofScaled (atofDigits r 0).1 (atofExponent (atofDigits r 0).2)

/-- The C function `atof`, which is `strtod(s, NULL)`, on decimal numbers: leading white
space, an optional sign, digits with an optional point, and an optional exponent; the
exact value is rounded to the nearest `double`; a text that does not start with a number
gives 0. Hexadecimal numbers (`0x...`), `inf` and `nan` are not modelled, see
`isDecimalText`; a result of magnitude `2 ^ 1024` or more stands for an overflow. -/
def atof (s : List Char) : ℚ :=
  toDouble
    (match s.dropWhile isSpace with
    | '-' :: r => - atofMagnitude r
    | '+' :: r => atofMagnitude r
    | r => atofMagnitude r)

/-- Whether a text is in the scope of the model of `atof`: after white space and sign it
does not start like a hexadecimal number (`0x`, `0X`), an infinity or a NaN (`i`, `I`,
`n`, `N`). -/
def isDecimalText (s : List Char) : Bool :=
  match (match s.dropWhile isSpace with
    | '-' :: r => r
    | '+' :: r => r
    | r => r) with
  | '0' :: 'x' :: _ => false
  | '0' :: 'X' :: _ => false
  | 'i' :: _ => false
  | 'I' :: _ => false
  | 'n' :: _ => false
  | 'N' :: _ => false
  | _ => true

/-- A text that `atof` reads as a number whose value as a `float` is finite. -/
def ReadsAsFiniteFloat (s : String) : Prop :=
  isDecimalText s.toList = true ∧ isFiniteFloat (toFloat (atof s.toList)) = true

/-! ## The header of `readDatasetAndTransfer` -/

/-- The locals of the header loop: `typeName`, `rawFilename`, the three flags, `*size`
and `spacing`. -/
structure HeaderState where
  typeName : List Char
  rawFilename : List Char
  typeFound : Bool
  sizeFound : Bool
  rawFilenameFound : Bool
  size : Int3
  spacing : ℚ × ℚ × ℚ
deriving DecidableEq, Repr

/-- The locals before the loop; `size` is what the caller's `int3` holds. -/
def HeaderState.initial (size : Int3) : HeaderState :=
  { typeName := [], rawFilename := [], typeFound := false, sizeFound := false,
    rawFilenameFound := false, size := size, spacing := (1, 1, 1) }

/-- The three numbers of a `DimSize` or `ElementSpacing` value, as texts. -/
def splitThree (sizeString : List Char) : List Char × List Char × List Char :=
  (takeToSpace sizeString, takeToSpace (dropPastSpace sizeString),
    takeToSpace (dropPastSpace (dropPastSpace sizeString)))

/-- One pass through the body of the `do ... while(!mhdFile.eof())` loop (lines
1419-1462) for the line read; `none` stands for the `std::out_of_range` of `substr`. -/
def headerLine (filename : List Char) (st : HeaderState) (line : List Char) :
    Option HeaderState :=
  if line.take 11 = "ElementType".toList then
    (substrFrom line (11 + 3)).map fun t => { st with typeName := t, typeFound := true }
  else if line.take 15 = "ElementDataFile".toList then
    (substrFrom line (15 + 3)).map fun r =>
      { st with
        rawFilename :=
          match rfindChar '/' filename with
          | some (p + 1) => filename.take (p + 1 + 1) ++ trimAtSpace r
          | _ => trimAtSpace r,
        rawFilenameFound := true }
  else if line.take 7 = "DimSize".toList then
    (substrFrom line (7 + 3)).map fun sizeString =>
      { st with
        size := ⟨atoi (splitThree sizeString).1, atoi (splitThree sizeString).2.1,
          atoi (splitThree sizeString).2.2⟩,
        sizeFound := true }
  else if line.take 14 = "ElementSpacing".toList then
    (substrFrom line (14 + 3)).map fun sizeString =>
      { st with
        spacing := (toFloat (atof (splitThree sizeString).1),
          toFloat (atof (splitThree sizeString).2.1),
          toFloat (atof (splitThree sizeString).2.2)) }
  else some st

/-- The header loop over the lines of the file, in order. -/
def headerLoop (filename : List Char) : HeaderState → List (List Char) → Option HeaderState
  | st, [] => some st
  | st, line :: rest =>
    match headerLine filename st line with
    | none => none
    | some st' => headerLoop filename st' rest

/-- What the header yields: type name (trimmed), raw file name, dimensions, spacing. -/
structure Header where
  typeName : List Char
  rawFilename : List Char
  size : Int3
  spacing : ℚ × ℚ × ℚ
deriving DecidableEq, Repr

/-- How reading the header ends: `std::out_of_range` from a `substr`, the exception
"Error reading mhd file. Type, filename or size not found", or a parsed header. -/
inductive HeaderOutcome
  | outOfRange
  | formatError
  | parsed (h : Header)
deriving DecidableEq, Repr

/-- Lines 1415-1473 of `readDatasetAndTransfer`: the loop, the trimming of `typeName` and
the check of the three flags. -/
def readHeader (filename : List Char) (size : Int3) (lines : List (List Char)) :
    HeaderOutcome :=
  match headerLoop filename (HeaderState.initial size) lines with
  | none => .outOfRange
  | some st =>
    if !st.typeFound || !st.sizeFound || !st.rawFilenameFound then .formatError
    else .parsed ⟨trimAtSpace st.typeName, st.rawFilename, st.size, st.spacing⟩

/-- The element types told apart by the dispatch on `typeName`. -/
inductive ElementType
  | short
  | ushort
  | char
  | uchar
  | float
deriving DecidableEq, Repr

/-- The dispatch on `typeName` (lines 1492-1538): the value of `type` and the template
argument of `getLimits`; `none` stands for the exception "unsupported data type". -/
def selectType (typeName : List Char) : Option (Int × ElementType) :=
  if typeName = "MET_SHORT".toList then some (1, .short)
  else if typeName = "MET_USHORT".toList then some (2, .ushort)
  else if typeName = "MET_CHAR".toList then some (1, .char)
  else if typeName = "MET_UCHAR".toList then some (2, .uchar)
  else if typeName = "MET_FLOAT".toList then some (3, .float)
  else none

/-- The five supported element type names. -/
def supportedTypeNames : List (List Char) :=
  ["MET_SHORT".toList, "MET_USHORT".toList, "MET_CHAR".toList, "MET_UCHAR".toList,
    "MET_FLOAT".toList]

/-- A text cut at its first space. -/
def cutAtFirstSpace (s : List Char) : List Char := s.takeWhile fun c => c ≠ ' '

/-- The type code the specification assigns to a supported name: 1 for the signed integer
types, 2 for the unsigned integer types, 3 for float. -/
def specTypeCode (name : List Char) : Int :=
  if name = "MET_SHORT".toList ∨ name = "MET_CHAR".toList then 1
  else if name = "MET_USHORT".toList ∨ name = "MET_UCHAR".toList then 2
  else 3

/-! ## Intensity limits -/

/-- The constant `std::numeric_limits<T>::min()`: the most negative value of an integer
type, but the smallest positive normal value `2 ^ -126` of `float`. (`char` is signed.) -/
def numericLimitsMin : ElementType → ℚ
  | .short => -32768
  | .ushort => 0
  | .char => -128
  | .uchar => 0
  | .float => 1 / 2 ^ 126

/-- The constant `std::numeric_limits<T>::max()`. -/
def numericLimitsMax : ElementType → ℚ
  | .short => 32767
  | .ushort => 65535
  | .char => 127
  | .uchar => 255
  | .float => (2 ^ 24 - 1) * 2 ^ 104

/-- The template `getMaximum<T>` over the samples of the buffer (finite values, each the
rational number it denotes). -/
def getMaximum (T : ElementType) (data : List ℚ) : ℚ :=
  data.foldl (fun maximum v => max maximum v) (numericLimitsMin T)

/-- The template `getMinimum<T>`. -/
def getMinimum (T : ElementType) (data : List ℚ) : ℚ :=
  data.foldl (fun minimum v => min minimum v) (numericLimitsMax T)

/-- The template `getLimits<T>`: the pair `(*minimum, *maximum)`; `none` stands for the
exception of `getParamStr` when an option is unknown. The `double` that `atof` returns is
stored in a `float`. -/
def getLimits (T : ElementType) (parameters : ParamList) (data : List ℚ) : Option (ℚ × ℚ) :=
  match getParamStr parameters "minimum", getParamStr parameters "maximum" with
  | some smin, some smax =>
    some (if smin ≠ "off" then toFloat (atof smin.toList) else getMinimum T data,
          if smax ≠ "off" then toFloat (atof smax.toList) else getMaximum T data)
  | _, _ => none

/-- The statement `minimum = atof(option.c_str())+1024.0f`: the sum is formed in `double`
and stored in a `float`. -/
def rebased (option : String) : ℚ := toFloat (toDouble (atof option.toList + 1024))

/-- The block guarded by the preset test in the `MET_USHORT` branch (lines 1505-1515).
`sprintfF` is the text that `sprintf(str, "%f", x)` produces. -/
def rebaseLimits (sprintfF : ℚ → String) (parameters : ParamList) :
    Option (ℚ × ℚ × ParamList) :=
  match parameters.strings "minimum" with
  | none => none
  | some vmin =>
    match (parameters.setString "minimum"
        (vmin.set (sprintfF (rebased vmin.value)))).strings "maximum" with
    | none => none
    | some vmax =>
      some (rebased vmin.value, rebased vmax.value,
        (parameters.setString "minimum"
          (vmin.set (sprintfF (rebased vmin.value)))).setString "maximum"
          (vmax.set (sprintfF (rebased vmax.value))))

/-- The limits as they leave the type dispatch: `getLimits<T>`, followed for `MET_USHORT`
by the rebase when the preset is `Lung-Airways-CT` or `AAA-Vessels-CT`. The result is
`minimum`, `maximum` and the parameter store afterwards. -/
def loadLimits (sprintfF : ℚ → String) (parameters : ParamList) (T : ElementType)
    (data : List ℚ) : Option (ℚ × ℚ × ParamList) :=
  match getLimits T parameters data with
  | none => none
  | some (minimum, maximum) =>
    if T = .ushort then
      match getParamStr parameters "parameters" with
      | none => none
      | some preset =>
        if preset = "Lung-Airways-CT" ∨ preset = "AAA-Vessels-CT" then
          rebaseLimits sprintfF parameters
        else some (minimum, maximum, parameters)
    else some (minimum, maximum, parameters)

/-- What loading leaves behind: the header, `type`, the limits handed to the `toFloat`
kernel, and the parameter store. -/
structure LoadResult where
  header : Header
  type : Int
  elementType : ElementType
  minimum : ℚ
  maximum : ℚ
  parameters : ParamList

/-- How the loading part of `readDatasetAndTransfer` ends. -/
inductive LoadOutcome
  | outOfRange
  | formatError
  | unsupportedType (typeName : List Char)
  | parameterNotFound
  | loaded (r : LoadResult)

/-- Lines 1415-1538 of `readDatasetAndTransfer`: header, type dispatch and limits. The
raw file is taken to exist and to hold the samples `data`. -/
def readDatasetAndTransferLoad (sprintfF : ℚ → String) (parameters : ParamList)
    (filename : List Char) (size : Int3) (lines : List (List Char)) (data : List ℚ) :
    LoadOutcome :=
  match readHeader filename size lines with
  | .outOfRange => .outOfRange
  | .formatError => .formatError
  | .parsed h =>
    match selectType h.typeName with
    | none => .unsupportedType h.typeName
    | some (type, T) =>
      match loadLimits sprintfF parameters T data with
      | none => .parameterNotFound
      | some (minimum, maximum, parameters') =>
        .loaded ⟨h, type, T, minimum, maximum, parameters'⟩

/-- A parameter store that holds just the three text options read while loading. -/
def limitOptions (minimum maximum preset : String) : ParamList :=
  { bools := fun _ => none,
    numerics := fun _ => none,
    strings := fun n =>
      if n = "minimum" then some ⟨minimum, []⟩
      else if n = "maximum" then some ⟨maximum, []⟩
      else if n = "parameters" then some ⟨preset, []⟩
      else none }

/-- The keys of the header lines. -/
def keyElementType : List Char := "ElementType".toList

/-- The key of the line naming the raw file. -/
def keyElementDataFile : List Char := "ElementDataFile".toList

/-- The key of the line giving the dimensions. -/
def keyDimSize : List Char := "DimSize".toList

/-- The key of the optional line giving the voxel spacing. -/
def keyElementSpacing : List Char := "ElementSpacing".toList

/-- A line that starts with one of the four keys has at least three more characters, so
that `line.substr(key.size() + 3)` is defined. -/
def LongEnough (line : List Char) : Prop :=
  (keyElementType <+: line → 14 ≤ line.length) ∧
  (keyElementDataFile <+: line → 18 ≤ line.length) ∧
  (keyDimSize <+: line → 10 ≤ line.length) ∧
  (keyElementSpacing <+: line → 17 ≤ line.length)

/-! ## What the x and y scans find -/

/-- What the pair of scans of one axis is shown to return, for the occupancy counts `scan`
of an axis of extent `n` and the threshold `m`: `lo` is the smallest index of an inside
slice (count above `m`); `hi` is the largest index of an inside slice when some slice
other than slice 0 is inside, and the extent `n` (its initial value) when none is. -/
def AxisScanned (scan : List Int) (m n lo hi : Int) : Prop :=
  (∃ l : Nat, lo = l ∧ (l : Int) < n ∧ m < scan.getD l 0 ∧
    ∀ j : Nat, j < l → ¬ m < scan.getD j 0) ∧
  ((∃ j : Nat, 1 ≤ j ∧ (j : Int) < n ∧ m < scan.getD j 0) →
    ∃ h : Nat, hi = h ∧ 1 ≤ h ∧ (h : Int) < n ∧ m < scan.getD h 0 ∧
      ∀ j : Nat, h < j → (j : Int) < n → ¬ m < scan.getD j 0) ∧
  ((∀ j : Nat, 1 ≤ j → (j : Int) < n → ¬ m < scan.getD j 0) → hi = n)

/-! ## The growth loop, pass by pass -/

/-- The values of `x1`, `x2` and `lower` after each pass through the body of the growth
loop `while(SIZE % 4 != 0 && SIZE < n) { if(lower && x1 > 0) x1--; else if(x2 < n) x2++;
lower = !lower; SIZE = x2-x1; }`, in order. The list ends when the loop condition fails
(or when the fuel is used up). -/
def growAxisTrace (n : Int) : Nat → Int → Int → Bool → List (Int × Int × Bool)
  | 0, _, _, _ => []
  | fuel + 1, x1, x2, lower =>
    if (x2 - x1).tmod 4 ≠ 0 ∧ x2 - x1 < n then
      if lower = true ∧ x1 > 0 then
        (x1 - 1, x2, !lower) :: growAxisTrace n fuel (x1 - 1) x2 (!lower)
      else if x2 < n then (x1, x2 + 1, !lower) :: growAxisTrace n fuel x1 (x2 + 1) (!lower)
      else (x1, x2, !lower) :: growAxisTrace n fuel x1 x2 (!lower)
    else []

/-- What one pass may do to the bounds `(x1, x2)`: lower `x1` by one voxel, raise `x2` by
one voxel, or leave both. -/
def SingleVoxelStep (s t : Int × Int × Bool) : Prop :=
  (t.1 = s.1 - 1 ∧ t.2.1 = s.2.1) ∨ (t.1 = s.1 ∧ t.2.1 = s.2.1 + 1) ∨
    (t.1 = s.1 ∧ t.2.1 = s.2.1)

/-! ## `setParameter` and the getters -/

/-- The method `BoolParameter::set`. -/
def BoolParameter.set (_v : BoolParameter) (value : Bool) : BoolParameter := ⟨value⟩

/-- The method `BoolParameter::get`. -/
def BoolParameter.get (v : BoolParameter) : Bool := v.value

/-- The method `NumericParameter::validate`:
`value >= min && value <= max && floor((value-min)/step) == (value-min)/step`, where
`value`, `min`, `max` and `step` are finite `float`s and the difference and the quotient
are single-precision operations (evaluated in `float`, as on x86-64). -/
def NumericParameter.validate (v : NumericParameter) (value : ℚ) : Bool :=
  decide (value ≥ v.min) && decide (value ≤ v.max) &&
    floorIsSelf (floatDiv (floatSub value v.min) v.step)

/-- The method `NumericParameter::set`. -/
def NumericParameter.set (v : NumericParameter) (value : ℚ) : NumericParameter :=
  if v.validate value then { v with value := value } else v

/-- The assignment `parameters.bools[name] = v`. -/
def ParamList.setBool (parameters : ParamList) (name : String) (v : BoolParameter) :
    ParamList :=
  { parameters with bools := fun n => if n = name then some v else parameters.bools n }

/-- The assignment `parameters.numerics[name] = v`. -/
def ParamList.setNumeric (parameters : ParamList) (name : String) (v : NumericParameter) :
    ParamList :=
  { parameters with numerics := fun n => if n = name then some v else parameters.numerics n }

/-- The function `setParameter` (`parameters.cpp`, lines 73-100). The list is passed by
value and the changed copy is returned; `none` stands for the exception. The `double`
that `atof` returns is converted to the `float` parameter of `validate` and `set`. -/
def setParameter (parameters : ParamList) (name value : String) : Option ParamList :=
  match parameters.bools name with
  | some v => some (parameters.setBool name (v.set true))
  | none =>
    match parameters.numerics name with
    | some v =>
      if !v.validate (toFloat (atof value.toList)) then none
      else some (parameters.setNumeric name (v.set (toFloat (atof value.toList))))
    | none =>
      match parameters.strings name with
      | some v =>
        if !v.validate value then none
        else some (parameters.setString name (v.set value))
      | none => none

/-- The function `getParam`; `none` stands for the exception thrown for an unknown name. -/
def getParam (parameters : ParamList) (parameterName : String) : Option ℚ :=
  (parameters.numerics parameterName).map fun v => v.value

/-- The function `getParamBool`; `none` stands for the exception thrown for an unknown
name. -/
def getParamBool (parameters : ParamList) (parameterName : String) : Option Bool :=
  (parameters.bools parameterName).map fun v => v.get

/-- A parameter store that holds one boolean, one numeric and one text parameter. -/
def sampleParameters : ParamList :=
  { bools := fun n => if n = "16bit-vectors" then some ⟨false⟩ else none,
    numerics := fun n => if n = "radius-min" then some ⟨1, 0, 50, 1 / 2⟩ else none,
    strings := fun n => if n = "mode" then some ⟨"black", ["black", "white"]⟩ else none }

/-- A parameter store as `initParameters` builds it from the lines
`tenths num 1 0 50 0.1` and `even num 0 0 1000000000 2`: every number is read by `atof`
and stored in a `float`. -/
def gridParameters : ParamList :=
  { bools := fun _ => none,
    numerics := fun n =>
      if n = "tenths" then
        some ⟨toFloat (atof "1".toList), toFloat (atof "0".toList),
          toFloat (atof "50".toList), toFloat (atof "0.1".toList)⟩
      else if n = "even" then
        some ⟨toFloat (atof "0".toList), toFloat (atof "0".toList),
          toFloat (atof "1000000000".toList), toFloat (atof "2".toList)⟩
      else none,
    strings := fun _ => none }

/-! ## Limits across the attempts of `run` -/

/-- The text that `sprintf(str, "%f", x)` produces for a finite `x`: sign, integer part,
a point and six decimals, rounded to nearest (ties to even). -/
def formatF (x : ℚ) : String :=
  (if x.num < 0 then "-" else "") ++
    toString (rneDiv (x.num.natAbs * 10 ^ 6) x.den / 10 ^ 6) ++ "." ++
    String.mk (List.replicate
      (6 - (toString (rneDiv (x.num.natAbs * 10 ^ 6) x.den % 10 ^ 6)).length) '0') ++
    toString (rneDiv (x.num.natAbs * 10 ^ 6) x.den % 10 ^ 6)

/-- What the attempts of one invocation of `run` leave behind: the result for the caller,
the limits `(minimum, maximum)` each attempt handed on after loading, and the parameter
store (which `run` and `readDatasetAndTransfer` take by reference). -/
structure LimitsTrace (α : Type) where
  result : RunResult α
  limits : List (ℚ × ℚ)
  parameters : ParamList

/-- The body of `run` with its recursive retry, reduced to what bears on the limits: each
pass through the `try` block loads the dataset (`loadLimits`, which may write to the
parameter store) and then runs the rest of the pipeline, whose outcome in pass `k` is
`rest k`; the retry calls `run(filename, parameters, kernel_dir)` with the same store. -/
def runWithLoading {α : Type} (sprintfF : ℚ → String) (T : ElementType) (data : List ℚ)
    (rest : Nat → AttemptOutcome α) :
    Nat → Int → Nat → ParamList → List (ℚ × ℚ) → LimitsTrace α
  | 0, _, _, parameters, limits => ⟨.outOfFuel, limits, parameters⟩
  | fuel + 1, runCounter, k, parameters, limits =>
    match loadLimits sprintfF parameters T data with
    | none => ⟨.propagated, limits, parameters⟩
    | some (minimum, maximum, parameters') =>
      match rest k with
      | .success output => ⟨.returned output, limits ++ [(minimum, maximum)], parameters'⟩
      | .clError err =>
        if err = CL_INVALID_COMMAND_QUEUE ∧ runCounter < 2 then
          runWithLoading sprintfF T data rest fuel (runCounter + 1) (k + 1) parameters'
            (limits ++ [(minimum, maximum)])
        else ⟨.threwSIPLException, limits ++ [(minimum, maximum)], parameters'⟩
      | .otherException => ⟨.propagated, limits ++ [(minimum, maximum)], parameters'⟩

/-! ## Basic facts: remainders, the shrink loop, the growth loop -/

theorem tmod_four_ne_zero_iff (s : Int) : s.tmod 4 ≠ 0 ↔ s % 4 ≠ 0 := by
  constructor
  · intro h h0
    exact h (Int.tmod_eq_zero_of_dvd (Int.dvd_of_emod_eq_zero h0))
  · intro h h0
    exact h (Int.emod_eq_zero_of_dvd (Int.dvd_of_tmod_eq_zero h0))

/-- With fuel for `s % 4` decrements the shrink loop ends at `4 * floor(s / 4)`. -/
theorem shrinkToMultipleOf4_of_fuel : ∀ (fuel : Nat) (s : Int), s % 4 ≤ (fuel : Int) →
    shrinkToMultipleOf4 fuel s = some (s - s % 4) := by
  intro fuel
  induction fuel with
  | zero =>
    intro s h
    have h0 : s % 4 = 0 := by omega
    have : ¬ s.tmod 4 ≠ 0 := by rw [tmod_four_ne_zero_iff]; omega
    simp [shrinkToMultipleOf4, this, h0]
  | succ k ih =>
    intro s h
    by_cases h0 : s % 4 = 0
    · have : ¬ s.tmod 4 ≠ 0 := by rw [tmod_four_ne_zero_iff]; omega
      simp [shrinkToMultipleOf4, this, h0]
    · have h1 : s.tmod 4 ≠ 0 := by rw [tmod_four_ne_zero_iff]; exact h0
      have h2 : (s - 1) % 4 ≤ (k : Int) := by push_cast at h; omega
      have h3 : s - 1 - (s - 1) % 4 = s - s % 4 := by omega
      rw [shrinkToMultipleOf4, if_pos h1, ih (s - 1) h2, h3]

theorem shrinkToMultipleOf4_four (s : Int) :
    shrinkToMultipleOf4 4 s = some (s - s % 4) :=
  shrinkToMultipleOf4_of_fuel 4 s (by have := Int.emod_lt_of_pos s (by norm_num : (0 : Int) < 4); omega)

/-- The growth loop ends within `2 * t + 1` iterations, where `t = (x1 - x2) mod 4` is the
number of voxels still missing; it only moves `x1` down and `x2` up, by at most `t` voxels
in total, and stays inside `[0, n]`. -/
theorem growAxis_spec (n : Int) : ∀ (fuel : Nat) (x1 x2 : Int) (lower : Bool),
    2 * ((x1 - x2) % 4) + (if (lower = true ∧ x1 > 0) ∨ x2 < n then 0 else 1) ≤ (fuel : Int) →
    ∃ a b l, growAxis n fuel x1 x2 lower = some (a, b, l) ∧ a ≤ x1 ∧ x2 ≤ b ∧
      ((b - a) % 4 = 0 ∨ n ≤ b - a) ∧ (0 ≤ x1 → 0 ≤ a) ∧ (x2 ≤ n → b ≤ n) ∧
      (b - a) - (x2 - x1) ≤ (x1 - x2) % 4 ∧
      ((x2 - x1) % 4 = 0 ∨ n ≤ x2 - x1 → a = x1 ∧ b = x2) := by
  intro fuel
  induction fuel with
  | zero =>
    intro x1 x2 lower h
    have hstop : ¬ ((x2 - x1).tmod 4 ≠ 0 ∧ x2 - x1 < n) := by
      rw [tmod_four_ne_zero_iff]
      intro hc
      split_ifs at h <;> omega
    refine ⟨x1, x2, lower, ?_, le_refl _, le_refl _, ?_, fun h => h, fun h => h, by omega,
      fun _ => ⟨rfl, rfl⟩⟩
    · simp only [growAxis, if_neg hstop]
    · rw [tmod_four_ne_zero_iff] at hstop
      by_cases h4 : (x2 - x1) % 4 = 0
      · exact Or.inl h4
      · right; by_contra hn; exact hstop ⟨h4, by omega⟩
  | succ k ih =>
    intro x1 x2 lower h
    by_cases hcont : (x2 - x1).tmod 4 ≠ 0 ∧ x2 - x1 < n
    · have hc := hcont
      rw [tmod_four_ne_zero_iff] at hc
      obtain ⟨hc4, hcn⟩ := hc
      push_cast at h
      by_cases hA : lower = true ∧ x1 > 0
      · have hm : 2 * ((x1 - 1 - x2) % 4) +
            (if ((!lower) = true ∧ x1 - 1 > 0) ∨ x2 < n then 0 else 1) ≤ (k : Int) := by
          split_ifs at h ⊢ <;> omega
        obtain ⟨a, b, l, he, h1, h2, h3, h4, h5, h6, h7⟩ := ih (x1 - 1) x2 (!lower) hm
        refine ⟨a, b, l, ?_, by omega, h2, h3, fun h0 => ?_, h5, by omega, fun hh => by omega⟩
        · simp only [growAxis, if_pos hcont, if_pos hA]; exact he
        · exact h4 (by omega)
      · by_cases hB : x2 < n
        · have hm : 2 * ((x1 - (x2 + 1)) % 4) +
              (if ((!lower) = true ∧ x1 > 0) ∨ x2 + 1 < n then 0 else 1) ≤ (k : Int) := by
            split_ifs at h ⊢ <;> omega
          obtain ⟨a, b, l, he, h1, h2, h3, h4, h5, h6, h7⟩ := ih x1 (x2 + 1) (!lower) hm
          refine ⟨a, b, l, ?_, h1, by omega, h3, h4, fun _ => h5 (by omega), by omega,
            fun hh => by omega⟩
          simp only [growAxis, if_pos hcont, if_neg hA, if_pos hB]; exact he
        · have hl : lower = false := by
            cases lower
            · rfl
            · exact absurd ⟨rfl, by omega⟩ hA
          have hm : 2 * ((x1 - x2) % 4) +
              (if ((!lower) = true ∧ x1 > 0) ∨ x2 < n then 0 else 1) ≤ (k : Int) := by
            have hpos : ((!lower) = true ∧ x1 > 0) ∨ x2 < n := by
              left; subst hl; exact ⟨rfl, by omega⟩
            rw [if_pos hpos]
            have hneg : ¬ ((lower = true ∧ x1 > 0) ∨ x2 < n) := by
              rintro (h' | h')
              · exact hA h'
              · exact hB h'
            rw [if_neg hneg] at h
            omega
          obtain ⟨a, b, l, he, h1, h2, h3, h4, h5, h6, h7⟩ := ih x1 x2 (!lower) hm
          refine ⟨a, b, l, ?_, h1, h2, h3, h4, h5, h6, h7⟩
          simp only [growAxis, if_pos hcont, if_neg hA, if_neg hB]; exact he
    · refine ⟨x1, x2, lower, ?_, le_refl _, le_refl _, ?_, fun h => h, fun h => h, ?_,
        fun _ => ⟨rfl, rfl⟩⟩
      · simp only [growAxis, if_neg hcont]
      · rw [tmod_four_ne_zero_iff] at hcont
        by_cases h4 : (x2 - x1) % 4 = 0
        · exact Or.inl h4
        · right; by_contra hn; exact hcont ⟨h4, by omega⟩
      · omega

/-- Alignment of one axis always finishes: the box only grows, stays inside `[0, n]`
when it started there, and the final `SIZE` is `4 * floor((b - a) / 4)` for the grown box
`[a, b)`, which is already a multiple of 4 unless the box fills the whole axis. -/
theorem alignAxis_spec (n x1 x2 : Int) (lower : Bool) :
    ∃ a b s l, alignAxis n x1 x2 lower = some (a, b, s, l) ∧ a ≤ x1 ∧ x2 ≤ b ∧
      s = (b - a) - (b - a) % 4 ∧ ((b - a) % 4 = 0 ∨ n ≤ b - a) ∧
      (0 ≤ x1 → 0 ≤ a) ∧ (x2 ≤ n → b ≤ n) ∧ (b - a) - (x2 - x1) ≤ (x1 - x2) % 4 ∧
      ((x2 - x1) % 4 = 0 ∨ n ≤ x2 - x1 → a = x1 ∧ b = x2) := by
  have hfuel : 2 * ((x1 - x2) % 4) +
      (if (lower = true ∧ x1 > 0) ∨ x2 < n then 0 else 1) ≤ ((8 : Nat) : Int) := by
    split_ifs <;> omega
  obtain ⟨a, b, l, he, h1, h2, h3, h4, h5, h6, h7⟩ := growAxis_spec n 8 x1 x2 lower hfuel
  refine ⟨a, b, (b - a) - (b - a) % 4, l, ?_, h1, h2, rfl, h3, h4, h5, h6, h7⟩
  simp only [alignAxis, he, shrinkToMultipleOf4_four]

/-! ## Facts about the scans -/

theorem scanUp_some (inside : Int → Bool) (scan : List Int) (n : Nat) :
    ∀ (k i : Nat), k ≤ n → scanUp inside scan n k = some i →
      n - k ≤ i ∧ i < n ∧ inside (scan.getD i 0) = true := by
  intro k
  induction k with
  | zero => intro i _ h; simp [scanUp] at h
  | succ k ih =>
    intro i hk h
    by_cases hin : inside (scan.getD (n - (k + 1)) 0) = true
    · rw [scanUp, if_pos hin] at h
      have hi : n - (k + 1) = i := Option.some.inj h
      subst hi
      exact ⟨le_refl _, by omega, hin⟩
    · rw [scanUp, if_neg hin] at h
      obtain ⟨h1, h2, h3⟩ := ih i (by omega) h
      exact ⟨by omega, h2, h3⟩

theorem scanUp_finds (inside : Int → Bool) (scan : List Int) (n : Nat) :
    ∀ (k j : Nat), k ≤ n → n - k ≤ j → j < n → inside (scan.getD j 0) = true →
      ∃ i, scanUp inside scan n k = some i ∧ i ≤ j := by
  intro k
  induction k with
  | zero => intro j _ h1 h2 _; omega
  | succ k ih =>
    intro j hk h1 h2 hj
    by_cases hin : inside (scan.getD (n - (k + 1)) 0) = true
    · exact ⟨n - (k + 1), by rw [scanUp, if_pos hin], h1⟩
    · have hne : j ≠ n - (k + 1) := by
        intro he; rw [he] at hj; exact hin hj
      obtain ⟨i, hi, hij⟩ := ih j (by omega) (by omega) h2 hj
      exact ⟨i, by rw [scanUp, if_neg hin]; exact hi, hij⟩

theorem scanDown_some (inside : Int → Bool) (scan : List Int) :
    ∀ (start i : Nat), scanDown inside scan start = some i →
      1 ≤ i ∧ i ≤ start ∧ inside (scan.getD i 0) = true := by
  intro start
  induction start with
  | zero => intro i h; simp [scanDown] at h
  | succ k ih =>
    intro i h
    by_cases hin : inside (scan.getD (k + 1) 0) = true
    · rw [scanDown, if_pos hin] at h
      have hi : k + 1 = i := Option.some.inj h
      subst hi
      exact ⟨by omega, le_refl _, hin⟩
    · rw [scanDown, if_neg hin] at h
      obtain ⟨h1, h2, h3⟩ := ih i h
      exact ⟨h1, by omega, h3⟩

/-- Bounds of a pair of x/y scans over an axis of extent `n > 0`: the forward scan from 0
and the backward scan from `n - 1` give `0 ≤ lo ≤ hi ≤ n`. -/
theorem scan_pair_bounds (inside : Int → Bool) (scan : List Int) (n : Int) (hn : 0 < n) :
    0 ≤ ((scanUp inside scan n.toNat n.toNat).map Int.ofNat).getD 0 ∧
    ((scanUp inside scan n.toNat n.toNat).map Int.ofNat).getD 0 ≤
      ((scanDown inside scan (n - 1).toNat).map Int.ofNat).getD n ∧
    ((scanDown inside scan (n - 1).toNat).map Int.ofNat).getD n ≤ n := by
  cases hd : scanDown inside scan (n - 1).toNat with
  | none =>
    cases hu : scanUp inside scan n.toNat n.toNat with
    | none => simp; omega
    | some i =>
      obtain ⟨_, h2, _⟩ := scanUp_some inside scan n.toNat n.toNat i (le_refl _) hu
      simp
      omega
  | some j =>
    obtain ⟨h1, h2, h3⟩ := scanDown_some inside scan (n - 1).toNat j hd
    obtain ⟨i, hi, hij⟩ := scanUp_finds inside scan n.toNat n.toNat j (le_refl _)
      (by omega) (by omega) h3
    rw [hi]
    simp
    omega

/-- Bounds of a scan result used as a box coordinate of an axis of extent `n ≥ 0`. -/
theorem scanUp_coord_bounds (inside : Int → Bool) (scan : List Int) (n : Int) (k : Nat)
    (hn : 0 ≤ n) (hk : k ≤ n.toNat) :
    0 ≤ ((scanUp inside scan n.toNat k).map Int.ofNat).getD n ∧
    ((scanUp inside scan n.toNat k).map Int.ofNat).getD n ≤ n := by
  cases hu : scanUp inside scan n.toNat k with
  | none => simp; omega
  | some i =>
    obtain ⟨_, h2, _⟩ := scanUp_some inside scan n.toNat k i hk hu
    simp
    omega

theorem scanDown_coord_bounds (inside : Int → Bool) (scan : List Int) (n : Int) (start : Nat)
    (hn : 0 ≤ n) (hs : (start : Int) ≤ n) :
    0 ≤ ((scanDown inside scan start).map Int.ofNat).getD 0 ∧
    ((scanDown inside scan start).map Int.ofNat).getD 0 ≤ n := by
  cases hd : scanDown inside scan start with
  | none => simp; omega
  | some i =>
    obtain ⟨_, h2, _⟩ := scanDown_some inside scan start i hd
    simp
    omega

/-- Every coordinate of the discovered box lies inside the volume, and the x and y
ranges are not inverted. -/
theorem discoverBox_bounds (size : Int3) (scans : ScanLines) (m : Int) (startZ : String)
    (hx : 0 < size.x) (hy : 0 < size.y) (hz : 0 < size.z) :
    0 ≤ (discoverBox size scans m startZ).x1 ∧
    (discoverBox size scans m startZ).x1 ≤ (discoverBox size scans m startZ).x2 ∧
    (discoverBox size scans m startZ).x2 ≤ size.x ∧
    0 ≤ (discoverBox size scans m startZ).y1 ∧
    (discoverBox size scans m startZ).y1 ≤ (discoverBox size scans m startZ).y2 ∧
    (discoverBox size scans m startZ).y2 ≤ size.y ∧
    0 ≤ (discoverBox size scans m startZ).z1 ∧ (discoverBox size scans m startZ).z1 ≤ size.z ∧
    0 ≤ (discoverBox size scans m startZ).z2 ∧ (discoverBox size scans m startZ).z2 ≤ size.z := by
  have hX := scan_pair_bounds (fun v => decide (v > m)) scans.x size.x hx
  have hY := scan_pair_bounds (fun v => decide (v > m)) scans.y size.y hy
  have hs : 0 ≤ (if startZ = "middle" then Int.tdiv size.z 2 else 0) ∧
      (if startZ = "middle" then Int.tdiv size.z 2 else 0) ≤ size.z := by
    split_ifs
    · have h1 : Int.tdiv size.z 2 = size.z / 2 := Int.tdiv_eq_ediv (le_of_lt hz) (by norm_num)
      rw [h1]; omega
    · omega
  have hU := scanUp_coord_bounds
    (fun v => decide ((if startZ = "middle" then (-1 : Int) else 1) * v >
      (if startZ = "middle" then (-1 : Int) else 1) * m)) scans.z size.z
    (size.z - (if startZ = "middle" then Int.tdiv size.z 2 else 0)).toNat (le_of_lt hz)
    (by omega)
  have hD := scanDown_coord_bounds
    (fun v => decide ((if startZ = "middle" then (-1 : Int) else 1) * v >
      (if startZ = "middle" then (-1 : Int) else 1) * m)) scans.z size.z
    (size.z - (if startZ = "middle" then Int.tdiv size.z 2 else 0) - 1).toNat (le_of_lt hz)
    (by omega)
  unfold discoverBox
  by_cases he : startZ = "end"
  · simp only [he, if_true] at hU hD ⊢
    exact ⟨hX.1, hX.2.1, hX.2.2, hY.1, hY.2.1, hY.2.2, hU.1, hU.2, hD.1, hD.2⟩
  · simp only [he, if_false] at hU hD ⊢
    exact ⟨hX.1, hX.2.1, hX.2.2, hY.1, hY.2.1, hY.2.2, hD.1, hD.2, hU.1, hU.2⟩

/-! ## Facts about single-precision rounding -/

theorem sigShiftFrom_spec (n : Nat) : ∀ (fuel s : Nat), n < 2 ^ (24 + s + fuel) →
    (s = 0 ∨ 2 ^ (23 + s) ≤ n) →
    n < 2 ^ (24 + sigShiftFrom n fuel s) ∧
      (sigShiftFrom n fuel s = 0 ∨ 2 ^ (23 + sigShiftFrom n fuel s) ≤ n) := by
  intro fuel
  induction fuel with
  | zero => intro s h1 h2; exact ⟨by simpa [sigShiftFrom] using h1, by simpa [sigShiftFrom] using h2⟩
  | succ k ih =>
    intro s h1 h2
    by_cases hlt : n < 2 ^ (24 + s)
    · rw [sigShiftFrom, if_pos hlt]; exact ⟨hlt, h2⟩
    · rw [sigShiftFrom, if_neg hlt]
      apply ih (s + 1)
      · have : 24 + (s + 1) + k = 24 + s + (k + 1) := by omega
        rw [this]; exact h1
      · right
        have : 23 + (s + 1) = 24 + s := by omega
        rw [this]; exact not_lt.mp hlt

theorem sigShift_spec (n : Nat) :
    n < 2 ^ (24 + sigShift n) ∧ (sigShift n = 0 ∨ 2 ^ (23 + sigShift n) ≤ n) := by
  apply sigShiftFrom_spec n n 0 _ (Or.inl rfl)
  calc n < 2 ^ n := Nat.lt_two_pow n
    _ ≤ 2 ^ (24 + 0 + n) := Nat.pow_le_pow_right (by norm_num) (by omega)

theorem sigShift_le_of_lt (n j : Nat) (h : n < 2 ^ (24 + j)) : sigShift n ≤ j := by
  rcases (sigShift_spec n).2 with h0 | h1
  · omega
  · by_contra hc
    have h2 : 2 ^ (24 + j) ≤ 2 ^ (23 + sigShift n) :=
      Nat.pow_le_pow_right (by norm_num) (by omega)
    omega

theorem rneDiv_bounds (n d : Nat) : n / d ≤ rneDiv n d ∧ rneDiv n d ≤ n / d + 1 := by
  unfold rneDiv
  split_ifs <;> omega

theorem rneDiv_one (n : Nat) : rneDiv n 1 = n := by
  simp [rneDiv, Nat.mod_one]

/-- Integers below `2 ^ 24` are exactly representable. -/
theorem roundToFloat24_of_lt (n : Nat) (h : n < 2 ^ 24) : roundToFloat24 n = n := by
  have hs : sigShift n = 0 := Nat.le_zero.mp (sigShift_le_of_lt n 0 h)
  simp [roundToFloat24, hs, rneDiv_one]

/-- Rounding moves a value by less than one unit in the last place `2 ^ sigShift n`. -/
theorem roundToFloat24_bounds (n : Nat) :
    n / 2 ^ sigShift n * 2 ^ sigShift n ≤ roundToFloat24 n ∧
    roundToFloat24 n ≤ n + 2 ^ sigShift n := by
  have hb := rneDiv_bounds n (2 ^ sigShift n)
  have hd : n / 2 ^ sigShift n * 2 ^ sigShift n ≤ n := Nat.div_mul_le_self n _
  unfold roundToFloat24
  constructor
  · exact Nat.mul_le_mul_right _ hb.1
  · calc rneDiv n (2 ^ sigShift n) * 2 ^ sigShift n
        ≤ (n / 2 ^ sigShift n + 1) * 2 ^ sigShift n := Nat.mul_le_mul_right _ hb.2
      _ = n / 2 ^ sigShift n * 2 ^ sigShift n + 2 ^ sigShift n := by ring
      _ ≤ n + 2 ^ sigShift n := by omega

/-- The relative rounding error is at most `2 ^ -23`. -/
theorem roundToFloat24_le (n : Nat) : 2 ^ 23 * roundToFloat24 n ≤ (2 ^ 23 + 1) * n := by
  have hb := (roundToFloat24_bounds n).2
  rcases (sigShift_spec n).2 with h0 | h1
  · rw [h0] at hb
    have : roundToFloat24 n = n := by
      have := (roundToFloat24_bounds n).1
      rw [h0] at this
      simp at this hb
      have hr : roundToFloat24 n = rneDiv n 1 * 1 := by simp [roundToFloat24, h0]
      rw [hr, rneDiv_one]; simp
    rw [this]; nlinarith
  · have h2 : 2 ^ 23 * 2 ^ sigShift n ≤ n := by rw [← pow_add]; exact h1
    calc 2 ^ 23 * roundToFloat24 n ≤ 2 ^ 23 * (n + 2 ^ sigShift n) := Nat.mul_le_mul_left _ hb
      _ = 2 ^ 23 * n + 2 ^ 23 * 2 ^ sigShift n := by ring
      _ ≤ 2 ^ 23 * n + n := by omega
      _ = (2 ^ 23 + 1) * n := by ring

/-- A multiple of the unit in the last place that lies below `n` also lies below the
rounded value. -/
theorem le_roundToFloat24 (n L j : Nat) (hj : sigShift n ≤ j) (hL : 2 ^ j ∣ L) (hLn : L ≤ n) :
    L ≤ roundToFloat24 n := by
  have hd : 2 ^ sigShift n ∣ L := (pow_dvd_pow 2 hj).trans hL
  obtain ⟨m, rfl⟩ := hd
  have hpos : 0 < 2 ^ sigShift n := Nat.pow_pos (by norm_num)
  have hm : m ≤ n / 2 ^ sigShift n := by
    rw [Nat.le_div_iff_mul_le hpos, Nat.mul_comm]; exact hLn
  calc 2 ^ sigShift n * m = m * 2 ^ sigShift n := Nat.mul_comm _ _
    _ ≤ n / 2 ^ sigShift n * 2 ^ sigShift n := Nat.mul_le_mul_right _ hm
    _ ≤ roundToFloat24 n := (roundToFloat24_bounds n).1

/-- Below `2 ^ 21` the single-precision computation of `round(size * 0.15f)` agrees with
rounding `0.15 * size` exactly (halves up). -/
theorem marginOffset_exact (x : Int) (h0 : 0 ≤ x) (hx : x < 2 ^ 21) :
    (marginOffset x : Int) = (3 * x + 10) / 20 := by
  obtain ⟨X, rfl⟩ := Int.eq_ofNat_of_zero_le h0
  have hX : X < 2 ^ 21 := by exact_mod_cast hx
  have hX24 : X < 2 ^ 24 := lt_of_lt_of_le hX (Nat.pow_le_pow_right (by norm_num) (by norm_num))
  have hs : sigShift (X * 10066330) ≤ 21 := by
    apply sigShift_le_of_lt
    norm_num at hX ⊢
    omega
  have hup := (roundToFloat24_bounds (X * 10066330)).2
  have hd : 2 ^ sigShift (X * 10066330) ≤ 2 ^ 21 := Nat.pow_le_pow_right (by norm_num) hs
  have hlow : 2 ^ 25 * (2 * ((3 * X + 10) / 20) - 1) ≤ roundToFloat24 (X * 10066330) := by
    apply le_roundToFloat24 _ _ 21 hs
    · exact Dvd.dvd.mul_right (pow_dvd_pow 2 (by norm_num)) _
    · norm_num at hX ⊢
      omega
  have key : (roundToFloat24 (X * 10066330) + 2 ^ 25) / 2 ^ 26 = (3 * X + 10) / 20 := by
    norm_num at hX hup hd hlow ⊢
    omega
  simp only [marginOffset, Int.toNat_ofNat, roundToFloat24_of_lt X hX24]
  rw [key]
  push_cast
  rfl

/-! ## The three policies, in closed form -/

theorem alignAxis_aligned (n x1 x2 : Int) (lower : Bool) :
    ∃ a b l, AxisAligned n x1 x2 lower a b l := by
  obtain ⟨a, b, s, l, he, h1, h2, hs, h3, h4, h5, h6, h7⟩ := alignAxis_spec n x1 x2 lower
  subst hs
  exact ⟨a, b, l, he, h1, h2, h3, h4, h5, h6, h7⟩

/-- The bounding-box branch either throws at the zero-size check, leaving the state as
it was, or completes with three aligned axes. -/
theorem cropBoundingBox_spec (p : CropParams) (scans : ScanLines) (st : CropState) :
    (ZeroWidth (boxOf p scans st) ∧ cropBoundingBox p scans st = .raised st) ∨
    (¬ ZeroWidth (boxOf p scans st) ∧ ∃ ax bx lx ay by' ly az bz lz,
      AxisAligned st.size.x (boxOf p scans st).x1 (boxOf p scans st).x2 false ax bx lx ∧
      AxisAligned st.size.y (boxOf p scans st).y1 (boxOf p scans st).y2 lx ay by' ly ∧
      AxisAligned st.size.z (boxOf p scans st).z1 (boxOf p scans st).z2 ly az bz lz ∧
      cropBoundingBox p scans st = .completed
        { size := ⟨bx - ax - (bx - ax) % 4, by' - ay - (by' - ay) % 4, bz - az - (bz - az) % 4⟩,
          shiftVector := ⟨ax, ay, az⟩,
          dataset := copyImage st.dataset ⟨ax, ay, az⟩
            ⟨bx - ax - (bx - ax) % 4, by' - ay - (by' - ay) % 4, bz - az - (bz - az) % 4⟩ }) := by
  by_cases hz : ZeroWidth (boxOf p scans st)
  · left
    refine ⟨hz, ?_⟩
    unfold ZeroWidth at hz
    simp only [cropBoundingBox, if_pos hz]
  · right
    refine ⟨hz, ?_⟩
    obtain ⟨ax, bx, lx, hX⟩ :=
      alignAxis_aligned st.size.x (boxOf p scans st).x1 (boxOf p scans st).x2 false
    obtain ⟨ay, by', ly, hY⟩ :=
      alignAxis_aligned st.size.y (boxOf p scans st).y1 (boxOf p scans st).y2 lx
    obtain ⟨az, bz, lz, hZ⟩ :=
      alignAxis_aligned st.size.z (boxOf p scans st).z1 (boxOf p scans st).z2 ly
    refine ⟨ax, bx, lx, ay, by', ly, az, bz, lz, hX, hY, hZ, ?_⟩
    unfold ZeroWidth at hz
    simp only [cropBoundingBox, if_neg hz, hX.1, hY.1, hZ.1]

/-- An upper bound on the margin that holds for every size. -/
theorem marginOffset_le (x : Int) (h0 : 0 ≤ x) : 6 * (marginOffset x : Int) ≤ x + 3 := by
  obtain ⟨X, rfl⟩ := Int.eq_ofNat_of_zero_le h0
  have h1 := roundToFloat24_le X
  have h2 := roundToFloat24_le (roundToFloat24 X * 10066330)
  have key : 6 * ((roundToFloat24 (roundToFloat24 X * 10066330) + 2 ^ 25) / 2 ^ 26) ≤ X + 3 := by
    norm_num at h1 h2 ⊢
    omega
  simp only [marginOffset, Int.toNat_ofNat]
  exact_mod_cast key

/-- Within the `int` range the subtraction of the margin does not wrap. -/
theorem subtractMargin_eq (x : Int) (h0 : 0 ≤ x) (hx : x < 2 ^ 31) :
    subtractMargin x (marginOffset x) = x - 2 * (marginOffset x : Int) := by
  have h := marginOffset_le x h0
  unfold subtractMargin toInt32
  norm_num at hx ⊢
  omega

theorem cropFixedMargin_eq (d : Int3) (st : CropState)
    (hx0 : 0 ≤ st.size.x) (hx : st.size.x < 2 ^ 31)
    (hy0 : 0 ≤ st.size.y) (hy : st.size.y < 2 ^ 31) :
    cropFixedMargin d st = .completed
      { size := ⟨4 * ((st.size.x - 2 * (marginOffset st.size.x : Int)) / 4),
                 4 * ((st.size.y - 2 * (marginOffset st.size.y : Int)) / 4),
                 4 * (st.size.z / 4)⟩,
        shiftVector := d,
        dataset := copyImage st.dataset ⟨marginOffset st.size.x, marginOffset st.size.y, 0⟩
          ⟨4 * ((st.size.x - 2 * (marginOffset st.size.x : Int)) / 4),
           4 * ((st.size.y - 2 * (marginOffset st.size.y : Int)) / 4),
           4 * (st.size.z / 4)⟩ } := by
  have e : ∀ s : Int, s - s % 4 = 4 * (s / 4) := fun s => by omega
  simp only [cropFixedMargin, shrinkToMultipleOf4_four, subtractMargin_eq _ hx0 hx,
    subtractMargin_eq _ hy0 hy, e]

theorem cropFallback_eq (d : Int3) (st : CropState) :
    cropFallback d st = .completed
      { size := ⟨4 * (st.size.x / 4), 4 * (st.size.y / 4), 4 * (st.size.z / 4)⟩,
        shiftVector := d,
        dataset := if st.size.x % 4 = 0 ∧ st.size.y % 4 = 0 ∧ st.size.z % 4 = 0 then st.dataset
          else copyImage st.dataset ⟨0, 0, 0⟩
            ⟨4 * (st.size.x / 4), 4 * (st.size.y / 4), 4 * (st.size.z / 4)⟩ } := by
  have e : ∀ s : Int, s - s % 4 = 4 * (s / 4) := fun s => by omega
  by_cases h : st.size.x % 4 = 0 ∧ st.size.y % 4 = 0 ∧ st.size.z % 4 = 0
  · have hn : ¬ (st.size.x.tmod 4 ≠ 0 ∨ st.size.y.tmod 4 ≠ 0 ∨ st.size.z.tmod 4 ≠ 0) := by
      simp only [tmod_four_ne_zero_iff]; omega
    obtain ⟨h1, h2, h3⟩ := h
    have e1 : 4 * (st.size.x / 4) = st.size.x := by omega
    have e2 : 4 * (st.size.y / 4) = st.size.y := by omega
    have e3 : 4 * (st.size.z / 4) = st.size.z := by omega
    simp only [cropFallback, if_neg hn, h1, h2, h3, and_self, if_true, e1, e2, e3]
  · have hn : st.size.x.tmod 4 ≠ 0 ∨ st.size.y.tmod 4 ≠ 0 ∨ st.size.z.tmod 4 ≠ 0 := by
      simp only [tmod_four_ne_zero_iff]; omega
    simp only [cropFallback, if_pos hn, shrinkToMultipleOf4_four, e, if_neg h]

/-! ## Cropping: dimensions after the crop -/

/-- C1: for every original size with all dimensions positive (and in the `int` range),
every occupancy input and every cropping policy, the cropping stage finishes, and
whenever it completes without raising each resulting dimension is a multiple of 4 and is
at most the corresponding original dimension. -/
theorem crop_dims_multiple_of_four_and_bounded (p : CropParams) (scans : ScanLines)
    (d : Int3) (st : CropState)
    (hx : 0 < st.size.x) (hxr : st.size.x < 2 ^ 31)
    (hy : 0 < st.size.y) (hyr : st.size.y < 2 ^ 31)
    (hz : 0 < st.size.z) :
    cropStage p scans d st ≠ .outOfFuel ∧
    ∀ st', cropStage p scans d st = .completed st' →
      (4 ∣ st'.size.x ∧ st'.size.x ≤ st.size.x) ∧
      (4 ∣ st'.size.y ∧ st'.size.y ≤ st.size.y) ∧
      (4 ∣ st'.size.z ∧ st'.size.z ≤ st.size.z) := by
  unfold cropStage
  by_cases hb : p.cropping = "lung" ∨ p.cropping = "threshold"
  · rw [if_pos hb]
    have hB := discoverBox_bounds st.size scans (minScanLinesOf p) (startZOf p) hx hy hz
    rcases cropBoundingBox_spec p scans st with ⟨_, he⟩ | ⟨_, ax, bx, lx, ay, by', ly, az, bz, lz,
      hX, hY, hZ, he⟩
    · rw [he]
      exact ⟨by simp, fun st' h => by simp at h⟩
    · rw [he]
      refine ⟨by simp, fun st' h => ?_⟩
      have hst : st' = _ := (CropOutcome.completed.inj h).symm
      subst hst
      obtain ⟨_, _, _, _, hX4, hX5, _, _⟩ := hX
      obtain ⟨_, _, _, _, hY4, hY5, _, _⟩ := hY
      obtain ⟨_, _, _, _, hZ4, hZ5, _, _⟩ := hZ
      unfold boxOf at hX4 hX5 hY4 hY5 hZ4 hZ5
      have := hX4 hB.1
      have := hX5 hB.2.2.1
      have := hY4 hB.2.2.2.1
      have := hY5 hB.2.2.2.2.2.1
      have := hZ4 hB.2.2.2.2.2.2.1
      have := hZ5 hB.2.2.2.2.2.2.2.2.2
      dsimp only
      refine ⟨⟨?_, ?_⟩, ⟨?_, ?_⟩, ⟨?_, ?_⟩⟩ <;> omega
  · rw [if_neg hb]
    by_cases ha : p.parameters = "AAA-Vessels-CT"
    · rw [if_pos ha, cropFixedMargin_eq d st (le_of_lt hx) hxr (le_of_lt hy) hyr]
      refine ⟨by simp, fun st' h => ?_⟩
      have hst : st' = _ := (CropOutcome.completed.inj h).symm
      subst hst
      have := Int.ofNat_nonneg (marginOffset st.size.x)
      have := Int.ofNat_nonneg (marginOffset st.size.y)
      dsimp only
      refine ⟨⟨?_, ?_⟩, ⟨?_, ?_⟩, ⟨?_, ?_⟩⟩ <;> omega
    · rw [if_neg ha, cropFallback_eq]
      refine ⟨by simp, fun st' h => ?_⟩
      have hst : st' = _ := (CropOutcome.completed.inj h).symm
      subst hst
      dsimp only
      refine ⟨⟨?_, ?_⟩, ⟨?_, ?_⟩, ⟨?_, ?_⟩⟩ <;> omega

theorem crop_dims_multiple_of_four_and_bounded_witness :
    cropStage ⟨"threshold", "", "end", 0, 0⟩
        ⟨[0, 0, 1, 1, 1, 1, 1, 0, 0, 0], [0, 1, 1, 1, 0, 0, 0, 0, 0, 0], [0, 0, 0, 1, 1, 1, 1, 1, 1, 0]⟩
        ⟨0, 0, 0⟩ (loaded ⟨10, 10, 10⟩ ⟨0, 0, 0⟩) ≠ .outOfFuel ∧
    ∀ st', cropStage ⟨"threshold", "", "end", 0, 0⟩
        ⟨[0, 0, 1, 1, 1, 1, 1, 0, 0, 0], [0, 1, 1, 1, 0, 0, 0, 0, 0, 0], [0, 0, 0, 1, 1, 1, 1, 1, 1, 0]⟩
        ⟨0, 0, 0⟩ (loaded ⟨10, 10, 10⟩ ⟨0, 0, 0⟩) = .completed st' →
      (4 ∣ st'.size.x ∧ st'.size.x ≤ 10) ∧ (4 ∣ st'.size.y ∧ st'.size.y ≤ 10) ∧
      (4 ∣ st'.size.z ∧ st'.size.z ≤ 10) :=
  crop_dims_multiple_of_four_and_bounded ⟨"threshold", "", "end", 0, 0⟩
    ⟨[0, 0, 1, 1, 1, 1, 1, 0, 0, 0], [0, 1, 1, 1, 0, 0, 0, 0, 0, 0], [0, 0, 0, 1, 1, 1, 1, 1, 1, 0]⟩
    ⟨0, 0, 0⟩ (loaded ⟨10, 10, 10⟩ ⟨0, 0, 0⟩)
    (by decide) (by decide) (by decide) (by decide) (by decide)

/-- C2 (as stated, refuted): with no cropping policy a 3 x 3 x 3 volume, whose dimensions
are all positive, passes the cropping stage without an error and ends with all three
dimensions equal to zero. -/
theorem crop_fallback_zero_dims :
    (0 : Int) < 3 ∧
    cropStage ⟨"off", "Default", "end", 0, 0⟩ ⟨[], [], []⟩ ⟨0, 0, 0⟩
        (loaded ⟨3, 3, 3⟩ ⟨0, 0, 0⟩) =
      .completed ⟨⟨0, 0, 0⟩, ⟨0, 0, 0⟩, ⟨⟨0, 0, 0⟩, ⟨0, 0, 0⟩⟩⟩ ∧
    ¬ ((0 : Int) < (⟨0, 0, 0⟩ : Int3).x) := by
  decide

/-- When the z scans start at the middle slice the discovered z range is not inverted. -/
theorem discoverBox_middle_z_order (size : Int3) (scans : ScanLines) (m : Int)
    (hz : 0 < size.z) :
    (discoverBox size scans m "middle").z1 ≤ (discoverBox size scans m "middle").z2 := by
  have hne : ¬ ("middle" : String) = "end" := by decide
  have h1 : Int.tdiv size.z 2 = size.z / 2 := Int.tdiv_eq_ediv (le_of_lt hz) (by norm_num)
  simp only [discoverBox, if_true, if_neg hne, h1]
  have hlo : ((scanDown (fun v => decide ((-1 : Int) * v > -1 * m)) scans.z
      (size.z - size.z / 2 - 1).toNat).map Int.ofNat).getD 0 ≤ size.z / 2 := by
    cases hd : scanDown (fun v => decide ((-1 : Int) * v > -1 * m)) scans.z
        (size.z - size.z / 2 - 1).toNat with
    | none => simp; omega
    | some i =>
      obtain ⟨_, h2, _⟩ := scanDown_some _ _ _ _ hd
      simp
      omega
  have hhi : size.z / 2 ≤ ((scanUp (fun v => decide ((-1 : Int) * v > -1 * m)) scans.z
      size.z.toNat (size.z - size.z / 2).toNat).map Int.ofNat).getD size.z := by
    cases hu : scanUp (fun v => decide ((-1 : Int) * v > -1 * m)) scans.z
        size.z.toNat (size.z - size.z / 2).toNat with
    | none => simp; omega
    | some i =>
      obtain ⟨h2, _, _⟩ := scanUp_some _ _ _ _ _ (by omega) hu
      simp
      omega
  exact le_trans hlo hhi

/-- A non-empty box on an axis of extent at least 4 is aligned to a positive size. -/
theorem aligned_size_pos (n x1 x2 a b : Int) (hn : 4 ≤ n) (h12 : x1 < x2) (ha : a ≤ x1)
    (hb : x2 ≤ b) (h3 : (b - a) % 4 = 0 ∨ n ≤ b - a) :
    0 < b - a - (b - a) % 4 ∧ 4 ∣ b - a - (b - a) % 4 := by
  constructor <;> omega

/-- C2 (amended): when every original dimension is at least 4 (at least 6 along x and y
under the fixed-margin preset) and, in the bounding-box policy with a z scan that does not
start at the middle, the discovered z range is not inverted (`z1 ≤ z2`), the cropping
stage either raises, leaving the state untouched, or completes with three dimensions that
are strictly positive multiples of 4. -/
theorem crop_dims_positive_of_room (p : CropParams) (scans : ScanLines)
    (d : Int3) (st : CropState)
    (hx : 4 ≤ st.size.x) (hxr : st.size.x < 2 ^ 31)
    (hy : 4 ≤ st.size.y) (hyr : st.size.y < 2 ^ 31)
    (hz : 4 ≤ st.size.z)
    (hbox : p.cropping = "lung" ∨ p.cropping = "threshold" → startZOf p ≠ "middle" →
      (boxOf p scans st).z1 ≤ (boxOf p scans st).z2)
    (hfix : ¬ (p.cropping = "lung" ∨ p.cropping = "threshold") →
      p.parameters = "AAA-Vessels-CT" → 6 ≤ st.size.x ∧ 6 ≤ st.size.y) :
    cropStage p scans d st = .raised st ∨
    ∃ st', cropStage p scans d st = .completed st' ∧
      (0 < st'.size.x ∧ 4 ∣ st'.size.x) ∧ (0 < st'.size.y ∧ 4 ∣ st'.size.y) ∧
      (0 < st'.size.z ∧ 4 ∣ st'.size.z) := by
  unfold cropStage
  by_cases hb : p.cropping = "lung" ∨ p.cropping = "threshold"
  · rw [if_pos hb]
    have hB := discoverBox_bounds st.size scans (minScanLinesOf p) (startZOf p)
      (by omega) (by omega) (by omega)
    have hzz : (boxOf p scans st).z1 ≤ (boxOf p scans st).z2 := by
      by_cases hmid : startZOf p = "middle"
      · unfold boxOf
        rw [hmid]
        exact discoverBox_middle_z_order st.size scans (minScanLinesOf p) (by omega)
      · exact hbox hb hmid
    rcases cropBoundingBox_spec p scans st with ⟨_, he⟩ | ⟨hnz, ax, bx, lx, ay, by', ly, az, bz,
      lz, hX, hY, hZ, he⟩
    · exact Or.inl he
    · right
      refine ⟨_, he, ?_⟩
      obtain ⟨_, hX1, hX2, hX3, _⟩ := hX
      obtain ⟨_, hY1, hY2, hY3, _⟩ := hY
      obtain ⟨_, hZ1, hZ2, hZ3, _⟩ := hZ
      unfold ZeroWidth at hnz
      unfold boxOf at hX1 hX2 hY1 hY2 hZ1 hZ2 hnz hzz
      have h1 := hB.2.1
      have h2 := hB.2.2.2.2.1
      have hx12 := lt_of_le_of_ne h1 (fun h => hnz (Or.inl (sub_eq_zero.mpr h.symm)))
      have hy12 := lt_of_le_of_ne h2 (fun h => hnz (Or.inr (Or.inl (sub_eq_zero.mpr h.symm))))
      have hz12 := lt_of_le_of_ne hzz (fun h => hnz (Or.inr (Or.inr (sub_eq_zero.mpr h.symm))))
      exact ⟨aligned_size_pos _ _ _ _ _ hx hx12 hX1 hX2 hX3,
        aligned_size_pos _ _ _ _ _ hy hy12 hY1 hY2 hY3,
        aligned_size_pos _ _ _ _ _ hz hz12 hZ1 hZ2 hZ3⟩
  · rw [if_neg hb]
    by_cases ha : p.parameters = "AAA-Vessels-CT"
    · rw [if_pos ha, cropFixedMargin_eq d st (by omega) hxr (by omega) hyr]
      right
      refine ⟨_, rfl, ?_⟩
      obtain ⟨h6x, h6y⟩ := hfix hb ha
      have hox := marginOffset_le st.size.x (by omega)
      have hoy := marginOffset_le st.size.y (by omega)
      have hex : st.size.x < 2 ^ 21 → (marginOffset st.size.x : Int) = (3 * st.size.x + 10) / 20 :=
        marginOffset_exact st.size.x (by omega)
      have hey : st.size.y < 2 ^ 21 → (marginOffset st.size.y : Int) = (3 * st.size.y + 10) / 20 :=
        marginOffset_exact st.size.y (by omega)
      norm_num at hex hey
      dsimp only
      refine ⟨⟨?_, ?_⟩, ⟨?_, ?_⟩, ⟨?_, ?_⟩⟩ <;> omega
    · rw [if_neg ha, cropFallback_eq]
      right
      refine ⟨_, rfl, ?_⟩
      dsimp only
      refine ⟨⟨?_, ?_⟩, ⟨?_, ?_⟩, ⟨?_, ?_⟩⟩ <;> omega

theorem crop_dims_positive_of_room_witness :
    cropStage ⟨"threshold", "", "end", 0, 0⟩
        ⟨[0, 0, 1, 1, 1, 1, 1, 0, 0, 0], [0, 1, 1, 1, 0, 0, 0, 0, 0, 0], [0, 0, 0, 1, 1, 1, 1, 1, 1, 0]⟩
        ⟨0, 0, 0⟩ (loaded ⟨10, 10, 10⟩ ⟨0, 0, 0⟩) = .raised (loaded ⟨10, 10, 10⟩ ⟨0, 0, 0⟩) ∨
    ∃ st', cropStage ⟨"threshold", "", "end", 0, 0⟩
        ⟨[0, 0, 1, 1, 1, 1, 1, 0, 0, 0], [0, 1, 1, 1, 0, 0, 0, 0, 0, 0], [0, 0, 0, 1, 1, 1, 1, 1, 1, 0]⟩
        ⟨0, 0, 0⟩ (loaded ⟨10, 10, 10⟩ ⟨0, 0, 0⟩) = .completed st' ∧
      (0 < st'.size.x ∧ 4 ∣ st'.size.x) ∧ (0 < st'.size.y ∧ 4 ∣ st'.size.y) ∧
      (0 < st'.size.z ∧ 4 ∣ st'.size.z) :=
  crop_dims_positive_of_room ⟨"threshold", "", "end", 0, 0⟩
    ⟨[0, 0, 1, 1, 1, 1, 1, 0, 0, 0], [0, 1, 1, 1, 0, 0, 0, 0, 0, 0], [0, 0, 0, 1, 1, 1, 1, 1, 1, 0]⟩
    ⟨0, 0, 0⟩ (loaded ⟨10, 10, 10⟩ ⟨0, 0, 0⟩)
    (by decide) (by decide) (by decide) (by decide) (by decide) (by decide) (by decide)

/-! ## Cropping: the zero-size check -/

/-- C3: in the bounding-box policy the crop raises if one of the widths `x2-x1`, `y2-y1`,
`z2-z1` of the discovered box is zero and completes if all three are non-zero; whenever it
raises, size, shift vector and dataset are those from before the alignment. -/
theorem crop_raises_iff_zero_width (p : CropParams) (scans : ScanLines) (d : Int3)
    (st : CropState) (hp : p.cropping = "lung" ∨ p.cropping = "threshold") :
    (ZeroWidth (boxOf p scans st) → cropStage p scans d st = .raised st) ∧
    (¬ ZeroWidth (boxOf p scans st) → ∃ st', cropStage p scans d st = .completed st') ∧
    (∀ st', cropStage p scans d st = .raised st' → st' = st) := by
  unfold cropStage
  rw [if_pos hp]
  rcases cropBoundingBox_spec p scans st with ⟨hz, he⟩ | ⟨hnz, ax, bx, lx, ay, by', ly, az, bz,
    lz, _, _, _, he⟩
  · rw [he]
    exact ⟨fun _ => rfl, fun h => absurd hz h, fun st' h => (CropOutcome.raised.inj h).symm⟩
  · rw [he]
    exact ⟨fun h => absurd h hnz, fun _ => ⟨_, rfl⟩, fun st' h => by simp at h⟩

theorem crop_raises_iff_zero_width_witness :
    (ZeroWidth (boxOf ⟨"lung", "", "end", 2, 0⟩ ⟨[0, 0, 0, 5, 0, 0, 0, 0], [0, 0, 3, 3, 3, 3, 0, 0],
        [9, 9, 9, 9, 9, 9, 9, 9]⟩ (loaded ⟨8, 8, 8⟩ ⟨1, 2, 3⟩)) →
      cropStage ⟨"lung", "", "end", 2, 0⟩ ⟨[0, 0, 0, 5, 0, 0, 0, 0], [0, 0, 3, 3, 3, 3, 0, 0],
        [9, 9, 9, 9, 9, 9, 9, 9]⟩ ⟨0, 0, 0⟩ (loaded ⟨8, 8, 8⟩ ⟨1, 2, 3⟩) =
        .raised (loaded ⟨8, 8, 8⟩ ⟨1, 2, 3⟩)) ∧
    (¬ ZeroWidth (boxOf ⟨"lung", "", "end", 2, 0⟩ ⟨[0, 0, 0, 5, 0, 0, 0, 0], [0, 0, 3, 3, 3, 3, 0, 0],
        [9, 9, 9, 9, 9, 9, 9, 9]⟩ (loaded ⟨8, 8, 8⟩ ⟨1, 2, 3⟩)) →
      ∃ st', cropStage ⟨"lung", "", "end", 2, 0⟩ ⟨[0, 0, 0, 5, 0, 0, 0, 0], [0, 0, 3, 3, 3, 3, 0, 0],
        [9, 9, 9, 9, 9, 9, 9, 9]⟩ ⟨0, 0, 0⟩ (loaded ⟨8, 8, 8⟩ ⟨1, 2, 3⟩) = .completed st') ∧
    (∀ st', cropStage ⟨"lung", "", "end", 2, 0⟩ ⟨[0, 0, 0, 5, 0, 0, 0, 0], [0, 0, 3, 3, 3, 3, 0, 0],
        [9, 9, 9, 9, 9, 9, 9, 9]⟩ ⟨0, 0, 0⟩ (loaded ⟨8, 8, 8⟩ ⟨1, 2, 3⟩) = .raised st' →
      st' = loaded ⟨8, 8, 8⟩ ⟨1, 2, 3⟩) :=
  crop_raises_iff_zero_width ⟨"lung", "", "end", 2, 0⟩ ⟨[0, 0, 0, 5, 0, 0, 0, 0],
    [0, 0, 3, 3, 3, 3, 0, 0], [9, 9, 9, 9, 9, 9, 9, 9]⟩ ⟨0, 0, 0⟩ (loaded ⟨8, 8, 8⟩ ⟨1, 2, 3⟩)
    (by decide)

/-! ## Cropping: what is extracted, and the shift vector -/

/-- C4 (failing input): threshold cropping of a 10 x 10 x 10 volume whose inside slices
(count > 0) are exactly the slices 0..4 of every axis. The box found is `x1 = 0, x2 = 4`,
its width 4 needs no alignment, and the extracted range `[0, 4)` leaves out the inside
slice 4, although the axis (extent 10) was not used up. -/
theorem threshold_crop_drops_last_inside_slice :
    cropStage ⟨"threshold", "", "end", 0, 0⟩
        ⟨[1, 1, 1, 1, 1, 0, 0, 0, 0, 0], [1, 1, 1, 1, 1, 0, 0, 0, 0, 0],
         [1, 1, 1, 1, 1, 0, 0, 0, 0, 0]⟩
        ⟨0, 0, 0⟩ (loaded ⟨10, 10, 10⟩ ⟨0, 0, 0⟩) =
      .completed ⟨⟨4, 4, 4⟩, ⟨0, 0, 0⟩, ⟨⟨0, 0, 0⟩, ⟨4, 4, 4⟩⟩⟩ ∧
    ([1, 1, 1, 1, 1, 0, 0, 0, 0, 0] : List Int).getD 4 0 > 0 ∧
    ¬ ((4 : Int) < 0 + 4) := by
  decide

/-- C5 (failing input): under the fixed-margin preset the sub-volume is extracted from
source offset `(round(0.15 x), round(0.15 y), 0)` while the stored shift vector is the
default-constructed `int3`, whatever that is: for a 100^3 volume the offset is (15, 15, 0),
for a 40^3 volume it is (6, 6, 0), and the shift vector is the same in both runs. -/
theorem fixed_margin_shift_is_not_source_offset (d : Int3) :
    cropStage ⟨"off", "AAA-Vessels-CT", "end", 0, 0⟩ ⟨[], [], []⟩ d
        (loaded ⟨100, 100, 100⟩ ⟨0, 0, 0⟩) =
      .completed ⟨⟨68, 68, 100⟩, d, ⟨⟨15, 15, 0⟩, ⟨68, 68, 100⟩⟩⟩ ∧
    cropStage ⟨"off", "AAA-Vessels-CT", "end", 0, 0⟩ ⟨[], [], []⟩ d
        (loaded ⟨40, 40, 40⟩ ⟨0, 0, 0⟩) =
      .completed ⟨⟨28, 28, 40⟩, d, ⟨⟨6, 6, 0⟩, ⟨28, 28, 40⟩⟩⟩ ∧
    (d ≠ ⟨15, 15, 0⟩ ∨ d ≠ ⟨6, 6, 0⟩) := by
  have h100 : marginOffset 100 = 15 := by decide
  have h40 : marginOffset 40 = 6 := by decide
  have hc : ¬ (("off" : String) = "lung" ∨ ("off" : String) = "threshold") := by decide
  refine ⟨?_, ?_, ?_⟩
  · simp only [cropStage, if_neg hc, if_true]
    rw [cropFixedMargin_eq d _ (by decide) (by decide) (by decide) (by decide)]
    simp only [loaded, h100, copyImage]
    norm_num
  · simp only [cropStage, if_neg hc, if_true]
    rw [cropFixedMargin_eq d _ (by decide) (by decide) (by decide) (by decide)]
    simp only [loaded, h40, copyImage]
    norm_num
  · by_cases h : d = ⟨15, 15, 0⟩
    · right; rw [h]; decide
    · left; exact h

/-- In the bounding-box policy the stored shift vector is the source offset of the copy. -/
theorem boundingBox_shift_is_source_offset (p : CropParams) (scans : ScanLines) (d : Int3)
    (st st' : CropState) (hp : p.cropping = "lung" ∨ p.cropping = "threshold")
    (h : cropStage p scans d st = .completed st') :
    st'.dataset = copyImage st.dataset st'.shiftVector st'.size := by
  rw [cropStage, if_pos hp] at h
  rcases cropBoundingBox_spec p scans st with ⟨_, he⟩ | ⟨_, ax, bx, lx, ay, by', ly, az, bz, lz,
    _, _, _, he⟩
  · rw [he] at h; simp at h
  · rw [he] at h
    have hst : st' = _ := (CropOutcome.completed.inj h).symm
    subst hst
    rfl

/-- A threshold crop whose z scans start at the 'end' and find no inside slice: the
swapped defaults give `z1 = 8, z2 = 0`, the width `-8` passes the zero-size check, and the
stage completes with a negative z dimension. -/
theorem threshold_end_scan_without_inside_slice :
    cropStage ⟨"threshold", "", "end", 0, 0⟩
        ⟨[0, 1, 1, 1, 1, 0, 0, 0], [0, 1, 1, 1, 1, 0, 0, 0], [0, 0, 0, 0, 0, 0, 0, 0]⟩
        ⟨0, 0, 0⟩ (loaded ⟨8, 8, 8⟩ ⟨0, 0, 0⟩) =
      .completed ⟨⟨4, 4, -8⟩, ⟨1, 0, 8⟩, ⟨⟨1, 0, 8⟩, ⟨4, 4, -8⟩⟩⟩ := by
  decide

theorem roundFifteenPercent_eq (x : Int) : roundFifteenPercent x = (3 * x + 10) / 20 := by
  unfold roundFifteenPercent
  rw [round_eq]
  have h : (15 : ℚ) / 100 * (x : ℚ) + 1 / 2 = ((3 * x + 10 : ℤ) : ℚ) / ((20 : ℕ) : ℚ) := by
    push_cast; ring
  rw [h, Rat.floor_intCast_div_natCast]
  norm_num

/-- C6 (as stated, refuted): for a volume 8388623 voxels wide the fixed-margin crop uses
the x offset 1258294, whereas `0.15 * 8388623 = 1258293.45` rounds to 1258293: the constant
`0.15f` is `10066330 / 2 ^ 26`, slightly more than 0.15, and the product
`8388623 * 0.15f = 1258293.50000009` rounds up. The resulting x dimension is 5872032
instead of `4 * floor((8388623 - 2 * 1258293) / 4) = 5872036`. -/
theorem fixed_margin_offset_differs_from_exact_rounding :
    cropStage ⟨"off", "AAA-Vessels-CT", "end", 0, 0⟩ ⟨[], [], []⟩ ⟨0, 0, 0⟩
        (loaded ⟨8388623, 8, 8⟩ ⟨0, 0, 0⟩) =
      .completed ⟨⟨5872032, 4, 8⟩, ⟨0, 0, 0⟩, ⟨⟨1258294, 1, 0⟩, ⟨5872032, 4, 8⟩⟩⟩ ∧
    roundFifteenPercent 8388623 = 1258293 ∧
    4 * ((8388623 - 2 * roundFifteenPercent 8388623) / 4) = 5872036 := by
  refine ⟨by decide, ?_, ?_⟩
  · rw [roundFifteenPercent_eq]; norm_num
  · rw [roundFifteenPercent_eq]; norm_num

/-- C6 (amended): when cropping is neither 'lung' nor 'threshold' and the preset is
'AAA-Vessels-CT', for every original size with `0 ≤ x, y < 2^21` the crop uses source
offset `(round(0.15 x), round(0.15 y), 0)` and produces the dimensions
`(4 floor((x - 2 round(0.15 x)) / 4), 4 floor((y - 2 round(0.15 y)) / 4), 4 floor(z / 4))`. -/
theorem fixed_margin_crop_closed_form (p : CropParams) (scans : ScanLines) (d : Int3)
    (st : CropState) (hp : ¬ (p.cropping = "lung" ∨ p.cropping = "threshold"))
    (ha : p.parameters = "AAA-Vessels-CT")
    (hx0 : 0 ≤ st.size.x) (hx : st.size.x < 2 ^ 21)
    (hy0 : 0 ≤ st.size.y) (hy : st.size.y < 2 ^ 21) :
    cropStage p scans d st = .completed
      { size := ⟨4 * ((st.size.x - 2 * roundFifteenPercent st.size.x) / 4),
                 4 * ((st.size.y - 2 * roundFifteenPercent st.size.y) / 4),
                 4 * (st.size.z / 4)⟩,
        shiftVector := d,
        dataset := copyImage st.dataset
          ⟨roundFifteenPercent st.size.x, roundFifteenPercent st.size.y, 0⟩
          ⟨4 * ((st.size.x - 2 * roundFifteenPercent st.size.x) / 4),
           4 * ((st.size.y - 2 * roundFifteenPercent st.size.y) / 4),
           4 * (st.size.z / 4)⟩ } := by
  have hx31 : st.size.x < 2 ^ 31 := lt_trans hx (by norm_num)
  have hy31 : st.size.y < 2 ^ 31 := lt_trans hy (by norm_num)
  rw [cropStage, if_neg hp, if_pos ha, cropFixedMargin_eq d st hx0 hx31 hy0 hy31,
    marginOffset_exact _ hx0 hx, marginOffset_exact _ hy0 hy,
    roundFifteenPercent_eq, roundFifteenPercent_eq]

theorem fixed_margin_crop_closed_form_witness :
    cropStage ⟨"off", "AAA-Vessels-CT", "middle", 0, 0⟩ ⟨[], [], []⟩ ⟨0, 0, 0⟩
        (loaded ⟨512, 510, 101⟩ ⟨0, 0, 0⟩) = .completed
      { size := ⟨4 * (((512 : Int) - 2 * roundFifteenPercent 512) / 4),
                 4 * (((510 : Int) - 2 * roundFifteenPercent 510) / 4),
                 4 * ((101 : Int) / 4)⟩,
        shiftVector := ⟨0, 0, 0⟩,
        dataset := copyImage ⟨⟨0, 0, 0⟩, ⟨512, 510, 101⟩⟩
          ⟨roundFifteenPercent 512, roundFifteenPercent 510, 0⟩
          ⟨4 * (((512 : Int) - 2 * roundFifteenPercent 512) / 4),
           4 * (((510 : Int) - 2 * roundFifteenPercent 510) / 4),
           4 * ((101 : Int) / 4)⟩ } :=
  fixed_margin_crop_closed_form ⟨"off", "AAA-Vessels-CT", "middle", 0, 0⟩ ⟨[], [], []⟩
    ⟨0, 0, 0⟩ (loaded ⟨512, 510, 101⟩ ⟨0, 0, 0⟩) (by decide) (by decide) (by decide)
    (by decide) (by decide) (by decide)

/-- C7: when no cropping policy applies (cropping neither 'lung' nor 'threshold', preset
not 'AAA-Vessels-CT') the resulting dimensions are
`(4 floor(x / 4), 4 floor(y / 4), 4 floor(z / 4))`, taken from source offset (0, 0, 0); if
all three dimensions are already multiples of 4, size and dataset are left unchanged. -/
theorem fallback_crop_closed_form (p : CropParams) (scans : ScanLines) (d : Int3)
    (st : CropState) (hp : ¬ (p.cropping = "lung" ∨ p.cropping = "threshold"))
    (ha : p.parameters ≠ "AAA-Vessels-CT") :
    ∃ st', cropStage p scans d st = .completed st' ∧
      st'.size = ⟨4 * (st.size.x / 4), 4 * (st.size.y / 4), 4 * (st.size.z / 4)⟩ ∧
      (¬ (st.size.x % 4 = 0 ∧ st.size.y % 4 = 0 ∧ st.size.z % 4 = 0) →
        st'.dataset = copyImage st.dataset ⟨0, 0, 0⟩ st'.size) ∧
      (st.size.x % 4 = 0 ∧ st.size.y % 4 = 0 ∧ st.size.z % 4 = 0 →
        st'.size = st.size ∧ st'.dataset = st.dataset) := by
  rw [cropStage, if_neg hp, if_neg ha, cropFallback_eq]
  refine ⟨_, rfl, rfl, ?_, ?_⟩
  · intro h
    simp only [if_neg h]
  · intro h
    refine ⟨?_, by simp only [if_pos h]⟩
    obtain ⟨h1, h2, h3⟩ := h
    have e1 : 4 * (st.size.x / 4) = st.size.x := by omega
    have e2 : 4 * (st.size.y / 4) = st.size.y := by omega
    have e3 : 4 * (st.size.z / 4) = st.size.z := by omega
    simp only [e1, e2, e3]

theorem fallback_crop_closed_form_witness :
    ∃ st', cropStage ⟨"off", "Default", "middle", 0, 0⟩ ⟨[], [], []⟩ ⟨0, 0, 0⟩
        (loaded ⟨13, 8, 6⟩ ⟨0, 0, 0⟩) = .completed st' ∧
      st'.size = ⟨4 * ((13 : Int) / 4), 4 * ((8 : Int) / 4), 4 * ((6 : Int) / 4)⟩ ∧
      (¬ ((13 : Int) % 4 = 0 ∧ (8 : Int) % 4 = 0 ∧ (6 : Int) % 4 = 0) →
        st'.dataset = copyImage ⟨⟨0, 0, 0⟩, ⟨13, 8, 6⟩⟩ ⟨0, 0, 0⟩ st'.size) ∧
      ((13 : Int) % 4 = 0 ∧ (8 : Int) % 4 = 0 ∧ (6 : Int) % 4 = 0 →
        st'.size = ⟨13, 8, 6⟩ ∧ st'.dataset = ⟨⟨0, 0, 0⟩, ⟨13, 8, 6⟩⟩) :=
  fallback_crop_closed_form ⟨"off", "Default", "middle", 0, 0⟩ ⟨[], [], []⟩ ⟨0, 0, 0⟩
    (loaded ⟨13, 8, 6⟩ ⟨0, 0, 0⟩) (by decide) (by decide)

/-! ## Facts about the single-precision division -/

theorem quotShiftUpFrom_spec (a b : Nat) : ∀ (fuel t : Nat), b * 2 ^ 23 ≤ a * 2 ^ (t + fuel) →
    b * 2 ^ 23 ≤ a * 2 ^ quotShiftUpFrom a b fuel t := by
  intro fuel
  induction fuel with
  | zero => intro t h; simpa [quotShiftUpFrom] using h
  | succ k ih =>
    intro t h
    by_cases hc : b * 2 ^ 23 ≤ a * 2 ^ t
    · rw [quotShiftUpFrom, if_pos hc]; exact hc
    · rw [quotShiftUpFrom, if_neg hc]
      apply ih
      have : t + 1 + k = t + (k + 1) := by omega
      rw [this]; exact h

theorem quotShiftUp_spec (a b : Nat) (ha : 0 < a) :
    b * 2 ^ 23 ≤ a * 2 ^ quotShiftUpFrom a b (24 + b) 0 := by
  apply quotShiftUpFrom_spec
  have h1 : b < 2 ^ b := Nat.lt_two_pow b
  have h2 : b * 2 ^ 23 ≤ 2 ^ b * 2 ^ 24 :=
    Nat.mul_le_mul (le_of_lt h1) (Nat.pow_le_pow_right (by norm_num) (by norm_num))
  calc b * 2 ^ 23 ≤ 2 ^ b * 2 ^ 24 := h2
    _ = 1 * 2 ^ (0 + (24 + b)) := by rw [← pow_add]; ring_nf
    _ ≤ a * 2 ^ (0 + (24 + b)) := Nat.mul_le_mul_right _ ha

theorem rneDiv_cases (n d : Nat) :
    rneDiv n d = n / d ∨ (rneDiv n d = n / d + 1 ∧ d ≤ 2 * (n % d)) := by
  unfold rneDiv
  split_ifs <;> first | exact Or.inl rfl | exact Or.inr ⟨rfl, by omega⟩

/-- The single-precision quotient, rounded down, is the integer quotient as long as the
remainder `a mod b` stays more than `a / 2 ^ 24` below `b`, so that rounding cannot reach
the next integer. -/
theorem floorOfFloatDiv_eq_div (a b : Nat) (ha : 0 < a) (hb : 0 < b)
    (hq : a < (b - a % b) * 2 ^ 24) : floorOfFloatDiv a b = a / b := by
  have hRb : a % b < b := Nat.mod_lt a hb
  have hbr : ¬ b * 2 ^ 24 ≤ a := by
    have : (b - a % b) * 2 ^ 24 ≤ b * 2 ^ 24 := Nat.mul_le_mul_right _ (Nat.sub_le _ _)
    omega
  have hz : ¬ (a = 0 ∨ b = 0) := by omega
  rw [floorOfFloatDiv, if_neg hz, if_neg hbr]
  have ht := quotShiftUp_spec a b ha
  generalize quotShiftUpFrom a b (24 + b) 0 = t at ht ⊢
  have hT : 0 < 2 ^ t := Nat.pow_pos (by norm_num)
  generalize 2 ^ t = T at ht hT ⊢
  -- a = b * Q + R, a * T = b * F + r
  have ha' := Nat.div_add_mod a b
  have hP := Nat.div_add_mod (a * T) b
  have hr : a * T % b < b := Nat.mod_lt _ hb
  have hFlow : a / b * T ≤ a * T / b := by
    rw [Nat.le_div_iff_mul_le hb]
    calc a / b * T * b = b * (a / b) * T := by ring
      _ ≤ a * T := Nat.mul_le_mul_right _ (Nat.mul_div_le a b)
  have hFup : a * T / b < (a / b + 1) * T := by
    rw [Nat.div_lt_iff_lt_mul hb]
    have h1 : a < b * (a / b + 1) := by
      have := Nat.lt_mul_div_succ a hb
      linarith
    calc a * T < b * (a / b + 1) * T := Nat.mul_lt_mul_of_pos_right h1 hT
      _ = (a / b + 1) * T * b := by ring
  have hlow : a / b * T ≤ rneDiv (a * T) b := le_trans hFlow (rneDiv_bounds _ _).1
  have hup : rneDiv (a * T) b < (a / b + 1) * T := by
    rcases rneDiv_cases (a * T) b with h | ⟨h, h2⟩
    · rw [h]; exact hFup
    · rw [h]
      by_contra hcon
      have hF : a * T / b + 1 = (a / b + 1) * T := by omega
      -- multiply out
      have e1 : b * (a * T / b) + b = b * (a / b) * T + b * T := by
        have := congrArg (fun v => b * v) hF
        simp only at this
        linarith
      have e2 : a * T = b * (a / b) * T + a % b * T := by
        calc a * T = (b * (a / b) + a % b) * T := by rw [ha']
          _ = b * (a / b) * T + a % b * T := by ring
      have e3 : b * T = (b - a % b) * T + a % b * T := by
        rw [← Nat.add_mul, Nat.sub_add_cancel (le_of_lt hRb)]
      have e4 : a * T < (b - a % b) * T * 2 ^ 24 := by
        calc a * T < (b - a % b) * 2 ^ 24 * T := Nat.mul_lt_mul_of_pos_right hq hT
          _ = (b - a % b) * T * 2 ^ 24 := by ring
      generalize (b - a % b) * T = DT at e3 e4
      generalize b * (a / b) * T = bu at e1 e2
      generalize a % b * T = v at e2 e3
      generalize b * (a * T / b) = bF at e1 hP
      generalize a * T % b = r at hP hr h2
      generalize a * T = P at hP e2 e4 ht
      generalize b * T = bT at e1 e3
      norm_num at ht e4
      omega
  exact Nat.div_eq_of_lt_le hlow hup

/-- A value that fits into 24 significant bits is not changed by rounding. -/
theorem roundToFloat24_of_dvd (n j : Nat) (h1 : n < 2 ^ (24 + j)) (h2 : 2 ^ j ∣ n) :
    roundToFloat24 n = n := by
  have hs := sigShift_le_of_lt n j h1
  have hd : 2 ^ sigShift n ∣ n := (pow_dvd_pow 2 hs).trans h2
  have hpos : 0 < 2 ^ sigShift n := Nat.pow_pos (by norm_num)
  have hm : n % 2 ^ sigShift n = 0 := Nat.mod_eq_zero_of_dvd hd
  have hr : rneDiv n (2 ^ sigShift n) = n / 2 ^ sigShift n := by
    unfold rneDiv
    rw [hm, if_pos (by omega)]
  rw [roundToFloat24, hr, Nat.div_mul_cancel hd]

/-- Dividing a representable value by a power of two and truncating gives a
representable value. -/
theorem roundToFloat24_div_two_pow (n k : Nat) (h : roundToFloat24 n = n) :
    roundToFloat24 (n / 2 ^ k) = n / 2 ^ k := by
  have hlt := (sigShift_spec n).1
  have hd : 2 ^ sigShift n ∣ n := by
    rw [roundToFloat24] at h
    exact Dvd.intro_left _ h
  generalize sigShift n = s at hlt hd
  clear h
  by_cases hk : k ≤ s
  · apply roundToFloat24_of_dvd _ (s - k)
    · rw [Nat.div_lt_iff_lt_mul (Nat.pow_pos (by norm_num)), ← pow_add]
      have : 24 + (s - k) + k = 24 + s := by omega
      rw [this]; exact hlt
    · obtain ⟨m, hm⟩ := hd
      have e : 2 ^ s = 2 ^ k * 2 ^ (s - k) := by
        rw [← pow_add]; congr 1; omega
      rw [hm, e, Nat.mul_assoc, Nat.mul_div_cancel_left _ (Nat.pow_pos (by norm_num))]
      exact Dvd.intro _ rfl
  · apply roundToFloat24_of_lt
    rw [Nat.div_lt_iff_lt_mul (Nat.pow_pos (by norm_num)), ← pow_add]
    exact lt_of_lt_of_le hlt (Nat.pow_le_pow_right (by norm_num) (by omega))

/-- The limit is the capacity divided by `4 W`, and is representable, when the capacity
is representable. -/
theorem splitLimit_of_representable (m : Nat) (v16 : Bool) (h : roundToFloat24 m = m) :
    splitLimit m (componentBytes v16) = m / (4 * componentBytes v16) ∧
    roundToFloat24 (m / (4 * componentBytes v16)) = m / (4 * componentBytes v16) := by
  rw [splitLimit, h]
  refine ⟨rfl, ?_⟩
  cases v16
  · have := roundToFloat24_div_two_pow m 4 h
    simpa [componentBytes] using this
  · have := roundToFloat24_div_two_pow m 3 h
    simpa [componentBytes] using this

/-! ## Buffer planning: single or split -/

/-- With a capacity below `2 ^ 32` and a voxel count in the `int` range the planner uses
one buffer of `4 W N` bytes exactly when `4 W N < capacity`, and two buffers otherwise. -/
theorem plan_single_iff_of_capacity_lt (cap : Nat) (v16 : Bool) (size : Int3)
    (hcap : cap < 2 ^ 32) (hN0 : 0 ≤ size.x * size.y * size.z)
    (hN : size.x * size.y * size.z < 2 ^ 31) :
    (4 * componentBytes v16 * (size.x * size.y * size.z).toNat < cap →
      planVectorFieldBuffers cap v16 size =
        ⟨false, size.z, 4 * componentBytes v16 * (size.x * size.y * size.z).toNat, none⟩) ∧
    (¬ 4 * componentBytes v16 * (size.x * size.y * size.z).toNat < cap →
      (planVectorFieldBuffers cap v16 size).usingTwoBuffers = true ∧
      (planVectorFieldBuffers cap v16 size).vectorFieldBuffer2 ≠ none) := by
  have hm : maxBufferSizeOf cap = cap := Nat.mod_eq_of_lt hcap
  have hw : componentBytes v16 ≤ 4 := by cases v16 <;> simp [componentBytes]
  have hreq : requiredBytes (componentBytes v16) (size.x * size.y * size.z) =
      4 * componentBytes v16 * (size.x * size.y * size.z).toNat := by
    obtain ⟨N, hNe⟩ := Int.eq_ofNat_of_zero_le hN0
    rw [hNe] at hN ⊢
    have hN' : N < 2 ^ 31 := by exact_mod_cast hN
    have h1 : toSizeT (N : Int) = N := by
      unfold toSizeT
      have : ((N : Int) % 2 ^ 64) = N := Int.emod_eq_of_lt (by omega) (by norm_num at hN' ⊢; omega)
      rw [this]; simp
    unfold requiredBytes
    rw [h1, Int.toNat_ofNat]
    apply Nat.mod_eq_of_lt
    have : 4 * componentBytes v16 * N ≤ 4 * 4 * N :=
      Nat.mul_le_mul_right _ (Nat.mul_le_mul_left _ hw)
    norm_num at hN' ⊢
    omega
  constructor
  · intro h
    simp only [planVectorFieldBuffers, hm, hreq, if_pos h]
  · intro h
    simp only [planVectorFieldBuffers, hm, hreq, if_neg h]
    exact ⟨trivial, by simp⟩

theorem toSizeT_natCast (n : Nat) (h : n < 2 ^ 64) : toSizeT (n : Int) = n := by
  unfold toSizeT
  have : ((n : Int) % 2 ^ 64) = n := Int.emod_eq_of_lt (by omega) (by exact_mod_cast h)
  rw [this]; simp

theorem requiredBytes_natCast (v16 : Bool) (n : Nat) (h : n < 2 ^ 31) :
    requiredBytes (componentBytes v16) (n : Int) = 4 * componentBytes v16 * n := by
  have hw : componentBytes v16 ≤ 4 := by cases v16 <;> simp [componentBytes]
  unfold requiredBytes
  rw [toSizeT_natCast n (lt_trans h (by norm_num))]
  apply Nat.mod_eq_of_lt
  have : 4 * componentBytes v16 * n ≤ 4 * 4 * n :=
    Nat.mul_le_mul_right _ (Nat.mul_le_mul_left _ hw)
  norm_num at h ⊢
  omega

/-- The slice at which the copies are split is the value handed to the kernel as `maxZ`. -/
theorem copy_boundary_is_maxZ (cap : Nat) (v16 : Bool) (size : Int3)
    (h : (planVectorFieldBuffers cap v16 size).usingTwoBuffers = true) :
    ∃ r : Nat, (r : Int) = (planVectorFieldBuffers cap v16 size).maxZ ∧
      copyBuffersToImage cap v16 size =
        [⟨1, 0, r⟩, ⟨2, r, (toSizeT size.z + 2 ^ 64 - r) % 2 ^ 64⟩] := by
  refine ⟨splitBoundary (splitLimit (maxBufferSizeOf cap) (componentBytes v16)) size.x size.y,
    ?_, ?_⟩
  · unfold planVectorFieldBuffers at h ⊢
    by_cases hc : requiredBytes (componentBytes v16) (size.x * size.y * size.z) <
        maxBufferSizeOf cap
    · simp only [if_pos hc] at h
      exact absurd h (by decide)
    · simp only [if_neg hc]
  · simp only [copyBuffersToImage, h, if_true]

/-- C8 (failing input): a device whose maximum allocation size is `2 ^ 32` bytes (4 GiB)
and a 64^3 volume with 16-bit vectors. The vector field needs 2 MiB, far below the
capacity, yet both passes take the split branch and create two buffers (of 0 and of
2097152 bytes): the capacity is held in an `unsigned int`, where it is 0. -/
theorem four_gib_capacity_splits_small_volume :
    4 * 2 * (64 * 64 * 64) < 2 ^ 32 ∧
    smallPassBuffers (2 ^ 32) true ⟨64, 64, 64⟩ = ⟨true, 0, 0, some 2097152⟩ ∧
    largePassBuffers (2 ^ 32) true ⟨64, 64, 64⟩ = ⟨true, 0, 0, some 2097152⟩ := by
  decide

/-- C9 (failing input): capacity 33554431 bytes (32 MiB - 1), a 128 x 128 x 256 volume
and 16-bit vectors (`4 W N = 33554432 ≥ capacity`). The conversion `(float)maxBufferSize`
rounds the capacity up to `2 ^ 25`, so `limit` is 4194304 instead of
`floor(33554431 / 8) = 4194303`, the boundary is 256 instead of
`floor(4194303 / 16384) = 255`, buffer A takes all 256 slices and buffer B is empty. -/
theorem split_limit_rounded_up_by_float :
    33554431 ≤ 4 * 2 * (128 * 128 * 256) ∧
    splitLimit (maxBufferSizeOf 33554431) (componentBytes true) = 4194304 ∧
    33554431 / (4 * 2) = 4194303 ∧ 4194303 / (128 * 128) = 255 ∧
    planVectorFieldBuffers 33554431 true ⟨128, 128, 256⟩ = ⟨true, 256, 33554432, some 0⟩ ∧
    copyBuffersToImage 33554431 true ⟨128, 128, 256⟩ = [⟨1, 0, 256⟩, ⟨2, 256, 0⟩] := by
  decide

/-- C10 (as stated, refuted): capacity `2 ^ 20` bytes, a 64^3 volume and 32-bit vectors
(`4 W N = 4194304 ≥ capacity`). The boundary is 16, buffer A has exactly 1048576 bytes
and buffer B the remaining 3145728 bytes, three times the capacity. -/
theorem split_second_buffer_exceeds_capacity :
    2 ^ 20 ≤ 4 * 4 * (64 * 64 * 64) ∧
    planVectorFieldBuffers (2 ^ 20) false ⟨64, 64, 64⟩ = ⟨true, 16, 1048576, some 3145728⟩ ∧
    ¬ (3145728 ≤ 2 ^ 20) := by
  decide

/-- The split plan in closed form, when the single-precision computations are exact: the
capacity is below `2 ^ 32` and representable, the slice area is below `2 ^ 24`, and the
quotient `limit / (x y)` cannot be rounded up to the next integer. -/
theorem planVectorFieldBuffers_of_exact (cap : Nat) (v16 : Bool) (x y z : Nat)
    (hxy0 : 0 < x * y) (hxy : x * y < 2 ^ 24) (hN : x * y * z < 2 ^ 31)
    (hcap : cap < 2 ^ 32) (hrep : roundToFloat24 cap = cap)
    (hq : cap / (4 * componentBytes v16) <
      (x * y - cap / (4 * componentBytes v16) % (x * y)) * 2 ^ 24)
    (hsplit : cap ≤ 4 * componentBytes v16 * (x * y * z)) :
    (planVectorFieldBuffers cap v16 ⟨x, y, z⟩).usingTwoBuffers = true ∧
    (planVectorFieldBuffers cap v16 ⟨x, y, z⟩).maxZ =
      ((cap / (4 * componentBytes v16) / (x * y) : Nat) : Int) ∧
    (planVectorFieldBuffers cap v16 ⟨x, y, z⟩).vectorFieldBuffer =
      cap / (4 * componentBytes v16) / (x * y) * (x * y) * (4 * componentBytes v16) ∧
    (planVectorFieldBuffers cap v16 ⟨x, y, z⟩).vectorFieldBuffer ≤ cap ∧
    (planVectorFieldBuffers cap v16 ⟨x, y, z⟩).vectorFieldBuffer2 =
      some (4 * componentBytes v16 * (x * y * z) -
        cap / (4 * componentBytes v16) / (x * y) * (x * y) * (4 * componentBytes v16)) ∧
    splitBoundary (splitLimit (maxBufferSizeOf cap) (componentBytes v16)) (x : Int) (y : Int) =
      cap / (4 * componentBytes v16) / (x * y) ∧
    cap / (4 * componentBytes v16) / (x * y) ≤ z := by
  have hm : maxBufferSizeOf cap = cap := Nat.mod_eq_of_lt hcap
  have hw : 0 < 4 * componentBytes v16 := by cases v16 <;> simp [componentBytes]
  have hNc : ((x : Int) * (y : Int) * (z : Int)) = ((x * y * z : Nat) : Int) := by push_cast; ring
  have hreq := requiredBytes_natCast v16 (x * y * z) hN
  obtain ⟨hlim, hlimrep⟩ := splitLimit_of_representable cap v16 hrep
  have hxyNat : ((x : Int) * (y : Int)).toNat = x * y := by
    rw [← Nat.cast_mul]; exact Int.toNat_ofNat _
  have hbnd : splitBoundary (cap / (4 * componentBytes v16)) (x : Int) (y : Int) =
      cap / (4 * componentBytes v16) / (x * y) := by
    rw [splitBoundary, hlimrep, hxyNat, roundToFloat24_of_lt _ hxy]
    by_cases h0 : cap / (4 * componentBytes v16) = 0
    · rw [h0]; simp [floorOfFloatDiv]
    · exact floorOfFloatDiv_eq_div _ _ (Nat.pos_of_ne_zero h0) hxy0 hq
  -- sizes
  have hk : cap / (4 * componentBytes v16) / (x * y) * (x * y) ≤ cap / (4 * componentBytes v16) :=
    Nat.div_mul_le_self _ _
  have hA : cap / (4 * componentBytes v16) / (x * y) * (x * y) * (4 * componentBytes v16) ≤ cap :=
    le_trans (Nat.mul_le_mul_right _ hk) (Nat.div_mul_le_self _ _)
  have hprod : ((cap / (4 * componentBytes v16) / (x * y) : Nat) : Int) * (x : Int) * (y : Int) * 4 =
      ((cap / (4 * componentBytes v16) / (x * y) * (x * y) * 4 : Nat) : Int) := by
    push_cast; ring
  have hsz : (toSizeT (((cap / (4 * componentBytes v16) / (x * y) : Nat) : Int) * (x : Int) *
        (y : Int) * 4) * componentBytes v16) % 2 ^ 64 % 2 ^ 32 =
      cap / (4 * componentBytes v16) / (x * y) * (x * y) * (4 * componentBytes v16) := by
    have e : cap / (4 * componentBytes v16) / (x * y) * (x * y) * 4 * componentBytes v16 =
        cap / (4 * componentBytes v16) / (x * y) * (x * y) * (4 * componentBytes v16) := by ring
    have h4 : cap / (4 * componentBytes v16) / (x * y) * (x * y) * 4 ≤
        cap / (4 * componentBytes v16) / (x * y) * (x * y) * 4 * componentBytes v16 :=
      Nat.le_mul_of_pos_right _ (by cases v16 <;> simp [componentBytes])
    rw [hprod, toSizeT_natCast _ (by rw [e] at h4; norm_num at hcap ⊢; omega), e]
    rw [Nat.mod_eq_of_lt (by norm_num at hcap ⊢; omega),
      Nat.mod_eq_of_lt (by norm_num at hcap ⊢; omega)]
  have hns : ¬ 4 * componentBytes v16 * (x * y * z) < cap := by omega
  have hkz : cap / (4 * componentBytes v16) / (x * y) ≤ z := by
    have h1 : cap / (4 * componentBytes v16) ≤ x * y * z := by
      apply Nat.div_le_of_le_mul
      exact hsplit
    calc cap / (4 * componentBytes v16) / (x * y) ≤ x * y * z / (x * y) := Nat.div_le_div_right h1
      _ = z := Nat.mul_div_cancel_left z hxy0
  refine ⟨?_, ?_, ?_, ?_, ?_, by rw [hm, hlim, hbnd], hkz⟩
  all_goals simp only [planVectorFieldBuffers, hm, hNc, hreq, if_neg hns, hlim, hbnd, hsz]
  · exact hA
  congr 1
  have hlt : 4 * componentBytes v16 * (x * y * z) < 2 ^ 64 := by
    have hw4 : componentBytes v16 ≤ 4 := by cases v16 <;> simp [componentBytes]
    have : 4 * componentBytes v16 * (x * y * z) ≤ 4 * 4 * (x * y * z) :=
      Nat.mul_le_mul_right _ (Nat.mul_le_mul_left _ hw4)
    norm_num at hN ⊢
    omega
  generalize cap / (4 * componentBytes v16) / (x * y) * (x * y) * (4 * componentBytes v16) = A
    at hA ⊢
  generalize 4 * componentBytes v16 * (x * y * z) = R at hsplit hlt ⊢
  norm_num at hlt ⊢
  omega


/-- C10 (amended): in split mode (`4 W N ≥ capacity`), when the capacity is below `2 ^ 32`
and exactly representable in single precision, the slice area `x y` is below `2 ^ 24`, and
`limit = floor(capacity / (4 W))` leaves a remainder modulo `x y` that stays more than
`limit / 2 ^ 24` below `x y`, the boundary is `splitZ = floor(limit / (x y))`, buffer A has
`splitZ x y 4 W` bytes, which is at most the capacity, and buffer B has the remaining
`4 W N - splitZ x y 4 W` bytes (for which no bound is claimed). -/
theorem split_first_buffer_within_capacity (cap : Nat) (v16 : Bool) (x y z : Nat)
    (hxy0 : 0 < x * y) (hxy : x * y < 2 ^ 24) (hN : x * y * z < 2 ^ 31)
    (hcap : cap < 2 ^ 32) (hrep : roundToFloat24 cap = cap)
    (hq : cap / (4 * componentBytes v16) <
      (x * y - cap / (4 * componentBytes v16) % (x * y)) * 2 ^ 24)
    (hsplit : cap ≤ 4 * componentBytes v16 * (x * y * z)) :
    (planVectorFieldBuffers cap v16 ⟨x, y, z⟩).usingTwoBuffers = true ∧
    (planVectorFieldBuffers cap v16 ⟨x, y, z⟩).maxZ =
      ((cap / (4 * componentBytes v16) / (x * y) : Nat) : Int) ∧
    (planVectorFieldBuffers cap v16 ⟨x, y, z⟩).vectorFieldBuffer =
      cap / (4 * componentBytes v16) / (x * y) * (x * y) * (4 * componentBytes v16) ∧
    (planVectorFieldBuffers cap v16 ⟨x, y, z⟩).vectorFieldBuffer ≤ cap ∧
    (planVectorFieldBuffers cap v16 ⟨x, y, z⟩).vectorFieldBuffer2 =
      some (4 * componentBytes v16 * (x * y * z) -
        cap / (4 * componentBytes v16) / (x * y) * (x * y) * (4 * componentBytes v16)) := by
  obtain ⟨h1, h2, h3, h4, h5, _, _⟩ :=
    planVectorFieldBuffers_of_exact cap v16 x y z hxy0 hxy hN hcap hrep hq hsplit
  exact ⟨h1, h2, h3, h4, h5⟩

/-- Under the same exactness conditions the split is as the specification describes it:
the boundary `splitZ = floor(floor(capacity / (4 W)) / (x y))` is at most `z`, the two
buffers hold `splitZ x y` and `(z - splitZ) x y` voxels, which add up to `N`, buffer A is
copied to the slices `[0, splitZ)` and buffer B to the slices `[splitZ, z)`. -/
theorem split_copy_regions_of_exact (cap : Nat) (v16 : Bool) (x y z : Nat)
    (hxy0 : 0 < x * y) (hxy : x * y < 2 ^ 24) (hN : x * y * z < 2 ^ 31)
    (hcap : cap < 2 ^ 32) (hrep : roundToFloat24 cap = cap)
    (hq : cap / (4 * componentBytes v16) <
      (x * y - cap / (4 * componentBytes v16) % (x * y)) * 2 ^ 24)
    (hsplit : cap ≤ 4 * componentBytes v16 * (x * y * z)) :
    cap / (4 * componentBytes v16) / (x * y) ≤ z ∧
    cap / (4 * componentBytes v16) / (x * y) * (x * y) +
      (z - cap / (4 * componentBytes v16) / (x * y)) * (x * y) = x * y * z ∧
    copyBuffersToImage cap v16 ⟨x, y, z⟩ =
      [⟨1, 0, cap / (4 * componentBytes v16) / (x * y)⟩,
       ⟨2, cap / (4 * componentBytes v16) / (x * y),
        z - cap / (4 * componentBytes v16) / (x * y)⟩] := by
  obtain ⟨h1, _, _, _, _, h6, h7⟩ :=
    planVectorFieldBuffers_of_exact cap v16 x y z hxy0 hxy hN hcap hrep hq hsplit
  refine ⟨h7, ?_, ?_⟩
  · rw [← Nat.add_mul, Nat.add_sub_cancel' h7, Nat.mul_comm]
  · have hz : toSizeT (z : Int) = z := by
      apply toSizeT_natCast
      have : z ≤ x * y * z := Nat.le_mul_of_pos_left z hxy0
      norm_num at hN ⊢
      omega
    simp only [copyBuffersToImage, h1, if_true, h6, hz]
    have hz64 : z < 2 ^ 64 := by
      have : z ≤ x * y * z := Nat.le_mul_of_pos_left z hxy0
      norm_num at hN ⊢
      omega
    generalize cap / (4 * componentBytes v16) / (x * y) = k at h7 ⊢
    have e : (z + 2 ^ 64 - k) % 2 ^ 64 = z - k := by
      norm_num at hz64 ⊢
      omega
    rw [e]

theorem split_first_buffer_within_capacity_witness :
    (planVectorFieldBuffers (2 ^ 27) true ⟨(500 : Nat), (500 : Nat), (600 : Nat)⟩).usingTwoBuffers
      = true ∧
    (planVectorFieldBuffers (2 ^ 27) true ⟨(500 : Nat), (500 : Nat), (600 : Nat)⟩).maxZ =
      ((2 ^ 27 / (4 * componentBytes true) / (500 * 500) : Nat) : Int) ∧
    (planVectorFieldBuffers (2 ^ 27) true ⟨(500 : Nat), (500 : Nat), (600 : Nat)⟩).vectorFieldBuffer =
      2 ^ 27 / (4 * componentBytes true) / (500 * 500) * (500 * 500) * (4 * componentBytes true) ∧
    (planVectorFieldBuffers (2 ^ 27) true ⟨(500 : Nat), (500 : Nat), (600 : Nat)⟩).vectorFieldBuffer
      ≤ 2 ^ 27 ∧
    (planVectorFieldBuffers (2 ^ 27) true ⟨(500 : Nat), (500 : Nat), (600 : Nat)⟩).vectorFieldBuffer2 =
      some (4 * componentBytes true * (500 * 500 * 600) -
        2 ^ 27 / (4 * componentBytes true) / (500 * 500) * (500 * 500) * (4 * componentBytes true)) :=
  split_first_buffer_within_capacity (2 ^ 27) true 500 500 600 (by decide) (by decide)
    (by decide) (by decide) (by decide) (by decide) (by decide)

/-! ## The retry wrapper -/

/-- A device error other than the transient one ends the invocation at once, whatever the
counter and however many attempts came before. -/
theorem runAttempts_of_other_clError {α : Type} (pipeline : Nat → AttemptOutcome α)
    (fuel : Nat) (c : Int) (k : Nat) (events : List RunEvent) (e : Int)
    (h : pipeline k = .clError e) (he : e ≠ CL_INVALID_COMMAND_QUEUE) :
    runAttempts pipeline (fuel + 1) c k events =
      ⟨.threwSIPLException,
        events ++ [.attempt k, .deleteAllMemoryObjects, .deleteOutput, .throwSIPLException],
        k + 1, c⟩ := by
  have hn : ¬ (e = CL_INVALID_COMMAND_QUEUE ∧ c < 2) := fun hc => he hc.1
  simp only [runAttempts, h, if_neg hn]

/-- C13: starting from `runCounter = 0`, for every sequence of attempt outcomes `run` makes
at most 3 pipeline attempts; if the first two attempts raise `CL_INVALID_COMMAND_QUEUE`
and the third succeeds, it returns the third attempt's output after exactly 3 attempts; if
every attempt raises that error, it fails with an exception after exactly 3 attempts. -/
theorem run_retry_budget {α : Type} (pipeline : Nat → AttemptOutcome α) :
    (run pipeline 0).result ≠ .outOfFuel ∧ (run pipeline 0).attempts ≤ 3 ∧
    (∀ out, pipeline 0 = .clError CL_INVALID_COMMAND_QUEUE →
      pipeline 1 = .clError CL_INVALID_COMMAND_QUEUE → pipeline 2 = .success out →
      (run pipeline 0).result = .returned out ∧ (run pipeline 0).attempts = 3) ∧
    ((∀ k, pipeline k = .clError CL_INVALID_COMMAND_QUEUE) →
      (run pipeline 0).result = .threwSIPLException ∧ (run pipeline 0).attempts = 3 ∧
      (run pipeline 0).events = [.attempt 0, .deleteAllMemoryObjects, .deleteOutput,
        .attempt 1, .deleteAllMemoryObjects, .deleteOutput,
        .attempt 2, .deleteAllMemoryObjects, .deleteOutput, .throwSIPLException]) := by
  refine ⟨?_, ?_, ?_, ?_⟩
  · cases h0 : pipeline 0 <;> cases h1 : pipeline 1 <;> cases h2 : pipeline 2 <;>
      simp [run, runAttempts, h0, h1, h2] <;> split_ifs <;> simp
  · cases h0 : pipeline 0 <;> cases h1 : pipeline 1 <;> cases h2 : pipeline 2 <;>
      simp [run, runAttempts, h0, h1, h2] <;> split_ifs <;> simp
  · intro out h0 h1 h2
    simp [run, runAttempts, h0, h1, h2]
  · intro h
    simp [run, runAttempts, h 0, h 1, h 2]

theorem run_retry_budget_witness :
    ((run (outcomesOf [.clError CL_INVALID_COMMAND_QUEUE, .clError CL_INVALID_COMMAND_QUEUE,
        .success (7 : Nat)] (.success 7)) 0).result = .returned 7 ∧
      (run (outcomesOf [.clError CL_INVALID_COMMAND_QUEUE, .clError CL_INVALID_COMMAND_QUEUE,
        .success (7 : Nat)] (.success 7)) 0).attempts = 3) ∧
    (run (fun _ => (.clError CL_INVALID_COMMAND_QUEUE : AttemptOutcome Nat)) 0).result =
      .threwSIPLException ∧
    (run (fun _ => (.clError CL_INVALID_COMMAND_QUEUE : AttemptOutcome Nat)) 0).attempts = 3 :=
  ⟨(run_retry_budget (outcomesOf [.clError CL_INVALID_COMMAND_QUEUE,
      .clError CL_INVALID_COMMAND_QUEUE, .success (7 : Nat)] (.success 7))).2.2.1 7
      (by decide) (by decide) (by decide),
    ((run_retry_budget (fun _ => (.clError CL_INVALID_COMMAND_QUEUE : AttemptOutcome Nat))).2.2.2
      (fun _ => rfl)).1,
    ((run_retry_budget (fun _ => (.clError CL_INVALID_COMMAND_QUEUE : AttemptOutcome Nat))).2.2.2
      (fun _ => rfl)).2.1⟩

/-- C14 (failing input): a first invocation of `run` meets the transient error twice and
then succeeds; it returns, leaving the global `runCounter` at 2. A second invocation in the
same process whose first two attempts raise the transient error and whose third would
succeed throws on its first error, after a single attempt. -/
theorem second_invocation_has_no_retry_budget :
    run (outcomesOf [.clError CL_INVALID_COMMAND_QUEUE, .clError CL_INVALID_COMMAND_QUEUE,
        .success 1] (.success 1)) 0 =
      ⟨.returned (1 : Nat), [.attempt 0, .deleteAllMemoryObjects, .deleteOutput,
        .attempt 1, .deleteAllMemoryObjects, .deleteOutput,
        .attempt 2, .deleteAllMemoryObjects, .returnOutput], 3, 2⟩ ∧
    run (outcomesOf [.clError CL_INVALID_COMMAND_QUEUE, .clError CL_INVALID_COMMAND_QUEUE,
        .success 2] (.success 2))
        (run (outcomesOf [.clError CL_INVALID_COMMAND_QUEUE, .clError CL_INVALID_COMMAND_QUEUE,
          .success (1 : Nat)] (.success 1)) 0).runCounter =
      ⟨.threwSIPLException, [.attempt 0, .deleteAllMemoryObjects, .deleteOutput,
        .throwSIPLException], 1, 2⟩ := by
  decide

/-- C15: for every device error whose code is not `CL_INVALID_COMMAND_QUEUE`, whatever the
retry counter, `run` makes no further attempt: it releases all tracked memory objects,
deletes the output object and throws, so nothing is returned. This holds for the first
attempt of an invocation and for every later attempt reached by a retry. -/
theorem run_other_device_error_is_fatal {α : Type} (pipeline : Nat → AttemptOutcome α)
    (c : Int) (e : Int) (he : e ≠ CL_INVALID_COMMAND_QUEUE) :
    (pipeline 0 = .clError e →
      run pipeline c = ⟨.threwSIPLException,
        [.attempt 0, .deleteAllMemoryObjects, .deleteOutput, .throwSIPLException], 1, c⟩) ∧
    (∀ (fuel k : Nat) (events : List RunEvent), pipeline k = .clError e →
      runAttempts pipeline (fuel + 1) c k events =
        ⟨.threwSIPLException,
          events ++ [.attempt k, .deleteAllMemoryObjects, .deleteOutput, .throwSIPLException],
          k + 1, c⟩) := by
  constructor
  · intro h
    have := runAttempts_of_other_clError pipeline 2 c 0 [] e h he
    simpa [run] using this
  · intro fuel k events h
    exact runAttempts_of_other_clError pipeline fuel c k events e h he

theorem run_other_device_error_is_fatal_witness :
    (outcomesOf [.clError (-5)] (.success (0 : Nat)) 0 = .clError (-5) →
      run (outcomesOf [.clError (-5)] (.success (0 : Nat))) 1 = ⟨.threwSIPLException,
        [.attempt 0, .deleteAllMemoryObjects, .deleteOutput, .throwSIPLException], 1, 1⟩) ∧
    (∀ (fuel k : Nat) (events : List RunEvent),
      outcomesOf [.clError (-5)] (.success (0 : Nat)) k = .clError (-5) →
      runAttempts (outcomesOf [.clError (-5)] (.success (0 : Nat))) (fuel + 1) 1 k events =
        ⟨.threwSIPLException,
          events ++ [.attempt k, .deleteAllMemoryObjects, .deleteOutput, .throwSIPLException],
          k + 1, 1⟩) :=
  run_other_device_error_is_fatal (outcomesOf [.clError (-5)] (.success (0 : Nat))) 1 (-5)
    (by decide)

/-! ## The two passes -/

theorem smallSteps_not_large (p : FilterParams) : ∀ s ∈ smallSteps p, s.isLarge = false := by
  intro s hs
  unfold smallSteps at hs
  simp only [List.mem_append, List.mem_cons, List.mem_singleton, List.not_mem_nil,
    or_false] at hs
  rcases hs with h | h | h
  · split_ifs at h
    · simp only [List.mem_singleton] at h
      subst h; rfl
    · simp at h
  · subst h; rfl
  · subst h; rfl

theorem combine_not_mem_smallSteps (p : FilterParams) : FilterStep.combine ∉ smallSteps p :=
  fun h => by simpa [FilterStep.isLarge] using smallSteps_not_large p _ h

theorem combine_not_mem_largeSteps (p : FilterParams) (cap : Nat) (size : Int3) :
    FilterStep.combine ∉ largeSteps p cap size := by
  unfold largeSteps
  split_ifs <;> simp

/-- C11 (as stated, refuted): with `radius-min = 3` and `radius-max = 2 < 2.5` the small
pass is skipped and the large pass runs (large blur, vector field, GVF, tube-detectness);
the outputs are those of the large pass. -/
theorem large_pass_runs_when_only_radius_max_is_small :
    (2 : ℚ) < 5 / 2 ∧
    runCircleFittingMethod markingKernels
        ⟨3, 2, 1 / 2, 1, 0, 1, "white", true, true, false, false⟩ (2 ^ 30) ⟨8, 8, 8⟩ 0 =
      ⟨[.largeBlur, .largeVectorField, .standardGVF, .largeCircleTDF], 3011, 3111, 3211⟩ := by
  norm_num [runCircleFittingMethod, largePass, largeSteps, largeDetectness, largeVectorField,
    markingKernels, useSlowGVF]

/-- C11 (amended): for every configuration with `radius-min < 2.5` and `radius-max < 2.5`,
`runCircleFittingMethod` runs the small pass only - no stage of the large pass and no
merge - and the returned TDF, radius image and vector field are exactly the small pass's
TDF, radius and vector field. -/
theorem early_exit_returns_small_pass {V F T R : Type} (ks : Kernels V F T R)
    (p : FilterParams) (cap : Nat) (size : Int3) (dataset : V)
    (hmin : p.radiusMin < 5 / 2) (hmax : p.radiusMax < 5 / 2) :
    runCircleFittingMethod ks p cap size dataset =
      ⟨smallSteps p ++ [.earlyExit], smallVectorField ks p dataset,
        (smallDetectness ks p dataset).1, (smallDetectness ks p dataset).2⟩ ∧
    ∀ s ∈ (runCircleFittingMethod ks p cap size dataset).steps, s.isLarge = false := by
  have h : runCircleFittingMethod ks p cap size dataset =
      ⟨smallSteps p ++ [.earlyExit], smallVectorField ks p dataset,
        (smallDetectness ks p dataset).1, (smallDetectness ks p dataset).2⟩ := by
    rw [runCircleFittingMethod, if_pos hmin, if_pos hmax]
  refine ⟨h, ?_⟩
  rw [h]
  intro s hs
  simp only [List.mem_append, List.mem_singleton] at hs
  rcases hs with hs | hs
  · exact smallSteps_not_large p s hs
  · subst hs; rfl

theorem early_exit_returns_small_pass_witness :
    runCircleFittingMethod markingKernels
        ⟨1, 2, 1 / 2, 1, 0, 1, "white", true, true, false, false⟩ (2 ^ 30) ⟨8, 8, 8⟩ 0 =
      ⟨smallSteps ⟨1, 2, 1 / 2, 1, 0, 1, "white", true, true, false, false⟩ ++ [.earlyExit],
        smallVectorField markingKernels
          ⟨1, 2, 1 / 2, 1, 0, 1, "white", true, true, false, false⟩ 0,
        (smallDetectness markingKernels
          ⟨1, 2, 1 / 2, 1, 0, 1, "white", true, true, false, false⟩ 0).1,
        (smallDetectness markingKernels
          ⟨1, 2, 1 / 2, 1, 0, 1, "white", true, true, false, false⟩ 0).2⟩ ∧
    ∀ s ∈ (runCircleFittingMethod markingKernels
        ⟨1, 2, 1 / 2, 1, 0, 1, "white", true, true, false, false⟩ (2 ^ 30) ⟨8, 8, 8⟩ 0).steps,
      s.isLarge = false :=
  early_exit_returns_small_pass markingKernels
    ⟨1, 2, 1 / 2, 1, 0, 1, "white", true, true, false, false⟩ (2 ^ 30) ⟨8, 8, 8⟩ 0
    (by norm_num) (by norm_num)

/-- C12: the merge (`combine`) runs if and only if the small pass ran (`radius-min < 2.5`)
and `radius-max ≥ 2.5`, and then the outputs are what `combine` leaves in `TDFlarge` and
`radiusLarge`; when the small pass did not run (`radius-min ≥ 2.5`) the final TDF and
radius images are the large pass's `TDFlarge` and `radiusLarge`, unmodified. -/
theorem combine_runs_iff {V F T R : Type} (ks : Kernels V F T R)
    (p : FilterParams) (cap : Nat) (size : Int3) (dataset : V) :
    (FilterStep.combine ∈ (runCircleFittingMethod ks p cap size dataset).steps ↔
      p.radiusMin < 5 / 2 ∧ 5 / 2 ≤ p.radiusMax) ∧
    (p.radiusMin < 5 / 2 ∧ 5 / 2 ≤ p.radiusMax →
      (runCircleFittingMethod ks p cap size dataset).TDF =
        (ks.combine (smallDetectness ks p dataset).1 (smallDetectness ks p dataset).2
          (largeDetectness ks p cap size dataset).1 (largeDetectness ks p cap size dataset).2).1 ∧
      (runCircleFittingMethod ks p cap size dataset).radiusImage =
        (ks.combine (smallDetectness ks p dataset).1 (smallDetectness ks p dataset).2
          (largeDetectness ks p cap size dataset).1
          (largeDetectness ks p cap size dataset).2).2) ∧
    (5 / 2 ≤ p.radiusMin →
      (runCircleFittingMethod ks p cap size dataset).TDF =
        (largeDetectness ks p cap size dataset).1 ∧
      (runCircleFittingMethod ks p cap size dataset).radiusImage =
        (largeDetectness ks p cap size dataset).2 ∧
      (runCircleFittingMethod ks p cap size dataset).steps = largeSteps p cap size) := by
  have hs := combine_not_mem_smallSteps p
  have hl := combine_not_mem_largeSteps p cap size
  by_cases hmin : p.radiusMin < 5 / 2
  · by_cases hmax : p.radiusMax < 5 / 2
    · have e : runCircleFittingMethod ks p cap size dataset =
          ⟨smallSteps p ++ [.earlyExit], smallVectorField ks p dataset,
            (smallDetectness ks p dataset).1, (smallDetectness ks p dataset).2⟩ := by
        rw [runCircleFittingMethod, if_pos hmin, if_pos hmax]
      rw [e]
      refine ⟨?_, fun h => absurd hmax (not_lt.mpr h.2), fun h => absurd hmin (not_lt.mpr h)⟩
      constructor
      · intro h
        simp only [List.mem_append, List.mem_singleton] at h
        rcases h with h | h
        · exact absurd h hs
        · exact absurd h (by decide)
      · intro h
        exact absurd hmax (not_lt.mpr h.2)
    · have e : runCircleFittingMethod ks p cap size dataset =
          largePass ks p cap size dataset (some (smallDetectness ks p dataset))
            (smallSteps p) := by
        rw [runCircleFittingMethod, if_pos hmin, if_neg hmax]
      rw [e]
      refine ⟨?_, fun _ => ⟨rfl, rfl⟩, fun h => absurd hmin (not_lt.mpr h)⟩
      constructor
      · intro _
        exact ⟨hmin, not_lt.mp hmax⟩
      · intro _
        simp [largePass]
  · have e : runCircleFittingMethod ks p cap size dataset =
        largePass ks p cap size dataset none [] := by
      rw [runCircleFittingMethod, if_neg hmin]
    rw [e]
    refine ⟨?_, fun h => absurd h.1 hmin, fun _ => ⟨rfl, rfl, by simp [largePass]⟩⟩
    constructor
    · intro h
      simp only [largePass, List.nil_append] at h
      exact absurd h hl
    · intro h
      exact absurd h.1 hmin

theorem combine_runs_iff_witness :
    FilterStep.combine ∈ (runCircleFittingMethod markingKernels
        ⟨1, 3, 1 / 2, 1, 0, 1, "white", true, true, false, false⟩ (2 ^ 30) ⟨8, 8, 8⟩ 0).steps ∧
    (runCircleFittingMethod markingKernels
        ⟨3, 5, 1 / 2, 1, 0, 1, "white", true, true, false, false⟩ (2 ^ 30) ⟨8, 8, 8⟩ 0).TDF =
      (largeDetectness markingKernels
        ⟨3, 5, 1 / 2, 1, 0, 1, "white", true, true, false, false⟩ (2 ^ 30) ⟨8, 8, 8⟩ 0).1 :=
  ⟨(combine_runs_iff markingKernels
      ⟨1, 3, 1 / 2, 1, 0, 1, "white", true, true, false, false⟩ (2 ^ 30) ⟨8, 8, 8⟩ 0).1.mpr
      ⟨by norm_num, by norm_num⟩,
    ((combine_runs_iff markingKernels
      ⟨3, 5, 1 / 2, 1, 0, 1, "white", true, true, false, false⟩ (2 ^ 30) ⟨8, 8, 8⟩ 0).2.2
      (by norm_num)).1⟩

/-! ## The header -/

theorem take_eq_keyElementType (line : List Char) :
    line.take 11 = "ElementType".toList ↔ keyElementType <+: line := by
  rw [List.prefix_iff_eq_take]
  exact ⟨fun h => h.symm, fun h => h.symm⟩

theorem take_eq_keyElementDataFile (line : List Char) :
    line.take 15 = "ElementDataFile".toList ↔ keyElementDataFile <+: line := by
  rw [List.prefix_iff_eq_take]
  exact ⟨fun h => h.symm, fun h => h.symm⟩

theorem take_eq_keyDimSize (line : List Char) :
    line.take 7 = "DimSize".toList ↔ keyDimSize <+: line := by
  rw [List.prefix_iff_eq_take]
  exact ⟨fun h => h.symm, fun h => h.symm⟩

theorem take_eq_keyElementSpacing (line : List Char) :
    line.take 14 = "ElementSpacing".toList ↔ keyElementSpacing <+: line := by
  rw [List.prefix_iff_eq_take]
  exact ⟨fun h => h.symm, fun h => h.symm⟩

/-- No line starts with two different keys. -/
theorem keys_exclusive (line : List Char) :
    (keyElementDataFile <+: line → ¬ keyElementType <+: line) ∧
    (keyDimSize <+: line → ¬ keyElementType <+: line ∧ ¬ keyElementDataFile <+: line) ∧
    (keyElementSpacing <+: line → ¬ keyElementType <+: line ∧
      ¬ keyElementDataFile <+: line ∧ ¬ keyDimSize <+: line) := by
  have aux : ∀ (k1 k2 : List Char) (n m : Nat), k1.length = n → k2.length = m →
      k1.take (min n m) ≠ k2.take (min n m) → k1 <+: line → ¬ k2 <+: line := by
    intro k1 k2 n m h1 h2 hne hp1 hp2
    rw [List.prefix_iff_eq_take] at hp1 hp2
    apply hne
    have e1 : k1.take (min n m) = line.take (min n m) := by
      conv_lhs => rw [hp1, List.take_take, h1]
      congr 1
      omega
    have e2 : k2.take (min n m) = line.take (min n m) := by
      conv_lhs => rw [hp2, List.take_take, h2]
      congr 1
      omega
    rw [e1, e2]
  refine ⟨aux keyElementDataFile keyElementType 15 11 rfl rfl (by decide),
    fun h => ⟨aux keyDimSize keyElementType 7 11 rfl rfl (by decide) h,
      aux keyDimSize keyElementDataFile 7 15 rfl rfl (by decide) h⟩,
    fun h => ⟨aux keyElementSpacing keyElementType 14 11 rfl rfl (by decide) h,
      aux keyElementSpacing keyElementDataFile 14 15 rfl rfl (by decide) h,
      aux keyElementSpacing keyDimSize 14 7 rfl rfl (by decide) h⟩⟩

/-- What one line does to the flags, the type name and the spacing. -/
theorem headerLine_spec (filename : List Char) (st st' : HeaderState) (line : List Char)
    (h : headerLine filename st line = some st') :
    (st'.typeFound = true ↔ st.typeFound = true ∨ keyElementType <+: line) ∧
    (st'.rawFilenameFound = true ↔ st.rawFilenameFound = true ∨ keyElementDataFile <+: line) ∧
    (st'.sizeFound = true ↔ st.sizeFound = true ∨ keyDimSize <+: line) ∧
    (¬ keyElementSpacing <+: line → st'.spacing = st.spacing) ∧
    (¬ keyElementType <+: line → st'.typeName = st.typeName) := by
  obtain ⟨hx2, hx3, hx4⟩ := keys_exclusive line
  unfold headerLine at h
  by_cases h1 : line.take 11 = "ElementType".toList
  · have p1 := (take_eq_keyElementType line).mp h1
    rw [if_pos h1] at h
    obtain ⟨t, _, ht⟩ := Option.map_eq_some'.mp h
    subst ht
    refine ⟨by simp [p1], ?_, ?_, fun _ => rfl, fun hn => absurd p1 hn⟩
    · simp only [iff_self_or]
      intro hp; exact absurd p1 (hx2 hp)
    · simp only [iff_self_or]
      intro hp; exact absurd p1 (hx3 hp).1
  · have p1 : ¬ keyElementType <+: line := fun hp => h1 ((take_eq_keyElementType line).mpr hp)
    rw [if_neg h1] at h
    by_cases h2 : line.take 15 = "ElementDataFile".toList
    · have p2 := (take_eq_keyElementDataFile line).mp h2
      rw [if_pos h2] at h
      obtain ⟨t, _, ht⟩ := Option.map_eq_some'.mp h
      subst ht
      refine ⟨by simp [p1], by simp [p2], ?_, fun _ => rfl, fun _ => rfl⟩
      simp only [iff_self_or]
      intro hp; exact absurd p2 (hx3 hp).2
    · have p2 : ¬ keyElementDataFile <+: line :=
        fun hp => h2 ((take_eq_keyElementDataFile line).mpr hp)
      rw [if_neg h2] at h
      by_cases h3 : line.take 7 = "DimSize".toList
      · have p3 := (take_eq_keyDimSize line).mp h3
        rw [if_pos h3] at h
        obtain ⟨t, _, ht⟩ := Option.map_eq_some'.mp h
        subst ht
        exact ⟨by simp [p1], by simp [p2], by simp [p3], fun _ => rfl, fun _ => rfl⟩
      · have p3 : ¬ keyDimSize <+: line := fun hp => h3 ((take_eq_keyDimSize line).mpr hp)
        rw [if_neg h3] at h
        by_cases h4 : line.take 14 = "ElementSpacing".toList
        · have p4 := (take_eq_keyElementSpacing line).mp h4
          rw [if_pos h4] at h
          obtain ⟨t, _, ht⟩ := Option.map_eq_some'.mp h
          subst ht
          exact ⟨by simp [p1], by simp [p2], by simp [p3], fun hn => absurd p4 hn, fun _ => rfl⟩
        · rw [if_neg h4] at h
          have ht : st = st' := Option.some.inj h
          subst ht
          exact ⟨by simp [p1], by simp [p2], by simp [p3], fun _ => rfl, fun _ => rfl⟩

/-- A line that is long enough for its key is processed without `std::out_of_range`. -/
theorem headerLine_isSome (filename : List Char) (st : HeaderState) (line : List Char)
    (hl : LongEnough line) : ∃ st', headerLine filename st line = some st' := by
  obtain ⟨l1, l2, l3, l4⟩ := hl
  unfold headerLine
  by_cases h1 : line.take 11 = "ElementType".toList
  · have := l1 ((take_eq_keyElementType line).mp h1)
    rw [if_pos h1]
    simp [substrFrom, this]
  · rw [if_neg h1]
    by_cases h2 : line.take 15 = "ElementDataFile".toList
    · have := l2 ((take_eq_keyElementDataFile line).mp h2)
      rw [if_pos h2]
      simp [substrFrom, this]
    · rw [if_neg h2]
      by_cases h3 : line.take 7 = "DimSize".toList
      · have := l3 ((take_eq_keyDimSize line).mp h3)
        rw [if_pos h3]
        simp [substrFrom, this]
      · rw [if_neg h3]
        by_cases h4 : line.take 14 = "ElementSpacing".toList
        · have := l4 ((take_eq_keyElementSpacing line).mp h4)
          rw [if_pos h4]
          simp [substrFrom, this]
        · rw [if_neg h4]
          exact ⟨st, rfl⟩

theorem or_exists_mem_cons {β : Type} (a : Prop) (P : β → Prop) (x : β) (xs : List β) :
    ((a ∨ P x) ∨ ∃ l ∈ xs, P l) ↔ (a ∨ ∃ l ∈ x :: xs, P l) := by
  constructor
  · rintro ((h | h) | ⟨l, hl, hp⟩)
    · exact Or.inl h
    · exact Or.inr ⟨x, List.mem_cons_self _ _, h⟩
    · exact Or.inr ⟨l, List.mem_cons_of_mem _ hl, hp⟩
  · rintro (h | ⟨l, hl, hp⟩)
    · exact Or.inl (Or.inl h)
    · rcases List.mem_cons.mp hl with e | hl
      · subst e; exact Or.inl (Or.inr hp)
      · exact Or.inr ⟨l, hl, hp⟩

/-- The flags after the loop say which keys occurred; the spacing is untouched when no
line starts with `ElementSpacing`. -/
theorem headerLoop_spec (filename : List Char) : ∀ (lines : List (List Char))
    (st st' : HeaderState), headerLoop filename st lines = some st' →
    (st'.typeFound = true ↔ st.typeFound = true ∨ ∃ line ∈ lines, keyElementType <+: line) ∧
    (st'.rawFilenameFound = true ↔
      st.rawFilenameFound = true ∨ ∃ line ∈ lines, keyElementDataFile <+: line) ∧
    (st'.sizeFound = true ↔ st.sizeFound = true ∨ ∃ line ∈ lines, keyDimSize <+: line) ∧
    ((∀ line ∈ lines, ¬ keyElementSpacing <+: line) → st'.spacing = st.spacing) := by
  intro lines
  induction lines with
  | nil =>
    intro st st' h
    have e : st = st' := Option.some.inj h
    subst e
    simp
  | cons line rest ih =>
    intro st st' h
    rw [headerLoop] at h
    cases hl : headerLine filename st line with
    | none => rw [hl] at h; simp at h
    | some st1 =>
      rw [hl] at h
      obtain ⟨a1, a2, a3, a4, _⟩ := headerLine_spec filename st st1 line hl
      obtain ⟨b1, b2, b3, b4⟩ := ih st1 st' h
      refine ⟨?_, ?_, ?_, ?_⟩
      · rw [b1, a1]; exact or_exists_mem_cons _ _ _ _
      · rw [b2, a2]; exact or_exists_mem_cons _ _ _ _
      · rw [b3, a3]; exact or_exists_mem_cons _ _ _ _
      · intro hno
        rw [b4 (fun l hl' => hno l (List.mem_cons_of_mem _ hl')),
          a4 (hno line (List.mem_cons_self _ _))]

theorem headerLoop_isSome (filename : List Char) : ∀ (lines : List (List Char))
    (st : HeaderState), (∀ line ∈ lines, LongEnough line) →
    ∃ st', headerLoop filename st lines = some st' := by
  intro lines
  induction lines with
  | nil => intro st _; exact ⟨st, rfl⟩
  | cons line rest ih =>
    intro st hl
    obtain ⟨st1, h1⟩ := headerLine_isSome filename st line (hl line (List.mem_cons_self _ _))
    obtain ⟨st2, h2⟩ := ih st1 (fun l hl' => hl l (List.mem_cons_of_mem _ hl'))
    exact ⟨st2, by rw [headerLoop, h1]; exact h2⟩

/-- C16 (as stated, refuted): a header whose only line is `ElementType` lacks the keys
`ElementDataFile` and `DimSize`, yet the format error is not raised: `line.substr(14)` on
the 11-character line throws `std::out_of_range` inside the loop. -/
theorem header_short_line_raises_out_of_range :
    readHeader "vol.mhd".toList ⟨0, 0, 0⟩ ["ElementType".toList] = .outOfRange ∧
    readHeader "vol.mhd".toList ⟨0, 0, 0⟩ ["ElementType".toList] ≠ .formatError ∧
    ¬ keyDimSize <+: "ElementType".toList := by
  refine ⟨by decide, by decide, ?_⟩
  rw [← take_eq_keyDimSize]
  decide

/-- The outcome of reading a header all of whose key lines are long enough. -/
theorem readHeader_of_longEnough (filename : List Char) (size : Int3)
    (lines : List (List Char)) (hlong : ∀ line ∈ lines, LongEnough line) :
    ∃ st, headerLoop filename (HeaderState.initial size) lines = some st ∧
      (st.typeFound = true ↔ ∃ line ∈ lines, keyElementType <+: line) ∧
      (st.rawFilenameFound = true ↔ ∃ line ∈ lines, keyElementDataFile <+: line) ∧
      (st.sizeFound = true ↔ ∃ line ∈ lines, keyDimSize <+: line) ∧
      ((∀ line ∈ lines, ¬ keyElementSpacing <+: line) → st.spacing = (1, 1, 1)) ∧
      readHeader filename size lines =
        if !st.typeFound || !st.sizeFound || !st.rawFilenameFound then .formatError
        else .parsed ⟨trimAtSpace st.typeName, st.rawFilename, st.size, st.spacing⟩ := by
  obtain ⟨st, hst⟩ := headerLoop_isSome filename lines (HeaderState.initial size) hlong
  obtain ⟨b1, b2, b3, b4⟩ := headerLoop_spec filename lines _ st hst
  refine ⟨st, hst, ?_, ?_, ?_, ?_, ?_⟩
  · rw [b1]; simp [HeaderState.initial]
  · rw [b2]; simp [HeaderState.initial]
  · rw [b3]; simp [HeaderState.initial]
  · intro h; rw [b4 h]; rfl
  · simp only [readHeader, hst]

/-- C16 (amended): for every sequence of header lines in which each line that starts with
a key has at least three more characters, reading the header does not fail inside the
loop, and it raises the format error if and only if at least one of the three required
keys (`ElementType`, `ElementDataFile`, `DimSize`) is the prefix of no line; the format
error is raised before the element type is looked at, and a header without
`ElementSpacing` that is accepted has spacing (1, 1, 1). -/
theorem header_format_error_iff (filename : List Char) (size : Int3)
    (lines : List (List Char)) (hlong : ∀ line ∈ lines, LongEnough line) :
    readHeader filename size lines ≠ .outOfRange ∧
    (readHeader filename size lines = .formatError ↔
      ∃ key ∈ [keyElementType, keyElementDataFile, keyDimSize],
        ∀ line ∈ lines, ¬ key <+: line) ∧
    (∀ (sprintfF : ℚ → String) (parameters : ParamList) (data : List ℚ),
      readHeader filename size lines = .formatError →
      readDatasetAndTransferLoad sprintfF parameters filename size lines data =
        .formatError) ∧
    ((∀ line ∈ lines, ¬ keyElementSpacing <+: line) →
      ∀ h, readHeader filename size lines = .parsed h → h.spacing = (1, 1, 1)) := by
  obtain ⟨st, _, f1, f2, f3, f4, hr⟩ := readHeader_of_longEnough filename size lines hlong
  refine ⟨?_, ?_, ?_, ?_⟩
  · rw [hr]; split_ifs <;> simp
  · rw [hr]
    simp only [List.mem_cons, List.mem_singleton, List.not_mem_nil, or_false,
      exists_eq_or_imp, exists_eq_left]
    have n1 : (∀ line ∈ lines, ¬ keyElementType <+: line) ↔ st.typeFound = false := by
      rw [← Bool.not_eq_true, f1]; simp
    have n2 : (∀ line ∈ lines, ¬ keyElementDataFile <+: line) ↔
        st.rawFilenameFound = false := by
      rw [← Bool.not_eq_true, f2]; simp
    have n3 : (∀ line ∈ lines, ¬ keyDimSize <+: line) ↔ st.sizeFound = false := by
      rw [← Bool.not_eq_true, f3]; simp
    rw [n1, n2, n3]
    cases st.typeFound <;> cases st.sizeFound <;> cases st.rawFilenameFound <;> simp
  · intro sprintfF parameters data h
    simp only [readDatasetAndTransferLoad, h]
  · intro hno h hp
    rw [hr] at hp
    split_ifs at hp
    have e : h = _ := (HeaderOutcome.parsed.inj hp).symm
    rw [e]
    exact f4 hno

theorem header_format_error_iff_witness :
    readHeader "data/vol.mhd".toList ⟨0, 0, 0⟩
        ["ElementType = MET_SHORT".toList, "DimSize = 16 16 8".toList, "".toList] ≠
      .outOfRange ∧
    (readHeader "data/vol.mhd".toList ⟨0, 0, 0⟩
        ["ElementType = MET_SHORT".toList, "DimSize = 16 16 8".toList, "".toList] =
        .formatError ↔
      ∃ key ∈ [keyElementType, keyElementDataFile, keyDimSize],
        ∀ line ∈ ["ElementType = MET_SHORT".toList, "DimSize = 16 16 8".toList, "".toList],
          ¬ key <+: line) ∧
    (∀ (sprintfF : ℚ → String) (parameters : ParamList) (data : List ℚ),
      readHeader "data/vol.mhd".toList ⟨0, 0, 0⟩
        ["ElementType = MET_SHORT".toList, "DimSize = 16 16 8".toList, "".toList] =
        .formatError →
      readDatasetAndTransferLoad sprintfF parameters "data/vol.mhd".toList ⟨0, 0, 0⟩
        ["ElementType = MET_SHORT".toList, "DimSize = 16 16 8".toList, "".toList] data =
        .formatError) ∧
    ((∀ line ∈ ["ElementType = MET_SHORT".toList, "DimSize = 16 16 8".toList, "".toList],
        ¬ keyElementSpacing <+: line) →
      ∀ h, readHeader "data/vol.mhd".toList ⟨0, 0, 0⟩
        ["ElementType = MET_SHORT".toList, "DimSize = 16 16 8".toList, "".toList] =
        .parsed h → h.spacing = (1, 1, 1)) :=
  header_format_error_iff "data/vol.mhd".toList ⟨0, 0, 0⟩
    ["ElementType = MET_SHORT".toList, "DimSize = 16 16 8".toList, "".toList]
    (by
      intro line hl
      simp only [List.mem_cons, List.mem_singleton, List.not_mem_nil, or_false] at hl
      unfold LongEnough
      simp only [← take_eq_keyElementType, ← take_eq_keyElementDataFile, ← take_eq_keyDimSize,
        ← take_eq_keyElementSpacing]
      rcases hl with h | h | h <;> subst h <;> decide)

/-! ## The element type -/

theorem findChar_none_takeWhile (c : Char) : ∀ (s : List Char), findChar c s = none →
    s.takeWhile (fun x => x ≠ c) = s := by
  intro s
  induction s with
  | nil => intro _; rfl
  | cons x xs ih =>
    intro h
    by_cases hx : x = c
    · simp [findChar, hx] at h
    · have h' : findChar c xs = none := by
        simpa [findChar, hx] using h
      have e : (fun x => decide (x ≠ c)) x = true := by simp [hx]
      rw [@List.takeWhile_cons_of_pos _ (fun x => decide (x ≠ c)) x xs e, ih h']

theorem findChar_some_takeWhile (c : Char) : ∀ (s : List Char) (p : Nat),
    findChar c s = some p → s.takeWhile (fun x => x ≠ c) = s.take p := by
  intro s
  induction s with
  | nil => intro p h; simp [findChar] at h
  | cons x xs ih =>
    intro p h
    by_cases hx : x = c
    · have hp : p = 0 := by simpa [findChar, hx] using h.symm
      subst hp
      simp [List.takeWhile, hx]
    · simp only [findChar, if_neg hx] at h
      obtain ⟨q, hq, hpq⟩ := Option.map_eq_some'.mp h
      subst hpq
      have e : (fun x => decide (x ≠ c)) x = true := by simp [hx]
      rw [@List.takeWhile_cons_of_pos _ (fun x => decide (x ≠ c)) x xs e, ih q hq,
        List.take_succ_cons]

theorem findChar_zero (c : Char) (s : List Char) (h : findChar c s = some 0) :
    ∃ r, s = c :: r := by
  cases s with
  | nil => simp [findChar] at h
  | cons x xs =>
    by_cases hx : x = c
    · exact ⟨xs, by rw [hx]⟩
    · simp only [findChar, if_neg hx] at h
      obtain ⟨q, _, hpq⟩ := Option.map_eq_some'.mp h
      omega

/-- The trimming done by the code and a cut at the first space differ only for a text that
starts with a space, which the code leaves as it is. -/
theorem trimAtSpace_eq_cut_or (s : List Char) :
    trimAtSpace s = cutAtFirstSpace s ∨
      (cutAtFirstSpace s = [] ∧ trimAtSpace s = s ∧ ∃ r, s = ' ' :: r) := by
  unfold trimAtSpace cutAtFirstSpace
  cases h : findChar ' ' s with
  | none => left; simp only [findChar_none_takeWhile ' ' s h]
  | some p =>
    cases p with
    | zero =>
      right
      obtain ⟨r, hr⟩ := findChar_zero ' ' s h
      refine ⟨?_, rfl, r, hr⟩
      rw [findChar_some_takeWhile ' ' s 0 h]; rfl
    | succ q => left; simp only [findChar_some_takeWhile ' ' s (q + 1) h]

theorem selectType_spec (t : List Char) :
    (selectType t = none ↔ t ∉ supportedTypeNames) ∧
    (∀ type T, selectType t = some (type, T) → type = specTypeCode t) := by
  unfold selectType supportedTypeNames specTypeCode
  by_cases h1 : t = "MET_SHORT".toList
  · subst h1; exact ⟨by decide, fun type T h => by simp at h; rw [← h.1]; decide⟩
  · by_cases h2 : t = "MET_USHORT".toList
    · subst h2; exact ⟨by decide, fun type T h => by simp at h; rw [← h.1]; decide⟩
    · by_cases h3 : t = "MET_CHAR".toList
      · subst h3; exact ⟨by decide, fun type T h => by simp at h; rw [← h.1]; decide⟩
      · by_cases h4 : t = "MET_UCHAR".toList
        · subst h4; exact ⟨by decide, fun type T h => by simp at h; rw [← h.1]; decide⟩
        · by_cases h5 : t = "MET_FLOAT".toList
          · subst h5; exact ⟨by decide, fun type T h => by simp at h; rw [← h.1]; decide⟩
          · rw [if_neg h1, if_neg h2, if_neg h3, if_neg h4, if_neg h5]
            refine ⟨⟨fun _ hm => ?_, fun _ => rfl⟩, fun type T h => by cases h⟩
            simp only [List.mem_cons, List.mem_singleton, List.not_mem_nil, or_false] at hm
            rcases hm with h | h | h | h | h
            · exact h1 h
            · exact h2 h
            · exact h3 h
            · exact h4 h
            · exact h5 h

theorem leading_space_not_supported (r : List Char) : (' ' :: r) ∉ supportedTypeNames := by
  intro h
  have hh : ∀ n ∈ supportedTypeNames, n.head? = some 'M' := by decide
  have := hh _ h
  simp at this

/-- The dispatch rejects the trimmed name exactly when the name cut at its first space is
not supported, and a supported name gets the code the specification lists. -/
theorem selectType_trimAtSpace (s : List Char) :
    (selectType (trimAtSpace s) = none ↔ cutAtFirstSpace s ∉ supportedTypeNames) ∧
    (∀ type T, selectType (trimAtSpace s) = some (type, T) →
      type = specTypeCode (cutAtFirstSpace s)) := by
  rcases trimAtSpace_eq_cut_or s with h | ⟨hc, ht, r, hr⟩
  · rw [h]; exact selectType_spec _
  · have hn : selectType (trimAtSpace s) = none := by
      rw [ht, (selectType_spec s).1, hr]
      exact leading_space_not_supported r
    refine ⟨?_, fun type T h => by rw [hn] at h; simp at h⟩
    rw [hc]
    exact ⟨fun _ => by decide, fun _ => hn⟩

/-- When the three text options exist, the limits are produced for every element type. -/
theorem loadLimits_isSome (sprintfF : ℚ → String) (parameters : ParamList) (T : ElementType)
    (data : List ℚ)
    (hopt : ∀ k ∈ ["minimum", "maximum", "parameters"], (parameters.strings k).isSome = true) :
    ∃ q, loadLimits sprintfF parameters T data = some q := by
  obtain ⟨vmin, hmin⟩ := Option.isSome_iff_exists.mp (hopt "minimum" (by simp))
  obtain ⟨vmax, hmax⟩ := Option.isSome_iff_exists.mp (hopt "maximum" (by simp))
  obtain ⟨vpre, hpre⟩ := Option.isSome_iff_exists.mp (hopt "parameters" (by simp))
  have hne : ("maximum" = "minimum") = False := by decide
  simp only [loadLimits, getLimits, getParamStr, rebaseLimits, ParamList.setString, hmin,
    hmax, hpre, Option.map_some', hne, if_false]
  split_ifs <;> exact ⟨_, rfl⟩

/-- The loading part after a header whose three required fields were found. -/
theorem readDatasetAndTransferLoad_of_found (sprintfF : ℚ → String) (parameters : ParamList)
    (filename : List Char) (size : Int3) (lines : List (List Char)) (data : List ℚ)
    (st : HeaderState)
    (hst : headerLoop filename (HeaderState.initial size) lines = some st)
    (htype : st.typeFound = true) (hsize : st.sizeFound = true)
    (hraw : st.rawFilenameFound = true) :
    readDatasetAndTransferLoad sprintfF parameters filename size lines data =
      match selectType (trimAtSpace st.typeName) with
      | none => .unsupportedType (trimAtSpace st.typeName)
      | some (type, T) =>
        match loadLimits sprintfF parameters T data with
        | none => .parameterNotFound
        | some (minimum, maximum, parameters') =>
          .loaded ⟨⟨trimAtSpace st.typeName, st.rawFilename, st.size, st.spacing⟩, type, T,
            minimum, maximum, parameters'⟩ := by
  simp only [readDatasetAndTransferLoad, readHeader, hst, htype, hsize, hraw, Bool.not_true,
    Bool.or_self, Bool.false_eq_true, if_false]

/-- C17: for every header in which the three required fields were found, loading raises
the unsupported-type error if and only if the element type name, cut at its first space,
is not one of MET_SHORT, MET_USHORT, MET_CHAR, MET_UCHAR, MET_FLOAT; whenever loading
goes through, the type code is 1 for the signed integer types, 2 for the unsigned integer
types and 3 for float; and with a supported name and the three text options present
loading does go through. -/
theorem unsupported_type_iff (sprintfF : ℚ → String) (parameters : ParamList)
    (filename : List Char) (size : Int3) (lines : List (List Char)) (data : List ℚ)
    (st : HeaderState)
    (hst : headerLoop filename (HeaderState.initial size) lines = some st)
    (htype : st.typeFound = true) (hsize : st.sizeFound = true)
    (hraw : st.rawFilenameFound = true) :
    ((∃ n, readDatasetAndTransferLoad sprintfF parameters filename size lines data =
        .unsupportedType n) ↔ cutAtFirstSpace st.typeName ∉ supportedTypeNames) ∧
    (∀ r, readDatasetAndTransferLoad sprintfF parameters filename size lines data =
        .loaded r → r.type = specTypeCode (cutAtFirstSpace st.typeName)) ∧
    (cutAtFirstSpace st.typeName ∈ supportedTypeNames →
      (∀ k ∈ ["minimum", "maximum", "parameters"], (parameters.strings k).isSome = true) →
      ∃ r, readDatasetAndTransferLoad sprintfF parameters filename size lines data =
        .loaded r) := by
  rw [readDatasetAndTransferLoad_of_found sprintfF parameters filename size lines data st hst
    htype hsize hraw]
  obtain ⟨hs1, hs2⟩ := selectType_trimAtSpace st.typeName
  cases hsel : selectType (trimAtSpace st.typeName) with
  | none =>
    dsimp only
    refine ⟨⟨fun _ => hs1.mp hsel, fun _ => ⟨_, rfl⟩⟩, ?_, fun hm => absurd hm (hs1.mp hsel)⟩
    intro r h
    cases h
  | some p =>
    obtain ⟨type, T⟩ := p
    have hsup : cutAtFirstSpace st.typeName ∈ supportedTypeNames := by
      by_contra hn
      rw [hs1.mpr hn] at hsel
      cases hsel
    have hcode : type = specTypeCode (cutAtFirstSpace st.typeName) := hs2 type T hsel
    dsimp only
    cases hl : loadLimits sprintfF parameters T data with
    | none =>
      dsimp only
      refine ⟨⟨fun h => ?_, fun h => absurd hsup h⟩, ?_, fun _ hopt => ?_⟩
      · obtain ⟨n, hn⟩ := h
        cases hn
      · intro r h
        cases h
      · obtain ⟨q, hq⟩ := loadLimits_isSome sprintfF parameters T data hopt
        rw [hl] at hq
        cases hq
    | some q =>
      obtain ⟨minimum, maximum, parameters'⟩ := q
      dsimp only
      refine ⟨⟨fun h => ?_, fun h => absurd hsup h⟩, ?_, fun _ _ => ⟨_, rfl⟩⟩
      · obtain ⟨n, hn⟩ := h
        cases hn
      · intro r h
        have e := LoadOutcome.loaded.inj h
        rw [← e]
        exact hcode

theorem unsupported_type_iff_witness :
    (¬ ∃ n, readDatasetAndTransferLoad (fun _ => "") (limitOptions "off" "off" "Default")
        "data/vol.mhd".toList ⟨0, 0, 0⟩
        ["ElementType = MET_USHORT ".toList, "ElementDataFile = vol.raw".toList,
          "DimSize = 8 8 8".toList] (List.replicate 512 7) = .unsupportedType n) ∧
    ∃ r, readDatasetAndTransferLoad (fun _ => "") (limitOptions "off" "off" "Default")
        "data/vol.mhd".toList ⟨0, 0, 0⟩
        ["ElementType = MET_USHORT ".toList, "ElementDataFile = vol.raw".toList,
          "DimSize = 8 8 8".toList] (List.replicate 512 7) = .loaded r ∧ r.type = 2 := by
  have h := unsupported_type_iff (fun _ => "") (limitOptions "off" "off" "Default")
    "data/vol.mhd".toList ⟨0, 0, 0⟩
    ["ElementType = MET_USHORT ".toList, "ElementDataFile = vol.raw".toList,
      "DimSize = 8 8 8".toList] (List.replicate 512 7)
    { typeName := "MET_USHORT ".toList, rawFilename := "data/vol.raw".toList,
      typeFound := true, sizeFound := true, rawFilenameFound := true, size := ⟨8, 8, 8⟩,
      spacing := (1, 1, 1) } (by decide) rfl rfl rfl
  have hsup : cutAtFirstSpace "MET_USHORT ".toList ∈ supportedTypeNames := by decide
  obtain ⟨r, hr⟩ := h.2.2 hsup (by decide)
  exact ⟨fun hn => (h.1.mp hn) hsup, r, hr, (h.2.1 r hr).trans (by decide)⟩

/-! ## The separator between key and value -/

theorem limitOptions_present (minimum maximum preset : String) :
    ∀ k ∈ ["minimum", "maximum", "parameters"],
      ((limitOptions minimum maximum preset).strings k).isSome = true := by
  intro k hk
  simp only [List.mem_cons, List.mem_singleton, List.not_mem_nil, or_false] at hk
  rcases hk with h | h | h <;> subst h <;> simp [limitOptions]

/-- C18 (as stated, refuted): the header made of the lines `ElementType MET_FLOAT`,
`ElementDataFile vol.raw` and `DimSize 8 8 8`, with a single space after each key, is
rejected: the value is taken from position `key.size() + 3`, so the type name read is
`T_FLOAT` and the raw file name `l.raw`, and loading raises the unsupported-type error. -/
theorem single_space_header_is_rejected :
    readHeader "data/vol.mhd".toList ⟨0, 0, 0⟩
        ["ElementType MET_FLOAT".toList, "ElementDataFile vol.raw".toList,
          "DimSize 8 8 8".toList] =
      .parsed ⟨"T_FLOAT".toList, "data/l.raw".toList, ⟨8, 8, 8⟩, (1, 1, 1)⟩ ∧
    readDatasetAndTransferLoad (fun _ => "") (limitOptions "off" "off" "Default")
        "data/vol.mhd".toList ⟨0, 0, 0⟩
        ["ElementType MET_FLOAT".toList, "ElementDataFile vol.raw".toList,
          "DimSize 8 8 8".toList] (List.replicate 512 0) =
      .unsupportedType "T_FLOAT".toList := by
  have h1 : readHeader "data/vol.mhd".toList ⟨0, 0, 0⟩
      ["ElementType MET_FLOAT".toList, "ElementDataFile vol.raw".toList,
        "DimSize 8 8 8".toList] =
      .parsed ⟨"T_FLOAT".toList, "data/l.raw".toList, ⟨8, 8, 8⟩, (1, 1, 1)⟩ := by decide
  have h2 : selectType "T_FLOAT".toList = none := by decide
  refine ⟨h1, ?_⟩
  simp only [readDatasetAndTransferLoad, h1, h2]

/-- C18 (amended): a header whose lines separate key and value by three characters, as in
`ElementType = MET_FLOAT`, `ElementDataFile = vol.raw` and `DimSize = 8 8 8`, is parsed to
element type MET_FLOAT, raw file name `vol.raw` prefixed by the directory of the header,
and dims (8,8,8); it is not rejected, and the type code is 3. -/
theorem three_character_separator_header_is_parsed (sprintfF : ℚ → String)
    (minimum maximum preset : String) (data : List ℚ) :
    ∃ r, readDatasetAndTransferLoad sprintfF (limitOptions minimum maximum preset)
        "data/vol.mhd".toList ⟨0, 0, 0⟩
        ["ElementType = MET_FLOAT".toList, "ElementDataFile = vol.raw".toList,
          "DimSize = 8 8 8".toList] data = .loaded r ∧
      r.header.typeName = "MET_FLOAT".toList ∧ r.elementType = .float ∧
      r.header.rawFilename = "data/vol.raw".toList ∧ r.header.size = ⟨8, 8, 8⟩ ∧
      r.type = 3 := by
  have h1 : readHeader "data/vol.mhd".toList ⟨0, 0, 0⟩
      ["ElementType = MET_FLOAT".toList, "ElementDataFile = vol.raw".toList,
        "DimSize = 8 8 8".toList] =
      .parsed ⟨"MET_FLOAT".toList, "data/vol.raw".toList, ⟨8, 8, 8⟩, (1, 1, 1)⟩ := by decide
  have h2 : selectType "MET_FLOAT".toList = some (3, .float) := by decide
  obtain ⟨q, hq⟩ := loadLimits_isSome sprintfF (limitOptions minimum maximum preset) .float
    data (limitOptions_present minimum maximum preset)
  obtain ⟨lo, hi, parameters'⟩ := q
  refine ⟨⟨⟨"MET_FLOAT".toList, "data/vol.raw".toList, ⟨8, 8, 8⟩, (1, 1, 1)⟩, 3, .float, lo,
    hi, parameters'⟩, ?_, rfl, rfl, rfl, rfl, rfl⟩
  simp only [readDatasetAndTransferLoad, h1, h2, hq]

/-! ## Intensity limits found by scanning -/

theorem foldl_max_of_lt (init : ℚ) : ∀ (data : List ℚ), (∀ v ∈ data, v < init) →
    data.foldl (fun maximum v => max maximum v) init = init := by
  intro data
  induction data with
  | nil => intro _; rfl
  | cons x xs ih =>
    intro h
    have hx : x < init := h x (List.mem_cons_self _ _)
    rw [List.foldl_cons, max_eq_left (le_of_lt hx)]
    exact ih fun v hv => h v (List.mem_cons_of_mem _ hv)

/-- For a `float` buffer without a positive sample, the scan for the maximum returns its
starting value `2 ^ -126`, which is larger than every sample. -/
theorem getMaximum_float_of_nonpositive (data : List ℚ) (h : ∀ v ∈ data, v ≤ 0) :
    getMaximum .float data = 1 / 2 ^ 126 ∧ ∀ v ∈ data, v < getMaximum .float data := by
  have hpos : (0 : ℚ) < 1 / 2 ^ 126 := by positivity
  have e : getMaximum .float data = 1 / 2 ^ 126 :=
    foldl_max_of_lt _ data fun v hv => lt_of_le_of_lt (h v hv) hpos
  exact ⟨e, fun v hv => by rw [e]; exact lt_of_le_of_lt (h v hv) hpos⟩

/-- C19 (code defect): for the `float` buffer holding -3 and -1, with the options minimum
and maximum both 'off', `getLimits<float>` returns the minimum -3 but the maximum
`2 ^ -126` instead of -1: the scan for the maximum starts from
`std::numeric_limits<float>::min()`, the smallest positive normal value. -/
theorem float_maximum_of_negative_buffer_is_not_an_element :
    getLimits .float (limitOptions "off" "off" "Default") [-3, -1] =
      some (-3, 1 / 2 ^ 126) ∧
    (1 / 2 ^ 126 : ℚ) ∉ [(-3 : ℚ), -1] ∧ (-1 : ℚ) < 1 / 2 ^ 126 := by
  refine ⟨?_, by norm_num, by norm_num⟩
  simp only [getLimits, getParamStr, limitOptions, getMinimum, getMaximum, numericLimitsMin,
    numericLimitsMax, List.foldl_cons, List.foldl_nil]
  norm_num

/-! ## The rebase of the limits for unsigned 16-bit data -/

/-- For every element type other than `MET_USHORT`, and for every preset other than the
two named ones, the limits are those of `getLimits` and the parameter store is unchanged. -/
theorem loadLimits_unchanged (sprintfF : ℚ → String) (parameters : ParamList)
    (T : ElementType) (data : List ℚ) (preset : String)
    (hpre : getParamStr parameters "parameters" = some preset)
    (h : T ≠ .ushort ∨ (preset ≠ "Lung-Airways-CT" ∧ preset ≠ "AAA-Vessels-CT"))
    (lo hi : ℚ) (hl : getLimits T parameters data = some (lo, hi)) :
    loadLimits sprintfF parameters T data = some (lo, hi, parameters) := by
  simp only [loadLimits, hl, hpre]
  rcases h with h | ⟨h1, h2⟩
  · rw [if_neg h]
  · split_ifs with a b
    · rcases b with b | b
      · exact absurd b h1
      · exact absurd b h2
    · rfl
    · rfl

/-- For `MET_USHORT` data with one of the two named presets, the limits are the numbers
read by `atof` from the two option texts, each increased by 1024, whatever `getLimits`
found; the option texts are replaced by the printed increased values. -/
theorem loadLimits_rebased (sprintfF : ℚ → String) (minimum maximum preset : String)
    (data : List ℚ) (hpre : preset = "Lung-Airways-CT" ∨ preset = "AAA-Vessels-CT") :
    ∃ parameters', loadLimits sprintfF (limitOptions minimum maximum preset) .ushort data =
        some (rebased minimum, rebased maximum, parameters') ∧
      getParamStr parameters' "minimum" = some (sprintfF (rebased minimum)) ∧
      getParamStr parameters' "maximum" = some (sprintfF (rebased maximum)) := by
  have hne : ("maximum" = "minimum") = False := by decide
  have hne2 : ("parameters" = "minimum") = False := by decide
  have hne3 : ("parameters" = "maximum") = False := by decide
  refine ⟨((limitOptions minimum maximum preset).setString "minimum"
      (StringParameter.set ⟨minimum, []⟩ (sprintfF (rebased minimum)))).setString
      "maximum" (StringParameter.set ⟨maximum, []⟩ (sprintfF (rebased maximum))),
    ?_, ?_, ?_⟩
  · simp only [loadLimits, getLimits, getParamStr, rebaseLimits, ParamList.setString,
      limitOptions, Option.map_some', hne, hne2, hne3, if_false, if_true, hpre]
  · simp [getParamStr, ParamList.setString, StringParameter.set, StringParameter.validate]
  · simp [getParamStr, ParamList.setString, StringParameter.set, StringParameter.validate]

/-- C20 (code defect): for `MET_USHORT` data holding 100 and 200, preset
`Lung-Airways-CT` and the options minimum and maximum both 'off', `getLimits` resolves the
range (100, 200), but the range used afterwards is (1024, 1024) instead of (1124, 1224),
and the options hold the printed value of 1024: the rebase reads the option texts again
with `atof`, which gives 0 for 'off', and drops the scanned extremes. -/
theorem rebase_drops_scanned_limits (sprintfF : ℚ → String) :
    getLimits .ushort (limitOptions "off" "off" "Lung-Airways-CT") [100, 200] =
      some (100, 200) ∧
    ∃ parameters', loadLimits sprintfF (limitOptions "off" "off" "Lung-Airways-CT") .ushort
        [100, 200] = some (1024, 1024, parameters') ∧
      getParamStr parameters' "minimum" = some (sprintfF 1024) ∧
      getParamStr parameters' "maximum" = some (sprintfF 1024) := by
  refine ⟨?_, ?_⟩
  · simp only [getLimits, getParamStr, limitOptions, getMinimum, getMaximum,
      numericLimitsMin, numericLimitsMax, List.foldl_cons, List.foldl_nil]
    norm_num
  · obtain ⟨parameters', h1, h2, h3⟩ :=
      loadLimits_rebased sprintfF "off" "off" "Lung-Airways-CT" [100, 200] (Or.inl rfl)
    have e : rebased "off" = 1024 := by decide!
    rw [e] at h1 h2 h3
    exact ⟨parameters', h1, h2, h3⟩

/-! ## The two bounds of `getLimits` -/

/-- Options written with an exponent are read as `strtod` reads them, and the result is
stored in a `float`. -/
theorem getLimits_reads_exponents :
    getLimits .short (limitOptions "1e3" "16777217" "Default") [1, 7, 3] =
      some (1000, 16777216) ∧
    getLimits .short (limitOptions "-5e-1" "2.5E+2" "Default") [1, 7, 3] =
      some (-1 / 2, 250) := by
  refine ⟨by decide!, by decide!⟩

/-- C21 (as stated, refuted): with the option minimum set to 16777217 the returned
minimum is 16777216, and with the option set to 0.1 it is 13421773 / 2 ^ 27, because the
number read by `atof` is stored in a `float`: the returned bound is not the numeric value
of the option. (The bound does not depend on the buffer, and the maximum, whose option is
'off', is the largest sample 7.) -/
theorem explicit_limit_is_rounded_to_float :
    atof "16777217".toList = 16777217 ∧
    getLimits .short (limitOptions "16777217" "off" "Default") [1, 7, 3] =
      some (16777216, 7) ∧
    getLimits .short (limitOptions "0.1" "off" "Default") [1, 7, 3] =
      some (13421773 / 2 ^ 27, 7) ∧
    (13421773 / 2 ^ 27 : ℚ) ≠ 1 / 10 := by
  refine ⟨by decide!, by decide!, by decide!, by norm_num⟩

/-- C21 (amended): `getLimits` resolves each bound on its own. For every element type,
buffer and parameter store that holds the options minimum and maximum, each either 'off'
or a decimal number text whose value lies in the finite range of `float`, it returns a
pair; the minimum is the number that `atof` reads from the option, rounded to `float`,
when the option is not 'off', whatever the buffer holds, and the result of the scan
`getMinimum<T>` when it is 'off', whatever the option maximum is; likewise for the
maximum. -/
theorem getLimits_resolves_bounds_independently (T : ElementType) (parameters : ParamList)
    (data : List ℚ) (smin smax : String)
    (hmin : getParamStr parameters "minimum" = some smin)
    (hmax : getParamStr parameters "maximum" = some smax)
    (hsmin : smin ≠ "off" → ReadsAsFiniteFloat smin)
    (hsmax : smax ≠ "off" → ReadsAsFiniteFloat smax) :
    ∃ lo hi, getLimits T parameters data = some (lo, hi) ∧
      (smin ≠ "off" → lo = toFloat (atof smin.toList) ∧ isFiniteFloat lo = true) ∧
      (smin = "off" → lo = getMinimum T data) ∧
      (smax ≠ "off" → hi = toFloat (atof smax.toList) ∧ isFiniteFloat hi = true) ∧
      (smax = "off" → hi = getMaximum T data) := by
  refine ⟨if smin ≠ "off" then toFloat (atof smin.toList) else getMinimum T data,
    if smax ≠ "off" then toFloat (atof smax.toList) else getMaximum T data,
    by simp only [getLimits, hmin, hmax], ?_, ?_, ?_, ?_⟩
  · intro h; rw [if_pos h]; exact ⟨rfl, (hsmin h).2⟩
  · intro h; rw [if_neg (not_not.mpr h)]
  · intro h; rw [if_pos h]; exact ⟨rfl, (hsmax h).2⟩
  · intro h; rw [if_neg (not_not.mpr h)]

theorem getLimits_resolves_bounds_independently_witness :
    ∃ lo hi, getLimits .short (limitOptions "-5e-1" "off" "Default") [1, 7, 3] =
        some (lo, hi) ∧
      ("-5e-1" ≠ "off" → lo = toFloat (atof "-5e-1".toList) ∧ isFiniteFloat lo = true) ∧
      ("-5e-1" = "off" → lo = getMinimum .short [1, 7, 3]) ∧
      ("off" ≠ "off" → hi = toFloat (atof "off".toList) ∧ isFiniteFloat hi = true) ∧
      ("off" = "off" → hi = getMaximum .short [1, 7, 3]) :=
  getLimits_resolves_bounds_independently .short (limitOptions "-5e-1" "off" "Default")
    [1, 7, 3] "-5e-1" "off" (by decide) (by decide)
    (fun _ => ⟨by decide, by decide!⟩) (fun h => absurd rfl h)

/-! ## The growth loop, pass by pass -/

/-- The passes of the growth loop: each changes at most one bound, by one voxel; no state
leaves `[0, n]` or the side of the discovered box; the last state is the one the loop
exits with. -/
theorem growAxisTrace_spec (n : Int) : ∀ (fuel : Nat) (x1 x2 : Int) (lower : Bool),
    0 ≤ x1 → x2 ≤ n →
    List.Chain SingleVoxelStep (x1, x2, lower) (growAxisTrace n fuel x1 x2 lower) ∧
    (∀ s ∈ growAxisTrace n fuel x1 x2 lower,
      0 ≤ s.1 ∧ s.1 ≤ x1 ∧ x2 ≤ s.2.1 ∧ s.2.1 ≤ n) ∧
    (∀ r, growAxis n fuel x1 x2 lower = some r →
      (growAxisTrace n fuel x1 x2 lower).getLastD (x1, x2, lower) = r) := by
  intro fuel
  induction fuel with
  | zero =>
    intro x1 x2 lower _ _
    refine ⟨List.Chain.nil, fun s hs => by simp [growAxisTrace] at hs, fun r hr => ?_⟩
    by_cases hc : (x2 - x1).tmod 4 ≠ 0 ∧ x2 - x1 < n
    · simp only [growAxis, if_pos hc] at hr
      cases hr
    · simp only [growAxis, if_neg hc] at hr
      simpa [growAxisTrace] using Option.some.inj hr
  | succ k ih =>
    intro x1 x2 lower h0 h2
    by_cases hc : (x2 - x1).tmod 4 ≠ 0 ∧ x2 - x1 < n
    · by_cases hA : lower = true ∧ x1 > 0
      · obtain ⟨c, m, l⟩ := ih (x1 - 1) x2 (!lower) (by omega) h2
        simp only [growAxisTrace, growAxis, if_pos hc, if_pos hA]
        refine ⟨List.Chain.cons (Or.inl ⟨rfl, rfl⟩) c, fun s hs => ?_, fun r hr => ?_⟩
        · rcases List.mem_cons.mp hs with hs | hs
          · subst hs
            exact ⟨by show 0 ≤ x1 - 1; omega, by show x1 - 1 ≤ x1; omega, le_refl _, h2⟩
          · obtain ⟨m1, m2, m3, m4⟩ := m s hs
            exact ⟨m1, by omega, m3, m4⟩
        · rw [List.getLastD_cons]
          exact l r hr
      · by_cases hB : x2 < n
        · obtain ⟨c, m, l⟩ := ih x1 (x2 + 1) (!lower) h0 (by omega)
          simp only [growAxisTrace, growAxis, if_pos hc, if_neg hA, if_pos hB]
          refine ⟨List.Chain.cons (Or.inr (Or.inl ⟨rfl, rfl⟩)) c, fun s hs => ?_,
            fun r hr => ?_⟩
          · rcases List.mem_cons.mp hs with hs | hs
            · subst hs
              exact ⟨h0, le_refl _, by show x2 ≤ x2 + 1; omega, by show x2 + 1 ≤ n; omega⟩
            · obtain ⟨m1, m2, m3, m4⟩ := m s hs
              exact ⟨m1, m2, by omega, m4⟩
          · rw [List.getLastD_cons]
            exact l r hr
        · obtain ⟨c, m, l⟩ := ih x1 x2 (!lower) h0 h2
          simp only [growAxisTrace, growAxis, if_pos hc, if_neg hA, if_neg hB]
          refine ⟨List.Chain.cons (Or.inr (Or.inr ⟨rfl, rfl⟩)) c, fun s hs => ?_,
            fun r hr => ?_⟩
          · rcases List.mem_cons.mp hs with hs | hs
            · subst hs
              exact ⟨h0, le_refl _, le_refl _, h2⟩
            · exact m s hs
          · rw [List.getLastD_cons]
            exact l r hr
    · simp only [growAxisTrace, growAxis, if_neg hc]
      refine ⟨List.Chain.nil, fun s hs => by simp at hs, fun r hr => ?_⟩
      simpa using Option.some.inj hr

/-- A result of the growth loop does not depend on fuel that was not needed. -/
theorem growAxis_succ_fuel (n : Int) : ∀ (fuel : Nat) (x1 x2 : Int) (lower : Bool)
    (r : Int × Int × Bool), growAxis n fuel x1 x2 lower = some r →
    growAxis n (fuel + 1) x1 x2 lower = some r := by
  intro fuel
  induction fuel with
  | zero =>
    intro x1 x2 lower r h
    by_cases hc : (x2 - x1).tmod 4 ≠ 0 ∧ x2 - x1 < n
    · simp only [growAxis, if_pos hc] at h
      cases h
    · simp only [growAxis, if_neg hc] at h ⊢
      exact h
  | succ k ih =>
    intro x1 x2 lower r h
    by_cases hc : (x2 - x1).tmod 4 ≠ 0 ∧ x2 - x1 < n
    · by_cases hA : lower = true ∧ x1 > 0
      · rw [growAxis, if_pos hc, if_pos hA] at h ⊢
        exact ih _ _ _ r h
      · by_cases hB : x2 < n
        · rw [growAxis, if_pos hc, if_neg hA, if_pos hB] at h ⊢
          exact ih _ _ _ r h
        · rw [growAxis, if_pos hc, if_neg hA, if_neg hB] at h ⊢
          exact ih _ _ _ r h
    · rw [growAxis, if_neg hc] at h ⊢
      exact h

theorem growAxis_more_fuel (n : Int) (x1 x2 : Int) (lower : Bool) (r : Int × Int × Bool)
    (f : Nat) (h : growAxis n f x1 x2 lower = some r) :
    ∀ fuel, f ≤ fuel → growAxis n fuel x1 x2 lower = some r := by
  intro fuel hf
  induction fuel, hf using Nat.le_induction with
  | base => exact h
  | succ m _ ih => exact growAxis_succ_fuel n m x1 x2 lower r ih

/-- C22: in the alignment of one axis of extent `n`, for every box with
`0 ≤ x1 ≤ x2 ≤ n` (and either value of `lower`): each pass of the growth loop changes at
most one bound, by exactly one voxel, lowering `x1` or raising `x2`; every state reached
has `0 ≤ x1` and `x2 ≤ n` and contains the discovered box; the loop exits with the last
of these states; and after the shrink fallback the extracted range `[x1, x1 + SIZE)` lies
inside `[0, n)`. -/
theorem growth_stays_inside_axis (n x1 x2 : Int) (lower : Bool)
    (h0 : 0 ≤ x1) (h12 : x1 ≤ x2) (h2 : x2 ≤ n) :
    List.Chain SingleVoxelStep (x1, x2, lower) (growAxisTrace n 8 x1 x2 lower) ∧
    (∀ s ∈ growAxisTrace n 8 x1 x2 lower, 0 ≤ s.1 ∧ s.1 ≤ x1 ∧ x2 ≤ s.2.1 ∧ s.2.1 ≤ n) ∧
    ∃ a b size l, alignAxis n x1 x2 lower = some (a, b, size, l) ∧
      (growAxisTrace n 8 x1 x2 lower).getLastD (x1, x2, lower) = (a, b, l) ∧
      0 ≤ a ∧ a ≤ x1 ∧ x2 ≤ b ∧ b ≤ n ∧ 0 ≤ size ∧ a + size ≤ n := by
  obtain ⟨c, m, l⟩ := growAxisTrace_spec n 8 x1 x2 lower h0 h2
  obtain ⟨a, b, s, fl, he, e1, e2, e3, _, e5, e6, _, _⟩ := alignAxis_spec n x1 x2 lower
  refine ⟨c, m, a, b, s, fl, he, ?_, e5 h0, e1, e2, e6 h2, ?_, ?_⟩
  · apply l
    unfold alignAxis at he
    cases hg : growAxis n 8 x1 x2 lower with
    | none => rw [hg] at he; cases he
    | some r =>
      obtain ⟨ra, rb, rl⟩ := r
      rw [hg] at he
      simp only [shrinkToMultipleOf4_four] at he
      have := Option.some.inj he
      simp only [Prod.mk.injEq] at this
      obtain ⟨q1, q2, _, q4⟩ := this
      rw [q1, q2, q4]
  · have := Int.emod_nonneg (b - a) (by norm_num : (4 : Int) ≠ 0)
    have := Int.emod_lt_of_pos (b - a) (by norm_num : (0 : Int) < 4)
    omega
  · have := Int.emod_nonneg (b - a) (by norm_num : (4 : Int) ≠ 0)
    have := e6 h2
    omega

theorem growth_stays_inside_axis_witness :
    List.Chain SingleVoxelStep (5, 10, false) (growAxisTrace 10 8 5 10 false) ∧
    (∀ s ∈ growAxisTrace 10 8 5 10 false, 0 ≤ s.1 ∧ s.1 ≤ 5 ∧ 10 ≤ s.2.1 ∧ s.2.1 ≤ 10) ∧
    ∃ a b size l, alignAxis 10 5 10 false = some (a, b, size, l) ∧
      (growAxisTrace 10 8 5 10 false).getLastD (5, 10, false) = (a, b, l) ∧
      0 ≤ a ∧ a ≤ 5 ∧ 10 ≤ b ∧ b ≤ 10 ∧ 0 ≤ size ∧ a + size ≤ 10 :=
  growth_stays_inside_axis 10 5 10 false (by decide) (by decide) (by decide)

/-- C26: the alignment loops of one axis stop for every input. For every extent `n` and
box with `0 ≤ x1` and `x2 ≤ n` (in particular for `0 ≤ x1 ≤ x2 ≤ n`), and either value of
the shared flag `lower`, the growth loop
exits within 7 passes (more fuel gives the same result) with a width that is a multiple
of 4 or equal to `n`, and the shrink loop then exits within 3 passes with a multiple of
4. -/
theorem alignment_loops_terminate (n x1 x2 : Int) (lower : Bool)
    (h0 : 0 ≤ x1) (h2 : x2 ≤ n) :
    ∃ a b l, (∀ fuel, 7 ≤ fuel → growAxis n fuel x1 x2 lower = some (a, b, l)) ∧
      ((b - a) % 4 = 0 ∨ b - a = n) ∧
      ∃ s, (∀ fuel, 3 ≤ fuel → shrinkToMultipleOf4 fuel (b - a) = some s) ∧ s % 4 = 0 ∧
        alignAxis n x1 x2 lower = some (a, b, s, l) := by
  have hfuel : 2 * ((x1 - x2) % 4) +
      (if (lower = true ∧ x1 > 0) ∨ x2 < n then 0 else 1) ≤ ((7 : Nat) : Int) := by
    split_ifs <;> omega
  obtain ⟨a, b, l, he, _, _, h3, h4, h5, _, _⟩ := growAxis_spec n 7 x1 x2 lower hfuel
  have hall := growAxis_more_fuel n x1 x2 lower (a, b, l) 7 he
  refine ⟨a, b, l, hall, ?_, (b - a) - (b - a) % 4, ?_, ?_, ?_⟩
  · rcases h3 with h3 | h3
    · exact Or.inl h3
    · right
      have := h4 h0
      have := h5 h2
      omega
  · intro fuel hf
    apply shrinkToMultipleOf4_of_fuel
    have := Int.emod_lt_of_pos (b - a) (by norm_num : (0 : Int) < 4)
    omega
  · omega
  · simp only [alignAxis, hall 8 (by norm_num), shrinkToMultipleOf4_four]

theorem alignment_loops_terminate_witness :
    ∃ a b l, (∀ fuel, 7 ≤ fuel → growAxis 10 fuel 5 10 true = some (a, b, l)) ∧
      ((b - a) % 4 = 0 ∨ b - a = 10) ∧
      ∃ s, (∀ fuel, 3 ≤ fuel → shrinkToMultipleOf4 fuel (b - a) = some s) ∧ s % 4 = 0 ∧
        alignAxis 10 5 10 true = some (a, b, s, l) :=
  alignment_loops_terminate 10 5 10 true (by decide) (by decide)

/-! ## What the x and y scans find -/

theorem scanDown_none (inside : Int → Bool) (scan : List Int) :
    ∀ (start : Nat), scanDown inside scan start = none →
      ∀ j, 1 ≤ j → j ≤ start → inside (scan.getD j 0) = false := by
  intro start
  induction start with
  | zero => intro _ j h1 h2; omega
  | succ k ih =>
    intro h j h1 h2
    by_cases hin : inside (scan.getD (k + 1) 0) = true
    · rw [scanDown, if_pos hin] at h
      cases h
    · rw [scanDown, if_neg hin] at h
      by_cases hj : j = k + 1
      · rw [hj]; simpa using hin
      · exact ih h j h1 (by omega)

theorem scanDown_greatest (inside : Int → Bool) (scan : List Int) :
    ∀ (start i : Nat), scanDown inside scan start = some i →
      ∀ j, i < j → j ≤ start → inside (scan.getD j 0) = false := by
  intro start
  induction start with
  | zero => intro i h; simp [scanDown] at h
  | succ k ih =>
    intro i h j h1 h2
    by_cases hin : inside (scan.getD (k + 1) 0) = true
    · rw [scanDown, if_pos hin] at h
      have hi : k + 1 = i := Option.some.inj h
      omega
    · rw [scanDown, if_neg hin] at h
      by_cases hj : j = k + 1
      · rw [hj]; simpa using hin
      · exact ih i h j h1 (by omega)

/-- The pair of scans of one axis: the forward scan finds the smallest inside index; the
backward scan, which stops before index 0, finds the largest inside index when that index
is not 0 and leaves the extent otherwise. -/
theorem scan_pair_spec (scan : List Int) (m n : Int)
    (hsome : ∃ j : Nat, (j : Int) < n ∧ m < scan.getD j 0) :
    AxisScanned scan m n
      (((scanUp (fun v => decide (v > m)) scan n.toNat n.toNat).map Int.ofNat).getD 0)
      (((scanDown (fun v => decide (v > m)) scan (n - 1).toNat).map Int.ofNat).getD n) := by
  obtain ⟨j0, hj0, hin0⟩ := hsome
  have hn : 0 < n := by omega
  refine ⟨?_, ?_, ?_⟩
  · obtain ⟨i, hi, hij⟩ := scanUp_finds (fun v => decide (v > m)) scan n.toNat n.toNat j0
      (le_refl _) (by omega) (by omega) (by simpa using hin0)
    obtain ⟨_, h2, h3⟩ := scanUp_some (fun v => decide (v > m)) scan n.toNat n.toNat i
      (le_refl _) hi
    refine ⟨i, by rw [hi]; rfl, by omega, by simpa using h3, fun j hj hjin => ?_⟩
    obtain ⟨i', hi', hij'⟩ := scanUp_finds (fun v => decide (v > m)) scan n.toNat n.toNat j
      (le_refl _) (by omega) (by omega) (by simpa using hjin)
    rw [hi] at hi'
    have := Option.some.inj hi'
    omega
  · rintro ⟨j, hj1, hjn, hjin⟩
    cases hd : scanDown (fun v => decide (v > m)) scan (n - 1).toNat with
    | none =>
      have := scanDown_none (fun v => decide (v > m)) scan (n - 1).toNat hd j hj1 (by omega)
      have t : ¬ scan.getD j 0 > m := of_decide_eq_false this
      omega
    | some h =>
      obtain ⟨h1, h2, h3⟩ := scanDown_some (fun v => decide (v > m)) scan (n - 1).toNat h hd
      refine ⟨h, rfl, h1, by omega, by simpa using h3, fun j' hj' hjn' hjin' => ?_⟩
      have := scanDown_greatest (fun v => decide (v > m)) scan (n - 1).toNat h hd j' hj'
        (by omega)
      have t : ¬ scan.getD j' 0 > m := of_decide_eq_false this
      omega
  · intro hnone
    cases hd : scanDown (fun v => decide (v > m)) scan (n - 1).toNat with
    | none => rfl
    | some h =>
      obtain ⟨h1, h2, h3⟩ := scanDown_some (fun v => decide (v > m)) scan (n - 1).toNat h hd
      exact absurd (by simpa using h3) (hnone h h1 (by omega))

/-- The x and y coordinates of the discovered box are the results of the four scans. -/
theorem discoverBox_xy (size : Int3) (scans : ScanLines) (m : Int) (startZ : String) :
    (discoverBox size scans m startZ).x1 =
      ((scanUp (fun v => decide (v > m)) scans.x size.x.toNat size.x.toNat).map
        Int.ofNat).getD 0 ∧
    (discoverBox size scans m startZ).x2 =
      ((scanDown (fun v => decide (v > m)) scans.x (size.x - 1).toNat).map
        Int.ofNat).getD size.x ∧
    (discoverBox size scans m startZ).y1 =
      ((scanUp (fun v => decide (v > m)) scans.y size.y.toNat size.y.toNat).map
        Int.ofNat).getD 0 ∧
    (discoverBox size scans m startZ).y2 =
      ((scanDown (fun v => decide (v > m)) scans.y (size.y - 1).toNat).map
        Int.ofNat).getD size.y := by
  unfold discoverBox
  split_ifs <;> exact ⟨rfl, rfl, rfl, rfl⟩

/-- C23 (as stated, refuted): on an axis of extent 4 whose only inside slice is slice 0
(counts 5, 0, 0, 0 with threshold 0), the discovered lower bound is 0 but the discovered
upper bound is 4, not the largest inside index 0: the backward scan runs while
`sliceNr > 0` and never looks at slice 0, so the bound keeps its initial value. -/
theorem backward_scan_skips_slice_zero :
    (discoverBox ⟨4, 4, 4⟩ ⟨[5, 0, 0, 0], [5, 0, 0, 0], [5, 5, 5, 5]⟩ 0 "middle").x1 = 0 ∧
    (discoverBox ⟨4, 4, 4⟩ ⟨[5, 0, 0, 0], [5, 0, 0, 0], [5, 5, 5, 5]⟩ 0 "middle").x2 = 4 ∧
    (discoverBox ⟨4, 4, 4⟩ ⟨[5, 0, 0, 0], [5, 0, 0, 0], [5, 5, 5, 5]⟩ 0 "middle").y2 = 4 ∧
    (∀ j : Nat, j < 4 → ((0 : Int) < [(5 : Int), 0, 0, 0].getD j 0 ↔ j = 0)) := by
  decide

/-- C23 (amended): for the x and y axes of the bounding-box policy, for every occupancy
array with at least one inside slice (count above `minScanLines`), the discovered lower
bound is the smallest inside slice index; the discovered upper bound is the largest
inside slice index when some slice other than slice 0 is inside, and the extent of the
axis when slice 0 is the only inside slice. -/
theorem xy_scan_bounds (size : Int3) (scans : ScanLines) (m : Int) (startZ : String)
    (hx : ∃ j : Nat, (j : Int) < size.x ∧ m < scans.x.getD j 0)
    (hy : ∃ j : Nat, (j : Int) < size.y ∧ m < scans.y.getD j 0) :
    AxisScanned scans.x m size.x (discoverBox size scans m startZ).x1
      (discoverBox size scans m startZ).x2 ∧
    AxisScanned scans.y m size.y (discoverBox size scans m startZ).y1
      (discoverBox size scans m startZ).y2 := by
  obtain ⟨e1, e2, e3, e4⟩ := discoverBox_xy size scans m startZ
  rw [e1, e2, e3, e4]
  exact ⟨scan_pair_spec scans.x m size.x hx, scan_pair_spec scans.y m size.y hy⟩

theorem xy_scan_bounds_witness :
    AxisScanned [0, 3, 0, 3, 0] 1 5
      (discoverBox ⟨5, 4, 4⟩ ⟨[0, 3, 0, 3, 0], [5, 0, 0, 0], [5, 5, 5, 5]⟩ 1 "middle").x1
      (discoverBox ⟨5, 4, 4⟩ ⟨[0, 3, 0, 3, 0], [5, 0, 0, 0], [5, 5, 5, 5]⟩ 1 "middle").x2 ∧
    AxisScanned [5, 0, 0, 0] 1 4
      (discoverBox ⟨5, 4, 4⟩ ⟨[0, 3, 0, 3, 0], [5, 0, 0, 0], [5, 5, 5, 5]⟩ 1 "middle").y1
      (discoverBox ⟨5, 4, 4⟩ ⟨[0, 3, 0, 3, 0], [5, 0, 0, 0], [5, 5, 5, 5]⟩ 1 "middle").y2 :=
  xy_scan_bounds ⟨5, 4, 4⟩ ⟨[0, 3, 0, 3, 0], [5, 0, 0, 0], [5, 5, 5, 5]⟩ 1 "middle"
    ⟨1, by decide, by decide⟩ ⟨0, by decide, by decide⟩

/-! ## The choice of the gradient-vector-flow variant -/

/-- The flag `useSlowGVF` for a capacity below `2 ^ 32` and a voxel count in the `int`
range. -/
theorem useSlowGVF_iff (p : FilterParams) (cap : Nat) (x y z : Nat) (hcap : cap < 2 ^ 32)
    (hN : x * y * z < 2 ^ 31) :
    useSlowGVF p cap ⟨x, y, z⟩ = true ↔
      p.write3D = false ∧ cap < 4 * componentBytes p.vectors16bit * (x * y * z) := by
  have hNc : ((x : Int) * (y : Int) * (z : Int)) = ((x * y * z : Nat) : Int) := by
    push_cast; ring
  have hm : maxBufferSizeOf cap = cap := Nat.mod_eq_of_lt hcap
  simp only [useSlowGVF, hNc, requiredBytes_natCast p.vectors16bit (x * y * z) hN, hm,
    Bool.and_eq_true, Bool.not_eq_true', decide_eq_true_eq]

/-- C24 (as stated, refuted): (1) with 3D image writes available, capacity 1024 bytes and
an 8 x 8 x 8 volume with 32-bit vectors, the un-split vector field needs 8192 bytes, more
than the capacity, yet the standard variant runs; (2) on the staged path with capacity
8192 bytes, equal to the size of the vector field, the field is not allocated as a single
buffer (it is split) and again the standard variant runs. -/
theorem standard_gvf_although_field_does_not_fit :
    1024 < 4 * componentBytes false * (8 * 8 * 8) ∧
    largeSteps ⟨3, 5, 1 / 2, 1, 0, 1, "white", true, false, false, false⟩ 1024 ⟨8, 8, 8⟩ =
      [.largeBlur, .largeVectorField, .standardGVF, .largeCircleTDF] ∧
    (largePassBuffers 8192 false ⟨8, 8, 8⟩).usingTwoBuffers = true ∧
    largeSteps ⟨3, 5, 1 / 2, 1, 0, 1, "white", false, false, false, false⟩ 8192 ⟨8, 8, 8⟩ =
      [.largeBlur, .largeVectorField, .standardGVF, .largeCircleTDF] := by
  have h1 : useSlowGVF ⟨3, 5, 1 / 2, 1, 0, 1, "white", true, false, false, false⟩ 1024
      ⟨8, 8, 8⟩ = false := by decide
  have h2 : useSlowGVF ⟨3, 5, 1 / 2, 1, 0, 1, "white", false, false, false, false⟩ 8192
      ⟨8, 8, 8⟩ = false := by decide
  refine ⟨by decide, ?_, by decide, ?_⟩
  · simp only [largeSteps, h1]
    norm_num
  · simp only [largeSteps, h2]
    norm_num

/-- C24 (amended): in the large pass, for a device whose maximum allocation size is below
`2 ^ 32` bytes and a volume of fewer than `2 ^ 31` voxels, the multigrid variant runs if
use-fmg-gvf is set; otherwise the reduced-memory variant runs exactly when 3D image
writes are not available and the un-split vector field size `4 W N` exceeds the
capacity; otherwise the standard variant runs. On the staged path the vector field is
split in two buffers exactly when `4 W N ≥ capacity`. -/
theorem gvf_variant_selection {V F T R : Type} (ks : Kernels V F T R) (p : FilterParams)
    (cap : Nat) (x y z : Nat) (dataset : V) (hcap : cap < 2 ^ 32)
    (hN : x * y * z < 2 ^ 31) :
    largeVectorField ks p cap ⟨x, y, z⟩ dataset =
      (if p.useFmgGvf = true then
        ks.runFMGGVF (ks.createVectorField
          (if p.largeBlur > 0 then ks.blurVolumeWithGaussian dataset p.largeBlur else dataset)
          p.fmax (if p.mode = "black" then -1 else 1))
      else if p.write3D = false ∧ cap < 4 * componentBytes p.vectors16bit * (x * y * z) then
        ks.runGVF (ks.createVectorField
          (if p.largeBlur > 0 then ks.blurVolumeWithGaussian dataset p.largeBlur else dataset)
          p.fmax (if p.mode = "black" then -1 else 1)) true
      else
        ks.runGVF (ks.createVectorField
          (if p.largeBlur > 0 then ks.blurVolumeWithGaussian dataset p.largeBlur else dataset)
          p.fmax (if p.mode = "black" then -1 else 1)) false) ∧
    (FilterStep.fmgGVF ∈ largeSteps p cap ⟨x, y, z⟩ ↔ p.useFmgGvf = true) ∧
    (FilterStep.slowGVF ∈ largeSteps p cap ⟨x, y, z⟩ ↔
      p.useFmgGvf = false ∧ p.write3D = false ∧
        cap < 4 * componentBytes p.vectors16bit * (x * y * z)) ∧
    (FilterStep.standardGVF ∈ largeSteps p cap ⟨x, y, z⟩ ↔
      p.useFmgGvf = false ∧
        ¬ (p.write3D = false ∧ cap < 4 * componentBytes p.vectors16bit * (x * y * z))) ∧
    ((largePassBuffers cap p.vectors16bit ⟨x, y, z⟩).usingTwoBuffers = true ↔
      cap ≤ 4 * componentBytes p.vectors16bit * (x * y * z)) := by
  have hs := useSlowGVF_iff p cap x y z hcap hN
  have hNc : ((x : Int) * (y : Int) * (z : Int)) = ((x * y * z : Nat) : Int) := by
    push_cast; ring
  have hm : maxBufferSizeOf cap = cap := Nat.mod_eq_of_lt hcap
  have hreq := requiredBytes_natCast p.vectors16bit (x * y * z) hN
  refine ⟨?_, ?_, ?_, ?_, ?_⟩
  rotate_left 4
  · unfold largePassBuffers planVectorFieldBuffers
    simp only [hNc, hreq, hm]
    by_cases hc : 4 * componentBytes p.vectors16bit * (x * y * z) < cap
    · simp only [if_pos hc]
      exact ⟨fun h => Bool.noConfusion h, fun h => absurd hc (not_lt.mpr h)⟩
    · simp only [if_neg hc]
      exact ⟨fun _ => not_lt.mp hc, fun _ => trivial⟩
  · unfold largeVectorField
    by_cases hf : p.useFmgGvf = true
    · simp only [hf, if_true]
    · by_cases hc : p.write3D = false ∧ cap < 4 * componentBytes p.vectors16bit * (x * y * z)
      · simp only [hf, hs.mpr hc, if_pos hc, if_true, if_false]
      · have hsl : useSlowGVF p cap ⟨x, y, z⟩ = false := by
          rw [← Bool.not_eq_true, hs]; exact hc
        simp only [hf, hsl, if_neg hc, if_false, Bool.false_eq_true]
  all_goals
    unfold largeSteps
    by_cases hf : p.useFmgGvf = true
    · simp [hf]
      try (split_ifs <;> simp)
    · by_cases hc : p.write3D = false ∧ cap < 4 * componentBytes p.vectors16bit * (x * y * z)
      · simp [hf, hs.mpr hc, hc]
        try (split_ifs <;> simp)
      · have hsl : useSlowGVF p cap ⟨x, y, z⟩ = false := by
          rw [← Bool.not_eq_true, hs]; exact hc
        simp [hf, hsl, hc]
        try (split_ifs <;> simp)

theorem gvf_variant_selection_witness :
    FilterStep.slowGVF ∈ largeSteps
      ⟨3, 5, 1 / 2, 1, 0, 1, "white", false, false, false, false⟩ 1024
      ⟨(8 : Nat), (8 : Nat), (8 : Nat)⟩ ∧
    (largePassBuffers 1024 false ⟨(8 : Nat), (8 : Nat), (8 : Nat)⟩).usingTwoBuffers = true :=
  ⟨(gvf_variant_selection markingKernels
      ⟨3, 5, 1 / 2, 1, 0, 1, "white", false, false, false, false⟩ 1024 8 8 8 0
      (by norm_num) (by norm_num)).2.2.1.mpr ⟨rfl, rfl, by decide⟩,
    (gvf_variant_selection markingKernels
      ⟨3, 5, 1 / 2, 1, 0, 1, "white", false, false, false, false⟩ 1024 8 8 8 0
      (by norm_num) (by norm_num)).2.2.2.2.mpr (by decide)⟩

/-! ## The scans for the extremes of an integer buffer -/

theorem foldl_max_spec : ∀ (data : List ℚ) (init : ℚ),
    (data.foldl (fun maximum v => max maximum v) init = init ∨
      data.foldl (fun maximum v => max maximum v) init ∈ data) ∧
    init ≤ data.foldl (fun maximum v => max maximum v) init ∧
    ∀ v ∈ data, v ≤ data.foldl (fun maximum v => max maximum v) init := by
  intro data
  induction data with
  | nil => intro init; exact ⟨Or.inl rfl, le_refl _, fun v hv => by simp at hv⟩
  | cons x xs ih =>
    intro init
    obtain ⟨h1, h2, h3⟩ := ih (max init x)
    rw [List.foldl_cons]
    refine ⟨?_, le_trans (le_max_left _ _) h2, fun v hv => ?_⟩
    · rcases h1 with h1 | h1
      · rw [h1]
        rcases max_choice init x with hm | hm
        · exact Or.inl hm
        · right; rw [hm]; exact List.mem_cons_self _ _
      · exact Or.inr (List.mem_cons_of_mem _ h1)
    · rcases List.mem_cons.mp hv with hv | hv
      · rw [hv]; exact le_trans (le_max_right _ _) h2
      · exact h3 v hv

theorem foldl_min_spec : ∀ (data : List ℚ) (init : ℚ),
    (data.foldl (fun minimum v => min minimum v) init = init ∨
      data.foldl (fun minimum v => min minimum v) init ∈ data) ∧
    data.foldl (fun minimum v => min minimum v) init ≤ init ∧
    ∀ v ∈ data, data.foldl (fun minimum v => min minimum v) init ≤ v := by
  intro data
  induction data with
  | nil => intro init; exact ⟨Or.inl rfl, le_refl _, fun v hv => by simp at hv⟩
  | cons x xs ih =>
    intro init
    obtain ⟨h1, h2, h3⟩ := ih (min init x)
    rw [List.foldl_cons]
    refine ⟨?_, le_trans h2 (min_le_left _ _), fun v hv => ?_⟩
    · rcases h1 with h1 | h1
      · rw [h1]
        rcases min_choice init x with hm | hm
        · exact Or.inl hm
        · right; rw [hm]; exact List.mem_cons_self _ _
      · exact Or.inr (List.mem_cons_of_mem _ h1)
    · rcases List.mem_cons.mp hv with hv | hv
      · rw [hv]; exact le_trans h2 (min_le_right _ _)
      · exact h3 v hv

/-- C25: for each integer element type (`MET_CHAR`, `MET_UCHAR`, `MET_SHORT`,
`MET_USHORT`) and every non-empty buffer of values of that type, that is, values between
`numeric_limits<T>::min()` and `numeric_limits<T>::max()`, `getMinimum<T>` returns the
smallest element and `getMaximum<T>` the largest: both occur in the buffer and every
element lies between them. (For `float` the range condition excludes the values below
`numeric_limits<float>::min()`, among them all negative ones.) -/
theorem integer_scan_returns_extremes (T : ElementType) (data : List ℚ) (hne : data ≠ [])
    (hrange : ∀ v ∈ data, numericLimitsMin T ≤ v ∧ v ≤ numericLimitsMax T) :
    getMinimum T data ∈ data ∧ getMaximum T data ∈ data ∧
    ∀ v ∈ data, getMinimum T data ≤ v ∧ v ≤ getMaximum T data := by
  obtain ⟨a1, a2, a3⟩ := foldl_max_spec data (numericLimitsMin T)
  obtain ⟨b1, b2, b3⟩ := foldl_min_spec data (numericLimitsMax T)
  obtain ⟨w, hw⟩ := List.exists_mem_of_ne_nil data hne
  refine ⟨?_, ?_, fun v hv => ⟨b3 v hv, a3 v hv⟩⟩
  · rcases b1 with b1 | b1
    · have e : w = getMinimum T data :=
        le_antisymm (by rw [getMinimum, b1]; exact (hrange w hw).2) (b3 w hw)
      rw [← e]; exact hw
    · exact b1
  · rcases a1 with a1 | a1
    · have e : w = getMaximum T data :=
        le_antisymm (a3 w hw) (by rw [getMaximum, a1]; exact (hrange w hw).1)
      rw [← e]; exact hw
    · exact a1

theorem integer_scan_returns_extremes_witness :
    getMinimum .short [-3, -1, -7] ∈ [(-3 : ℚ), -1, -7] ∧
    getMaximum .short [-3, -1, -7] ∈ [(-3 : ℚ), -1, -7] ∧
    ∀ v ∈ [(-3 : ℚ), -1, -7],
      getMinimum .short [-3, -1, -7] ≤ v ∧ v ≤ getMaximum .short [-3, -1, -7] :=
  integer_scan_returns_extremes .short [-3, -1, -7] (by decide)
    (by
      intro v hv
      simp only [List.mem_cons, List.mem_singleton, List.not_mem_nil, or_false] at hv
      rcases hv with h | h | h <;> subst h <;> norm_num [numericLimitsMin, numericLimitsMax])

/-! ## The limits of a retried attempt -/

/-- For `MET_USHORT` data and one of the two named presets, loading returns the numbers
read from the two option texts, each increased by 1024, for every parameter store that
holds the three options. -/
theorem loadLimits_of_preset (sprintfF : ℚ → String) (parameters : ParamList)
    (data : List ℚ) (vmin vmax vpre : StringParameter)
    (hmin : parameters.strings "minimum" = some vmin)
    (hmax : parameters.strings "maximum" = some vmax)
    (hpre : parameters.strings "parameters" = some vpre)
    (hp : vpre.value = "Lung-Airways-CT" ∨ vpre.value = "AAA-Vessels-CT") :
    loadLimits sprintfF parameters .ushort data =
      some (rebased vmin.value, rebased vmax.value,
        (parameters.setString "minimum"
          (vmin.set (sprintfF (rebased vmin.value)))).setString "maximum"
          (vmax.set (sprintfF (rebased vmax.value)))) := by
  have hne : ("maximum" = "minimum") = False := by decide
  simp only [loadLimits, getLimits, getParamStr, rebaseLimits, ParamList.setString, hmin,
    hmax, hpre, Option.map_some', hne, if_false, if_true, hp]

/-- Loading twice with the same parameter store, as a retry does: when the options have
no list of possibilities and the printed limits are read back as the same numbers, the
second load returns the limits of the first load increased by 1024 once more. -/
theorem loadLimits_twice (sprintfF : ℚ → String) (parameters : ParamList)
    (data : List ℚ) (smin smax : String) (vpre : StringParameter)
    (hmin : parameters.strings "minimum" = some ⟨smin, []⟩)
    (hmax : parameters.strings "maximum" = some ⟨smax, []⟩)
    (hpre : parameters.strings "parameters" = some vpre)
    (hp : vpre.value = "Lung-Airways-CT" ∨ vpre.value = "AAA-Vessels-CT")
    (hrmin : rebased (sprintfF (rebased smin)) = rebased smin + 1024)
    (hrmax : rebased (sprintfF (rebased smax)) = rebased smax + 1024) :
    ∃ parameters' parameters'',
      loadLimits sprintfF parameters .ushort data =
        some (rebased smin, rebased smax, parameters') ∧
      loadLimits sprintfF parameters' .ushort data =
        some (rebased smin + 1024, rebased smax + 1024,
          parameters'') := by
  have h1 := loadLimits_of_preset sprintfF parameters data ⟨smin, []⟩ ⟨smax, []⟩ vpre
    hmin hmax hpre hp
  have hne : ("maximum" = "minimum") = False := by decide
  have hne' : ("minimum" = "maximum") = False := by decide
  have hne2 : ("parameters" = "minimum") = False := by decide
  have hne3 : ("parameters" = "maximum") = False := by decide
  have h2 := loadLimits_of_preset sprintfF
    ((parameters.setString "minimum"
      (StringParameter.set ⟨smin, []⟩ (sprintfF (rebased smin)))).setString
      "maximum" (StringParameter.set ⟨smax, []⟩ (sprintfF (rebased smax))))
    data ⟨sprintfF (rebased smin), []⟩ ⟨sprintfF (rebased smax), []⟩
    vpre
    (by simp [ParamList.setString, StringParameter.set, StringParameter.validate, hne'])
    (by simp [ParamList.setString, StringParameter.set, StringParameter.validate])
    (by simp [ParamList.setString, hne2, hne3, hpre]) hp
  simp only at h1 h2
  rw [hrmin, hrmax] at h2
  exact ⟨_, _, h1, h2⟩

/-- C27 (failing input): `MET_USHORT` data holding 100 and 200, preset `Lung-Airways-CT`,
options minimum and maximum 'off'; the first attempt fails with
`CL_INVALID_COMMAND_QUEUE` after loading and `run` retries with the same parameter store.
The first attempt uses the limits (1024, 1024) and writes the text 1024.000000 into both
options; the retry reads these texts and adds 1024 again, so it uses (2048, 2048). With
the options set to -900 and 600 the two attempts use (124, 1624) and (1148, 2648). -/
theorem retry_rebases_limits_again :
    formatF 1024 = "1024.000000" ∧
    (runWithLoading formatF .ushort [100, 200]
      (outcomesOf [.clError CL_INVALID_COMMAND_QUEUE] (.success (0 : Nat))) 3 0 0
      (limitOptions "off" "off" "Lung-Airways-CT") []).limits =
        [(1024, 1024), (2048, 2048)] ∧
    (runWithLoading formatF .ushort [100, 200]
      (outcomesOf [.clError CL_INVALID_COMMAND_QUEUE] (.success (0 : Nat))) 3 0 0
      (limitOptions "off" "off" "Lung-Airways-CT") []).result = .returned 0 ∧
    (runWithLoading formatF .ushort [100, 200]
      (outcomesOf [.clError CL_INVALID_COMMAND_QUEUE] (.success (0 : Nat))) 3 0 0
      (limitOptions "-900" "600" "Lung-Airways-CT") []).limits =
        [(124, 1624), (1148, 2648)] := by
  refine ⟨by decide, by decide!, by decide, by decide!⟩

/-! ## Empty buffers in split mode -/

/-- C28 (failing inputs): an 8 x 8 x 8 volume with 32-bit vectors, whose vector field
needs 8192 bytes. (1) With capacity 8192 the test `4 W N < capacity` fails, the split
branch is taken, the boundary is 8 = z and buffer B has 0 bytes. (2) With capacity 512,
less than one slice (1024 bytes), the boundary is 0 and buffer A has 0 bytes. (3) With a
device capacity of `2 ^ 32`, held as 0 in the `unsigned int`, the boundary is again 0 and
buffer A has 0 bytes. This holds in both passes. -/
theorem split_boundary_can_be_zero_or_z :
    8192 ≤ 4 * componentBytes false * (8 * 8 * 8) ∧
    smallPassBuffers 8192 false ⟨8, 8, 8⟩ = ⟨true, 8, 8192, some 0⟩ ∧
    largePassBuffers 8192 false ⟨8, 8, 8⟩ = ⟨true, 8, 8192, some 0⟩ ∧
    copyBuffersToImage 8192 false ⟨8, 8, 8⟩ = [⟨1, 0, 8⟩, ⟨2, 8, 0⟩] ∧
    512 ≤ 4 * componentBytes false * (8 * 8 * 8) ∧
    largePassBuffers 512 false ⟨8, 8, 8⟩ = ⟨true, 0, 0, some 8192⟩ ∧
    copyBuffersToImage 512 false ⟨8, 8, 8⟩ = [⟨1, 0, 0⟩, ⟨2, 0, 8⟩] ∧
    largePassBuffers (2 ^ 32) false ⟨8, 8, 8⟩ = ⟨true, 0, 0, some 8192⟩ := by
  decide

/-! ## `setParameter` -/

/-- For a name held in the map of booleans, `setParameter` succeeds and the parameter is
`true` afterwards, whatever the value text and whatever it was before. -/
theorem setParameter_bool (parameters : ParamList) (name value : String) (v : BoolParameter)
    (h : parameters.bools name = some v) :
    ∃ p, setParameter parameters name value = some p ∧ getParamBool p name = some true := by
  refine ⟨parameters.setBool name (v.set true), by simp only [setParameter, h], ?_⟩
  simp [getParamBool, ParamList.setBool, BoolParameter.set, BoolParameter.get]

/-- C29 (failing input): a parameter list in which `16bit-vectors` is `false`. After
`setParameter(parameters, "16bit-vectors", "false")` the returned list has the parameter
`true`: the boolean branch ignores the value text and calls `v.set(true)`. The same holds
for the value text "true" and for a parameter that was `true` before. -/
theorem setParameter_false_enables_bool :
    getParamBool sampleParameters "16bit-vectors" = some false ∧
    (setParameter sampleParameters "16bit-vectors" "false").bind
      (fun p => getParamBool p "16bit-vectors") = some true ∧
    (setParameter sampleParameters "16bit-vectors" "true").bind
      (fun p => getParamBool p "16bit-vectors") = some true ∧
    ((setParameter sampleParameters "16bit-vectors" "true").bind
      (fun p => setParameter p "16bit-vectors" "false")).bind
      (fun p => getParamBool p "16bit-vectors") = some true := by
  decide

/-- The check `NumericParameter::validate` when the step is not zero and neither the
difference nor the quotient overflows: the value lies in `[min, max]` and the
single-precision quotient of the single-precision difference `value - min` by the step
is a whole number. -/
theorem NumericParameter_validate_iff (v : NumericParameter) (x : ℚ) (hstep : v.step ≠ 0)
    (hd : isFiniteFloat (toFloat (x - v.min)) = true)
    (hq : isFiniteFloat (toFloat (toFloat (x - v.min) / v.step)) = true) :
    v.validate x = true ↔
      v.min ≤ x ∧ x ≤ v.max ∧ ∃ k : Int, toFloat (toFloat (x - v.min) / v.step) = k := by
  simp only [NumericParameter.validate, floatSub, hd, if_true, floatDiv, if_neg hstep, hq,
    floorIsSelf, Bool.and_eq_true, decide_eq_true_eq, ge_iff_le, and_assoc]
  constructor
  · rintro ⟨h1, h2, h3⟩
    exact ⟨h1, h2, ⌊toFloat (toFloat (x - v.min) / v.step)⌋, h3.symm⟩
  · rintro ⟨h1, h2, k, hk⟩
    refine ⟨h1, h2, ?_⟩
    rw [hk, Int.floor_intCast]

/-- A value written with an exponent is read as `strtod` reads it: 1e2 is 100, above the
maximum 50 of `tenths`, and is rejected; 15e-1 is 1.5 and is accepted. -/
theorem setParameter_reads_exponents :
    (setParameter gridParameters "tenths" "1e2").isSome = false ∧
    ((setParameter gridParameters "tenths" "15e-1").bind fun p => getParam p "tenths") =
      some (3 / 2) := by
  refine ⟨by decide!, by decide!⟩

/-- C30 (as stated, refuted): the grid test of `NumericParameter::validate` is made in
single precision. For the parameter `tenths` with minimum 0, maximum 50 and step 0.1 the
value 1.3 lies in `[0, 50]` and on the grid (`1.3 = 0 + 13 * 0.1`), yet `setParameter`
raises: the `float` quotient `1.3f / 0.1f` is 12.999999. For the parameter `even` with
minimum 0 and step 2 the value 16777217 is not on the grid, yet `setParameter` accepts it
and stores 16777216. -/
theorem grid_test_is_single_precision :
    gridParameters.numerics "tenths" = some ⟨1, 0, 50, 13421773 / 2 ^ 27⟩ ∧
    (setParameter gridParameters "tenths" "1.3").isSome = false ∧
    ((0 : ℚ) ≤ 13 / 10 ∧ (13 / 10 : ℚ) ≤ 50 ∧ (13 / 10 : ℚ) = 0 + 13 * (1 / 10)) ∧
    floatDiv (floatSub (toFloat (atof "1.3".toList)) 0) (13421773 / 2 ^ 27) =
      .finite (13631487 / 2 ^ 20) ∧
    gridParameters.numerics "even" = some ⟨0, 0, 1000000000, 2⟩ ∧
    ((setParameter gridParameters "even" "16777217").bind fun p => getParam p "even") =
      some 16777216 ∧
    ¬ ∃ k : Int, (16777217 : ℚ) = 0 + k * 2 := by
  refine ⟨by decide!, by decide!, by norm_num, by decide!, by decide!, by decide!, ?_⟩
  rintro ⟨k, hk⟩
  have h : (16777217 : Int) = 0 + k * 2 := by exact_mod_cast hk
  omega

/-- C30 (amended): `setParameter` either fails or changes only the named parameter. For
every parameter list, name and value (a decimal number text when the name is that of a
numeric parameter) it raises an exception exactly when the name is in none of the three
maps, or the name is that of a numeric parameter whose check `NumericParameter::validate`
rejects the number read from the value and converted to `float`, or the name is that of
a text parameter with a non-empty list of possibilities that does not hold the value (a
name is looked up among the booleans first, then the numerics, then the texts).
Otherwise it returns a list in which every entry under another name is the same as in
the input; the input list itself is passed by value and is never changed. The numeric
check accepts a value exactly when it lies in `[min, max]` and the single-precision
quotient of the single-precision difference `value - min` by the step is a whole number
(for a non-zero step, when neither operation overflows). -/
theorem setParameter_changes_only_named (parameters : ParamList) (name value : String)
    (hdec : ∀ v, parameters.bools name = none → parameters.numerics name = some v →
      isDecimalText value.toList = true) :
    (setParameter parameters name value = none ↔
      parameters.bools name = none ∧
        ((parameters.numerics name = none ∧ parameters.strings name = none) ∨
          (∃ v, parameters.numerics name = some v ∧ isDecimalText value.toList = true ∧
            v.validate (toFloat (atof value.toList)) = false) ∨
          (parameters.numerics name = none ∧
            ∃ v, parameters.strings name = some v ∧ v.possibilities ≠ [] ∧
              value ∉ v.possibilities))) ∧
    (∀ p, setParameter parameters name value = some p →
      ∀ n, n ≠ name →
        p.bools n = parameters.bools n ∧ p.numerics n = parameters.numerics n ∧
          p.strings n = parameters.strings n) ∧
    (∀ (v : NumericParameter) (x : ℚ), v.step ≠ 0 →
      isFiniteFloat (toFloat (x - v.min)) = true →
      isFiniteFloat (toFloat (toFloat (x - v.min) / v.step)) = true →
      (v.validate x = true ↔
        v.min ≤ x ∧ x ≤ v.max ∧
          ∃ k : Int, toFloat (toFloat (x - v.min) / v.step) = k)) := by
  refine ⟨?_, ?_, fun v x h hd hq => NumericParameter_validate_iff v x h hd hq⟩
  · unfold setParameter
    cases hb : parameters.bools name with
    | some v => simp
    | none =>
      cases hn : parameters.numerics name with
      | some v =>
        have hd := hdec v hb hn
        cases hv : v.validate (toFloat (atof value.toList))
        · simp only [hv, Bool.not_false, if_true, true_and, false_and, false_or, or_false,
            Option.some.injEq, exists_eq_left', and_true, true_iff]
          exact Or.inr (Or.inl hd)
        · simp only [hv, Bool.not_true, Bool.false_eq_true, if_false]
          constructor
          · intro h
            cases h
          · rintro ⟨_, h⟩
            rcases h with ⟨h1, _⟩ | ⟨w, hw, _, hf⟩ | ⟨h1, _⟩
            · cases h1
            · have e := Option.some.inj hw
              rw [← e, hv] at hf
              cases hf
            · cases h1
      | none =>
        cases hs : parameters.strings name with
        | none => simp
        | some v =>
          cases hp : v.possibilities with
          | nil => simp [StringParameter.validate, hp]
          | cons a l => simp [StringParameter.validate, hp]
  · intro p hp n hn
    unfold setParameter at hp
    cases hb : parameters.bools name with
    | some v =>
      rw [hb] at hp
      have e := Option.some.inj hp
      rw [← e]
      simp [ParamList.setBool, hn]
    | none =>
      rw [hb] at hp
      cases hnum : parameters.numerics name with
      | some v =>
        rw [hnum] at hp
        cases hv : v.validate (toFloat (atof value.toList))
        · dsimp only at hp
          rw [hv] at hp
          exact absurd hp (by simp)
        · simp only [hv, Bool.not_true, Bool.false_eq_true, if_false] at hp
          have e := Option.some.inj hp
          rw [← e]
          simp [ParamList.setNumeric, hn]
      | none =>
        rw [hnum] at hp
        cases hs : parameters.strings name with
        | none => rw [hs] at hp; cases hp
        | some v =>
          rw [hs] at hp
          cases hv : v.validate value
          · dsimp only at hp
            rw [hv] at hp
            exact absurd hp (by simp)
          · simp only [hv, Bool.not_true, Bool.false_eq_true, if_false] at hp
            have e := Option.some.inj hp
            rw [← e]
            simp [ParamList.setString, hn]

theorem setParameter_changes_only_named_witness :
    setParameter gridParameters "tenths" "1.3" = none ∧
    setParameter sampleParameters "mode" "grey" = none ∧
    setParameter sampleParameters "unknown" "1" = none ∧
    (∀ p, setParameter gridParameters "tenths" "1.5" = some p →
      ∀ n, n ≠ "tenths" →
        p.bools n = gridParameters.bools n ∧ p.numerics n = gridParameters.numerics n ∧
          p.strings n = gridParameters.strings n) :=
  ⟨(setParameter_changes_only_named gridParameters "tenths" "1.3"
      (fun _ _ _ => by decide)).1.mpr
      ⟨rfl, Or.inr (Or.inl ⟨⟨1, 0, 50, 13421773 / 2 ^ 27⟩, by decide!, by decide,
        by decide!⟩)⟩,
    (setParameter_changes_only_named sampleParameters "mode" "grey"
      (fun _ _ h => by cases h)).1.mpr
      ⟨rfl, Or.inr (Or.inr ⟨rfl, ⟨"black", ["black", "white"]⟩, rfl, by decide, by decide⟩)⟩,
    (setParameter_changes_only_named sampleParameters "unknown" "1"
      (fun _ _ h => by cases h)).1.mpr ⟨rfl, Or.inl ⟨rfl, rfl⟩⟩,
    (setParameter_changes_only_named gridParameters "tenths" "1.5"
      (fun _ _ _ => by decide)).2.1⟩

end TSF
